import Mathlib

/-!
The aws-auth-merger: merge engine, source reader, upsert, migration and debouncer.

A shallow embedding of `modules/eks-aws-auth-merger/aws-auth-merger` (`mapping.go`,
`aws_auth_merger.go`, `debouncer.go`) together with theorems about it.

Conventions of the embedding

* A Go slice is a `Slice α`, that is `Option (List α)`: `none` is the `nil` slice and
  `some l` a non-nil slice holding `l`.  `range` over a slice visits `Slice.elems`.
  A local slice that starts as a non-nil literal and only grows by `append` is kept as
  a `List` and returned as `some`.
* A Go `(value, error)` result is a pair whose second component is `Option GoError`
  (`none` is the `nil` error).
* A Go `map[string]string` is an association list read with `List.lookup`; the code only
  reads maps and builds them from literals, and a `nil` map reads like the empty one.
* `errors.WithStackTrace` only attaches a stack trace to the error it is given; the
  embedding keeps the error value and drops the trace.  Logging is dropped as well.
* The YAML and JSON codecs, the time formatter and the Kubernetes client are libraries
  outside the repository; they are parameters (`Lib`, `KubeClient`).  What the store
  behind the client does is stated as `StoreLaws`, and `sampleClient` is an in-memory
  store that obeys them.
* The debouncer runs on explicit time: timers, callbacks and the buffered channel of the
  Go runtime are part of the state `Debouncer`, and time passes in ticks.
-/

namespace EksAwsAuthMerger

/-! ## Data model (`mapping.go`) -/

/-- Go slice: `none` is the nil slice, `some l` a non-nil slice with elements `l`. -/
abbrev Slice (α : Type) := Option (List α)

/-- The elements a `range` loop over the slice visits (none for the nil slice). -/
def Slice.elems {α : Type} : Slice α → List α
  | none => []
  | some l => l

/-- Go `type mappingType string`. -/
abbrev mappingType := String

def roleMappingType : mappingType := "Role"
def userMappingType : mappingType := "User"

structure RoleMapping where
  RoleArn : String
  Username : String
  Groups : Slice String
  deriving DecidableEq, Repr

structure UserMapping where
  UserArn : String
  Username : String
  Groups : Slice String
  deriving DecidableEq, Repr

structure MappingConflictErr where
  mappingType : mappingType
  arn : String
  deriving DecidableEq, Repr

/-- An error value produced by a library outside the repository (YAML or JSON codec,
Kubernetes API).  `reason` is the API status reason, `message` the text of `Error()`. -/
structure LibError where
  reason : String
  message : String
  deriving DecidableEq, Repr

structure InvalidMappingListErr where
  mappingType : mappingType
  configMapName : String
  underlyingErr : LibError
  deriving DecidableEq, Repr

/-- The error values that flow through the merger. -/
inductive GoError where
  | mappingConflict (e : MappingConflictErr)
  | invalidMappingList (e : InvalidMappingListErr)
  | lib (e : LibError)
  deriving DecidableEq, Repr

/-- First loop of `mergeRoleMappingLists`: record every `RoleArn` of `A` in `seen` and
append the entry to the new list. -/
def mergeRoleMappingLists.loopA :
    List RoleMapping → List String × List RoleMapping → List String × List RoleMapping
  | [], st => st
  | roleMapping :: rest, (seen, newRoleMapping) =>
    mergeRoleMappingLists.loopA rest (roleMapping.RoleArn :: seen, newRoleMapping ++ [roleMapping])

/-- Second loop of `mergeRoleMappingLists`: an entry whose `RoleArn` is in `seen` aborts
with `nil` and a conflict error, any other entry is appended (`seen` is not extended). -/
def mergeRoleMappingLists.loopB (seen : List String) :
    List RoleMapping → List RoleMapping → Slice RoleMapping × Option GoError
  | [], newRoleMapping => (some newRoleMapping, none)
  | roleMapping :: rest, newRoleMapping =>
    if roleMapping.RoleArn ∈ seen then
      (none, some (GoError.mappingConflict ⟨roleMappingType, roleMapping.RoleArn⟩))
    else
      mergeRoleMappingLists.loopB seen rest (newRoleMapping ++ [roleMapping])

def mergeRoleMappingLists (roleMappingA roleMappingB : Slice RoleMapping) :
    Slice RoleMapping × Option GoError :=
  let st := mergeRoleMappingLists.loopA roleMappingA.elems ([], [])
  mergeRoleMappingLists.loopB st.1 roleMappingB.elems st.2

def mergeUserMappingLists.loopA :
    List UserMapping → List String × List UserMapping → List String × List UserMapping
  | [], st => st
  | userMapping :: rest, (seen, newUserMapping) =>
    mergeUserMappingLists.loopA rest (userMapping.UserArn :: seen, newUserMapping ++ [userMapping])

def mergeUserMappingLists.loopB (seen : List String) :
    List UserMapping → List UserMapping → Slice UserMapping × Option GoError
  | [], newUserMapping => (some newUserMapping, none)
  | userMapping :: rest, newUserMapping =>
    if userMapping.UserArn ∈ seen then
      (none, some (GoError.mappingConflict ⟨userMappingType, userMapping.UserArn⟩))
    else
      mergeUserMappingLists.loopB seen rest (newUserMapping ++ [userMapping])

def mergeUserMappingLists (userMappingA userMappingB : Slice UserMapping) :
    Slice UserMapping × Option GoError :=
  let st := mergeUserMappingLists.loopA userMappingA.elems ([], [])
  mergeUserMappingLists.loopB st.1 userMappingB.elems st.2

/-- Go `InvalidMappingListErr.Error`; `%s` of the underlying error prints its message. -/
def InvalidMappingListErr.Error (err : InvalidMappingListErr) : String :=
  if err.mappingType = roleMappingType then
    "Error parsing mapRoles on ConfigMap " ++ err.configMapName ++ " : " ++
      err.underlyingErr.message
  else if err.mappingType = userMappingType then
    "Error parsing mapUsers on ConfigMap " ++ err.configMapName ++ " : " ++
      err.underlyingErr.message
  else
    "Unknown mapping type: " ++ err.mappingType

/-! ## ConfigMaps and the libraries (`aws_auth_merger.go`) -/

/-- Go `map[string]string`, read with `List.lookup`. -/
abbrev StrMap := List (String × String)

/-- The fields of `corev1.ConfigMap` (with its embedded `ObjectMeta`) that the merger
reads or writes.  The default value of every field is the Go zero value. -/
structure ConfigMap where
  Name : String := ""
  GenerateName : String := ""
  Namespace : String := ""
  Labels : StrMap := []
  Annotations : StrMap := []
  Data : StrMap := []
  deriving DecidableEq, Repr

/-- A clock reading (`time.Time`). -/
abbrev Time := Nat

/-- The library functions the merge engine calls: `yaml.Unmarshal` at the two list
types, `yaml.Marshal` at the two list types, `json.Marshal` at `[]string`, and
`Time.UTC().Format("2006-01-02T15:04:05Z")`. -/
structure Lib where
  yamlUnmarshalRoles : String → Except LibError (Slice RoleMapping)
  yamlUnmarshalUsers : String → Except LibError (Slice UserMapping)
  yamlMarshalRoles : Slice RoleMapping → Except LibError String
  yamlMarshalUsers : Slice UserMapping → Except LibError String
  jsonMarshal : Slice String → Except LibError String
  formatUTC : Time → String

def mainAwsAuthConfigMapNamespace : String := "kube-system"
def mainAwsAuthConfigMapName : String := "aws-auth"
def managedByLabelKey : String := "gruntwork.io/managed-by"
def managedByLabelValue : String := "aws-auth-merger"
def sourcesAnnotationKey : String := "gruntwork.io/aws-auth-merger-sources"
def mergedTimestampAnnotationKey : String := "gruntwork.io/aws-auth-merger-timestamp"
def mapRolesKey : String := "mapRoles"
def mapUsersKey : String := "mapUsers"

def getRoleMappingFromConfigMap (lib : Lib) (configmap : ConfigMap) :
    Slice RoleMapping × Option GoError :=
  match configmap.Data.lookup mapRolesKey with
  | none => (some [], none)
  | some mapRolesRaw =>
    match lib.yamlUnmarshalRoles mapRolesRaw with
    | .error err =>
      (none, some (GoError.invalidMappingList ⟨roleMappingType, configmap.Name, err⟩))
    | .ok currentRoleMapping => (currentRoleMapping, none)

def getUserMappingFromConfigMap (lib : Lib) (configmap : ConfigMap) :
    Slice UserMapping × Option GoError :=
  match configmap.Data.lookup mapUsersKey with
  | none => (some [], none)
  | some mapUsersRaw =>
    match lib.yamlUnmarshalUsers mapUsersRaw with
    | .error err =>
      (none, some (GoError.invalidMappingList ⟨userMappingType, configmap.Name, err⟩))
    | .ok currentUserMapping => (currentUserMapping, none)

/-- The `for` loop of `mergeAwsAuthConfigMaps` over the remaining sources, started from
the current values of `sources`, `mapRolesMerged` and `mapUsersMerged`.  `Except.error`
is the early `return merged, err`. -/
def mergeAwsAuthConfigMaps.loop (lib : Lib) :
    List ConfigMap → List String × Slice RoleMapping × Slice UserMapping →
      Except GoError (List String × Slice RoleMapping × Slice UserMapping)
  | [], st => .ok st
  | configmap :: rest, (sources, mapRolesMerged, mapUsersMerged) =>
    let sources := sources ++ [configmap.Name]
    match getRoleMappingFromConfigMap lib configmap with
    | (_, some err) => .error err
    | (currentMapRoles, none) =>
      match mergeRoleMappingLists mapRolesMerged currentMapRoles with
      | (_, some err) => .error err
      | (mapRolesMerged, none) =>
        match getUserMappingFromConfigMap lib configmap with
        | (_, some err) => .error err
        | (currentMapUsers, none) =>
          match mergeUserMappingLists mapUsersMerged currentMapUsers with
          | (_, some err) => .error err
          | (mapUsersMerged, none) =>
            mergeAwsAuthConfigMaps.loop lib rest (sources, mapRolesMerged, mapUsersMerged)

/-- Go `mergeAwsAuthConfigMaps`; `now` is the reading of `time.Now()`. -/
def mergeAwsAuthConfigMaps (lib : Lib) (now : Time) (configmaps : Slice ConfigMap) :
    ConfigMap × Option GoError :=
  let merged : ConfigMap := {}
  match mergeAwsAuthConfigMaps.loop lib configmaps.elems ([], some [], some []) with
  | .error err => (merged, some err)
  | .ok (sources, mapRolesMerged, mapUsersMerged) =>
    match lib.jsonMarshal (some sources) with
    | .error err => (merged, some (GoError.lib err))
    | .ok sourcesJson =>
      match lib.yamlMarshalRoles mapRolesMerged with
      | .error err => (merged, some (GoError.lib err))
      | .ok mapRolesYaml =>
        match lib.yamlMarshalUsers mapUsersMerged with
        | .error err => (merged, some (GoError.lib err))
        | .ok mapUsersYaml =>
          let currentTimeStr := lib.formatUTC now
          ({ merged with
              Name := mainAwsAuthConfigMapName
              Namespace := mainAwsAuthConfigMapNamespace
              Labels := [(managedByLabelKey, managedByLabelValue)]
              Annotations := [(sourcesAnnotationKey, sourcesJson),
                              (mergedTimestampAnnotationKey, currentTimeStr)]
              Data := [(mapRolesKey, mapRolesYaml), (mapUsersKey, mapUsersYaml)] }, none)

/-! ## The Kubernetes client and the merge-and-upsert cycle -/

/-- One page of a `List` response: `Items` and the `Continue` token. -/
structure ConfigMapList where
  Items : Slice ConfigMap
  Continue : String
  deriving DecidableEq, Repr

/-- The `ConfigMaps(namespace)` interface of the client set over a backing store of
type `σ`.  `get` and `list` read the store; `create` and `update` return the store
after the call.  Arguments: namespace, then name for `get`, label selector and continue
token for `list`, and the object for `create` and `update`. -/
structure KubeClient (σ : Type) where
  get : σ → String → String → Except LibError ConfigMap
  list : σ → String → String → String → Except LibError ConfigMapList
  create : σ → String → ConfigMap → σ × Except LibError ConfigMap
  update : σ → String → ConfigMap → σ × Except LibError ConfigMap

/-- A request sent to the API server. -/
inductive ApiCall where
  | get (ns name : String)
  | list (ns labelSelector continueToken : String)
  | create (ns : String) (configmap : ConfigMap)
  | update (ns : String) (configmap : ConfigMap)
  deriving DecidableEq, Repr

/-- Whether the request is a `Create` or an `Update`. -/
def ApiCall.isWrite : ApiCall → Bool
  | .create _ _ => true
  | .update _ _ => true
  | _ => false

/-- The backing store together with the requests issued so far, oldest first. -/
structure World (σ : Type) where
  store : σ
  calls : List ApiCall

/-- The fields of Go `AwsAuthMerger` used by the cycle (`namespace` is spelled
`namespace_`, the Go name being a keyword here). -/
structure AwsAuthMerger (σ : Type) where
  namespace_ : String
  labelSelector : String
  autoCreateLabels : StrMap
  clientset : KubeClient σ

def AwsAuthMerger.callGet {σ : Type} (authMerger : AwsAuthMerger σ) (w : World σ)
    (ns name : String) : World σ × Except LibError ConfigMap :=
  ({ w with calls := w.calls ++ [ApiCall.get ns name] }, authMerger.clientset.get w.store ns name)

def AwsAuthMerger.callList {σ : Type} (authMerger : AwsAuthMerger σ) (w : World σ)
    (ns labelSelector continueToken : String) : World σ × Except LibError ConfigMapList :=
  ({ w with calls := w.calls ++ [ApiCall.list ns labelSelector continueToken] },
    authMerger.clientset.list w.store ns labelSelector continueToken)

def AwsAuthMerger.callCreate {σ : Type} (authMerger : AwsAuthMerger σ) (w : World σ)
    (ns : String) (configmap : ConfigMap) : World σ × Except LibError ConfigMap :=
  let r := authMerger.clientset.create w.store ns configmap
  ({ store := r.1, calls := w.calls ++ [ApiCall.create ns configmap] }, r.2)

def AwsAuthMerger.callUpdate {σ : Type} (authMerger : AwsAuthMerger σ) (w : World σ)
    (ns : String) (configmap : ConfigMap) : World σ × Except LibError ConfigMap :=
  let r := authMerger.clientset.update w.store ns configmap
  ({ store := r.1, calls := w.calls ++ [ApiCall.update ns configmap] }, r.2)

/-- Go `append(s, xs...)` on slices: appending nothing to the nil slice leaves it nil. -/
def Slice.append {α : Type} : Slice α → List α → Slice α
  | none, [] => none
  | s, xs => some (s.elems ++ xs)

/-- Go `k8serrors.IsNotFound`: the status reason of the error is `NotFound`. -/
def IsNotFound (err : LibError) : Bool := err.reason == "NotFound"

/-- The pagination loop of `listAwsAuthConfigMaps`, entered with the last page received
and the items gathered so far.  The loop runs for as long as the server hands out
continue tokens; `fuel` bounds the number of further pages and `none` means that the
bound was reached. -/
def listAwsAuthConfigMaps.loop {σ : Type} (authMerger : AwsAuthMerger σ) :
    Nat → World σ → ConfigMapList → Slice ConfigMap →
      Option (World σ × Slice ConfigMap × Option GoError)
  | fuel, w, configmapList, allConfigMaps =>
    if configmapList.Continue = "" then
      some (w, allConfigMaps, none)
    else
      match fuel with
      | 0 => none
      | fuel + 1 =>
        match authMerger.callList w authMerger.namespace_ authMerger.labelSelector
            configmapList.Continue with
        | (w, .error err) => some (w, none, some (GoError.lib err))
        | (w, .ok configmapList) =>
          listAwsAuthConfigMaps.loop authMerger fuel w configmapList
            (allConfigMaps.append configmapList.Items.elems)

def listAwsAuthConfigMaps {σ : Type} (authMerger : AwsAuthMerger σ) (fuel : Nat)
    (w : World σ) : Option (World σ × Slice ConfigMap × Option GoError) :=
  match authMerger.callList w authMerger.namespace_ authMerger.labelSelector "" with
  | (w, .error err) => some (w, none, some (GoError.lib err))
  | (w, .ok configmapList) =>
    listAwsAuthConfigMaps.loop authMerger fuel w configmapList configmapList.Items

def upsertConfigMap {σ : Type} (authMerger : AwsAuthMerger σ) (w : World σ)
    (configmap : ConfigMap) : World σ × Bool × Option GoError :=
  match authMerger.callGet w configmap.Namespace configmap.Name with
  | (w, r) =>
    let existing : Except GoError (Option ConfigMap) :=
      match r with
      | .error err => if !IsNotFound err then .error (GoError.lib err) else .ok none
      | .ok result => .ok (some result)
    match existing with
    | .error err => (w, false, some err)
    | .ok none =>
      match authMerger.callCreate w configmap.Namespace configmap with
      | (w, .error err) => (w, false, some (GoError.lib err))
      | (w, .ok _) => (w, true, none)
    | .ok (some _) =>
      match authMerger.callUpdate w configmap.Namespace configmap with
      | (w, .error err) => (w, false, some (GoError.lib err))
      | (w, .ok _) => (w, false, none)

/-- Go `syncAwsAuthConfigMaps`; `now` is the clock reading taken by the merge and
`fuel` the page bound of the listing (`none`: bound reached). -/
def syncAwsAuthConfigMaps {σ : Type} (lib : Lib) (authMerger : AwsAuthMerger σ)
    (now : Time) (fuel : Nat) (w : World σ) : Option (World σ × Option GoError) :=
  match listAwsAuthConfigMaps authMerger fuel w with
  | none => none
  | some (w, _, some err) => some (w, some err)
  | some (w, configmaps, none) =>
    match mergeAwsAuthConfigMaps lib now configmaps with
    | (_, some err) => some (w, some err)
    | (merged, none) =>
      match upsertConfigMap authMerger w merged with
      | (w, _, some err) => some (w, some err)
      | (w, _, none) => some (w, none)

def autoCreateAnnotationKey : String := "gruntwork.io/aws-auth-merger-created"
def preExistingConfigMapCreateName : String := "preexisting-aws-auth"

def getMainAwsAuthConfigMap {σ : Type} (authMerger : AwsAuthMerger σ) (w : World σ) :
    World σ × Option ConfigMap × Option GoError :=
  match authMerger.callGet w mainAwsAuthConfigMapNamespace mainAwsAuthConfigMapName with
  | (w, .error err) =>
    if IsNotFound err then (w, none, none) else (w, none, some (GoError.lib err))
  | (w, .ok configmap) => (w, some configmap, none)

def isManagedByMerger (configmap : ConfigMap) : Bool :=
  match configmap.Labels.lookup managedByLabelKey with
  | some val => val == managedByLabelValue
  | none => false

def migratePreExistingConfigMap {σ : Type} (authMerger : AwsAuthMerger σ) (w : World σ) :
    World σ × Option ConfigMap × Option GoError :=
  match getMainAwsAuthConfigMap authMerger w with
  | (w, _, some err) => (w, none, some err)
  | (w, none, none) => (w, none, none)
  | (w, some mainConfigMap, none) =>
    if isManagedByMerger mainConfigMap then (w, none, none)
    else
      let newConfigMap : ConfigMap :=
        { GenerateName := preExistingConfigMapCreateName
          Namespace := authMerger.namespace_
          Labels := authMerger.autoCreateLabels
          Annotations := [(autoCreateAnnotationKey, "true")]
          Data := mainConfigMap.Data }
      match authMerger.callCreate w authMerger.namespace_ newConfigMap with
      | (w, .error err) => (w, none, some (GoError.lib err))
      | (w, .ok createdConfigMap) => (w, some createdConfigMap, none)

/-- Modelled from the spec: the behaviour of the backing store that section 6 names
(`get(identity) -> object | not-found`, `create(object) -> object | already-exists`,
`update(object) -> object | error`, a newly generated unique name for an object created
with `GenerateName`), stated as laws on a client.  A `Get` with the empty name is
refused by the client before it reaches the store; a successful `Create` or `Update`
stores the object sent under the namespace of the request, so that a `Get` of that
identity returns it, and changes no other identity; a `Create` without a name and with a
`GenerateName` succeeds under an unused name that starts with `GenerateName`; an `Update`
of an identity that a `Get` finds succeeds. -/
structure StoreLaws {σ : Type} (client : KubeClient σ) : Prop where
  get_empty : ∀ st ns, ∃ e, client.get st ns "" = .error e ∧ IsNotFound e = false
  create_named : ∀ st ns (c : ConfigMap) st' c', c.Name ≠ "" →
    client.create st ns c = (st', .ok c') → c' = { c with Namespace := ns }
  create_generated : ∀ st ns (c : ConfigMap), c.Name = "" → c.GenerateName ≠ "" →
    ∃ st' suffix e,
      client.create st ns c
        = (st', .ok { c with Namespace := ns, Name := c.GenerateName ++ suffix }) ∧
      client.get st ns (c.GenerateName ++ suffix) = .error e ∧ IsNotFound e = true
  create_stores : ∀ st ns (c : ConfigMap) st' c', client.create st ns c = (st', .ok c') →
    client.get st' ns c'.Name = .ok c' ∧
    ∀ ns' name', (ns', name') ≠ (ns, c'.Name) →
      client.get st' ns' name' = client.get st ns' name'
  update_stores : ∀ st ns (c : ConfigMap) st' c', client.update st ns c = (st', .ok c') →
    c' = { c with Namespace := ns } ∧
    client.get st' ns c.Name = .ok c' ∧
    ∀ ns' name', (ns', name') ≠ (ns, c.Name) →
      client.get st' ns' name' = client.get st ns' name'
  update_existing : ∀ st ns (c : ConfigMap) old, client.get st ns c.Name = .ok old →
    ∃ st' c', client.update st ns c = (st', .ok c')

/-! ## Reference shape of the merge and sample data -/

/-- The result both merge functions are shown to compute, stated over the key `key`
and the kind `kind`: the first entry of `B` whose key occurs among the keys of `A`
gives a conflict, and without such an entry the result is `A ++ B`. -/
def mergeBy {α : Type} (key : α → String) (kind : mappingType) (A B : List α) :
    Slice α × Option GoError :=
  match B.find? (fun b => decide (key b ∈ A.map key)) with
  | some b => (none, some (GoError.mappingConflict ⟨kind, key b⟩))
  | none => (some (A ++ B), none)

def sampleRoleOne : RoleMapping := ⟨"asdf", "Asdf", some []⟩
def sampleRoleTwo : RoleMapping := ⟨"hjkl", "Hjkl", some ["system:masters", "system:node"]⟩
def sampleRoleThree : RoleMapping := ⟨"1234", "1234", some ["autodeploy"]⟩
def sampleUserOne : UserMapping := ⟨"asdf", "Asdf", some []⟩
def sampleUserTwo : UserMapping := ⟨"hjkl", "Hjkl", some ["system:masters", "system:node"]⟩
def sampleUserThree : UserMapping := ⟨"1234", "1234", some ["autodeploy"]⟩

/-! ## Vocabulary of the statements about `mergeAwsAuthConfigMaps` -/

/-- The role list the source declares: what `getRoleMappingFromConfigMap` returns. -/
def rolesOf (lib : Lib) (configmap : ConfigMap) : List RoleMapping :=
  (getRoleMappingFromConfigMap lib configmap).1.elems

/-- The user list the source declares: what `getUserMappingFromConfigMap` returns. -/
def usersOf (lib : Lib) (configmap : ConfigMap) : List UserMapping :=
  (getUserMappingFromConfigMap lib configmap).1.elems

/-- The source parses: both readers return the nil error on it. -/
def Parses (lib : Lib) (configmap : ConfigMap) : Prop :=
  (getRoleMappingFromConfigMap lib configmap).2 = none ∧
  (getUserMappingFromConfigMap lib configmap).2 = none

/-- Identifier `x` is declared by two different members of the list `Ls` of identifier
lists: it occurs in the lists at two positions `i < j`. -/
def DeclaredTwice (Ls : List (List String)) (x : String) : Prop :=
  ∃ i j : Nat, i < j ∧ ∃ P Q, Ls[i]? = some P ∧ Ls[j]? = some Q ∧ x ∈ P ∧ x ∈ Q

/-- The role identifiers each source declares, source by source. -/
def roleArnsBySource (lib : Lib) (configmaps : List ConfigMap) : List (List String) :=
  configmaps.map (fun c => (rolesOf lib c).map (·.RoleArn))

/-- The user identifiers each source declares, source by source. -/
def userArnsBySource (lib : Lib) (configmaps : List ConfigMap) : List (List String) :=
  configmaps.map (fun c => (usersOf lib c).map (·.UserArn))

instance (lib : Lib) (configmap : ConfigMap) : Decidable (Parses lib configmap) := by
  unfold Parses
  infer_instance

/-! ## Sample libraries and sources used in the worked examples -/

/-- Block-style rendering of a group list under the key `groups`. -/
def sampleGroupsYaml : Slice String → String
  | none => "  groups: []\n"
  | some [] => "  groups: []\n"
  | some gs => "  groups:\n" ++ String.join (gs.map fun g => "  - " ++ g ++ "\n")

def sampleRolesYaml (l : List RoleMapping) : String :=
  if l.isEmpty then "[]\n"
  else String.join (l.map fun r =>
    "- rolearn: " ++ r.RoleArn ++ "\n  username: " ++ r.Username ++ "\n" ++
      sampleGroupsYaml r.Groups)

def sampleUsersYaml (l : List UserMapping) : String :=
  if l.isEmpty then "[]\n"
  else String.join (l.map fun r =>
    "- userarn: " ++ r.UserArn ++ "\n  username: " ++ r.Username ++ "\n" ++
      sampleGroupsYaml r.Groups)

/-- The role lists the sample decoder recognises. -/
def sampleRoleDocuments : List (List RoleMapping) :=
  [[], [sampleRoleOne], [sampleRoleTwo, sampleRoleThree], [sampleRoleOne, sampleRoleOne],
    [sampleRoleTwo]]

/-- The user lists the sample decoder recognises. -/
def sampleUserDocuments : List (List UserMapping) :=
  [[], [sampleUserOne], [sampleUserTwo, sampleUserThree], [sampleUserTwo]]

/-- A small instance of the libraries: the encoders render block-style YAML and a JSON
array of quoted names, the decoders read the empty document as the nil slice, invert the
encoders on the sample documents and reject every other text. -/
def sampleLib : Lib where
  yamlUnmarshalRoles := fun s =>
    if s = "" then .ok none
    else match sampleRoleDocuments.find? (fun l => sampleRolesYaml l == s) with
      | some l => .ok (some l)
      | none => .error ⟨"", "yaml: unmarshal errors"⟩
  yamlUnmarshalUsers := fun s =>
    if s = "" then .ok none
    else match sampleUserDocuments.find? (fun l => sampleUsersYaml l == s) with
      | some l => .ok (some l)
      | none => .error ⟨"", "yaml: unmarshal errors"⟩
  yamlMarshalRoles := fun l => .ok (sampleRolesYaml l.elems)
  yamlMarshalUsers := fun l => .ok (sampleUsersYaml l.elems)
  jsonMarshal := fun l =>
    match l with
    | none => .ok "null"
    | some names => .ok ("[" ++ ",".intercalate (names.map fun n => "\"" ++ n ++ "\"") ++ "]")
  formatUTC := fun t => "t" ++ toString t

/-- Source declaring one role and no `mapUsers` key. -/
def sampleSourceA : ConfigMap :=
  { Name := "team-a", Namespace := "aws-auth-merger",
    Data := [(mapRolesKey, sampleRolesYaml [sampleRoleOne])] }

/-- Source declaring one user and no `mapRoles` key. -/
def sampleSourceB : ConfigMap :=
  { Name := "team-b", Namespace := "aws-auth-merger",
    Data := [(mapUsersKey, sampleUsersYaml [sampleUserOne])] }

/-- Source declaring two roles and two users. -/
def sampleSourceC : ConfigMap :=
  { Name := "team-c", Namespace := "aws-auth-merger",
    Data := [(mapRolesKey, sampleRolesYaml [sampleRoleTwo, sampleRoleThree]),
             (mapUsersKey, sampleUsersYaml [sampleUserTwo, sampleUserThree])] }

/-- Source whose own role list names `asdf` twice. -/
def sampleSourceDup : ConfigMap :=
  { Name := "team-dup", Namespace := "aws-auth-merger",
    Data := [(mapRolesKey, sampleRolesYaml [sampleRoleOne, sampleRoleOne])] }

/-- Source declaring role `hjkl`, as `sampleSourceC` does. -/
def sampleSourceD : ConfigMap :=
  { Name := "team-d", Namespace := "aws-auth-merger",
    Data := [(mapRolesKey, sampleRolesYaml [sampleRoleTwo])] }

/-- Source whose `mapRoles` text is not a mapping list. -/
def sampleSourceBad : ConfigMap :=
  { Name := "team-bad", Namespace := "aws-auth-merger",
    Data := [(mapRolesKey, "rolearn: [")] }

/-- Source without data that bears the name of `sampleSourceB`. -/
def sampleSourceEmpty : ConfigMap :=
  { Name := "team-b", Namespace := "aws-auth-merger" }

/-- The greatest length of a name in the store. -/
def maxNameLength : List ConfigMap → Nat
  | [] => 0
  | c :: st => max c.Name.length (maxNameLength st)

/-- A suffix longer than every name in the store. -/
def freshSuffix (st : List ConfigMap) : String :=
  String.mk (List.replicate (maxNameLength st + 1) 'x')

/-- The stored object of the given namespace and name, if there is one. -/
def storeFind (st : List ConfigMap) (ns name : String) : Option ConfigMap :=
  st.find? (fun c => decide (c.Namespace = ns ∧ c.Name = name))

/-- Modelled from the spec: an in-memory backing store, the list of the stored
ConfigMaps, with the operations of section 6.  `get` refuses the empty name and
otherwise finds the object by namespace and name or reports `NotFound`; `list` returns
in one page the objects of the namespace that carry the label named by a `key=value`
selector (all of them for the empty selector); `create` stores the object under the
namespace of the request, under its name or, without one, under `GenerateName` followed
by a suffix that makes the name unused, and reports `AlreadyExists` for a name in use;
`update` replaces the stored object of that name or reports `NotFound`. -/
def sampleClient : KubeClient (List ConfigMap) where
  get := fun st ns name =>
    if name = "" then .error ⟨"", "resource name may not be empty"⟩
    else match storeFind st ns name with
      | some c => .ok c
      | none => .error ⟨"NotFound", "configmaps " ++ name ++ " not found"⟩
  list := fun st ns labelSelector _ =>
    .ok ⟨some (st.filter fun c => c.Namespace == ns &&
      (labelSelector == "" || c.Labels.any fun kv => kv.1 ++ "=" ++ kv.2 == labelSelector)), ""⟩
  create := fun st ns configmap =>
    if configmap.Name = "" ∧ configmap.GenerateName = "" then
      (st, .error ⟨"Invalid", "name or generateName is required"⟩)
    else
      let name := if configmap.Name = "" then configmap.GenerateName ++ freshSuffix st
        else configmap.Name
      match storeFind st ns name with
      | some _ => (st, .error ⟨"AlreadyExists", "configmaps " ++ name ++ " already exists"⟩)
      | none =>
        (st ++ [{ configmap with Namespace := ns, Name := name }],
          .ok { configmap with Namespace := ns, Name := name })
  update := fun st ns configmap =>
    if configmap.Name = "" then
      (st, .error ⟨"", "resource name may not be empty"⟩)
    else match storeFind st ns configmap.Name with
      | none => (st, .error ⟨"NotFound", "configmaps " ++ configmap.Name ++ " not found"⟩)
      | some _ =>
        (st.map fun c => if c.Namespace = ns ∧ c.Name = configmap.Name then
            { configmap with Namespace := ns } else c,
          .ok { configmap with Namespace := ns })

def sampleMerger : AwsAuthMerger (List ConfigMap) :=
  { namespace_ := "aws-auth-merger", labelSelector := "", autoCreateLabels := [],
    clientset := sampleClient }

/-- The main object as a previous cycle left it. -/
def sampleMainConfigMap : ConfigMap :=
  { Name := "aws-auth", Namespace := "kube-system",
    Labels := [(managedByLabelKey, managedByLabelValue)],
    Data := [(mapRolesKey, sampleRolesYaml [sampleRoleOne]), (mapUsersKey, "[]\n")] }

/-- A store holding a good source, a malformed source and the main object. -/
def sampleWorldBad : World (List ConfigMap) :=
  { store := [sampleSourceA, sampleSourceBad, sampleMainConfigMap], calls := [] }

/-- Source whose `mapUsers` text is not a mapping list. -/
def sampleSourceBadUsers : ConfigMap :=
  { Name := "team-bad-users", Namespace := "aws-auth-merger",
    Data := [(mapUsersKey, "- userarn")] }

/-- Source carrying labels, annotations and data keys the merger does not know. -/
def sampleSourceExtras : ConfigMap :=
  { Name := "team-x", Namespace := "aws-auth-merger",
    Labels := [("team", "x"), (managedByLabelKey, "somebody-else")],
    Annotations := [("note", "kept by hand")],
    Data := [("comment", "not a mapping"), (mapRolesKey, sampleRolesYaml [sampleRoleTwo])] }

/-- The main object as somebody wrote it by hand: no managed-by label, a note, other
data. -/
def sampleMainStale : ConfigMap :=
  { Name := "aws-auth", Namespace := "kube-system",
    Labels := [("owner", "ops")],
    Annotations := [("note", "edited by hand")],
    Data := [(mapRolesKey, sampleRolesYaml [sampleRoleTwo]), ("extra", "left over")] }

/-- An object without a name. -/
def sampleUnnamed : ConfigMap :=
  { Namespace := "aws-auth-merger" }

/-- The main object carrying the managed-by label with a value that is not the
value of the merger. -/
def sampleMainOther : ConfigMap :=
  { Name := "aws-auth", Namespace := "kube-system",
    Labels := [(managedByLabelKey, "somebody-else")],
    Data := [(mapRolesKey, sampleRolesYaml [sampleRoleTwo])] }

/-- The sample merger with a label for the ConfigMaps it creates. -/
def sampleMergerLabels : AwsAuthMerger (List ConfigMap) :=
  { sampleMerger with autoCreateLabels := [("gruntwork.io/random-id", "abc")] }

/-- A merger that watches `kube-system` itself, with the empty label selector. -/
def sampleMergerKubeSystem : AwsAuthMerger (List ConfigMap) :=
  { sampleMerger with namespace_ := "kube-system" }

/-- A source that lives in `kube-system`, declaring one role. -/
def sampleSourceKubeSystem : ConfigMap :=
  { sampleSourceA with Namespace := "kube-system" }

/-! ## The debouncer (`debouncer.go`) with explicit time

Instants are natural numbers, counted in ticks.  `funcToCall` is given by what its executions do: the `k`-th
execution started, entered at instant `t`, runs for `(funcToCall k t).1` ticks and
returns `(funcToCall k t).2`.  The runtime holds every timer made by `time.AfterFunc`
until it has fired or has been stopped, and fires the waiting timers as time passes: at
the tick that reaches the instant a timer is due, or at the next tick when it was made
due already.  So a timer due at some instant has fired before a call made at that
instant is served, and calls made at one instant are served one after the other with
no timer firing in between. -/

def chanBuffer : Nat := 10

/-- A `*time.Timer` made by `time.AfterFunc`: the instant it is due and whether it is
still waiting, that is neither fired nor stopped. -/
structure Timer where
  due : Nat
  waiting : Bool
  deriving DecidableEq, Repr

/-- Go `(*Timer).Stop`: a waiting timer will not fire, a fired one is left alone. -/
def Timer.Stop (timer : Timer) : Timer := { timer with waiting := false }

/-- One execution of `funcToCall` inside a timer callback: the instant it starts, the
instant it returns, and the value it returns. -/
structure Execution where
  start : Nat
  finish : Nat
  result : Option GoError
  deriving DecidableEq, Repr

/-- The buffered channel `errChan`: the values in its buffer, oldest first, and the
values of the senders that found the buffer full and are blocked. -/
structure ErrChan where
  buffer : List (Option GoError)
  blocked : List (Option GoError)
  deriving DecidableEq, Repr

/-- Go `errChan <- v` on a channel of capacity `chanBuffer`. -/
def ErrChan.send (errChan : ErrChan) (v : Option GoError) : ErrChan :=
  if errChan.buffer.length < chanBuffer then { errChan with buffer := errChan.buffer ++ [v] }
  else { errChan with blocked := errChan.blocked ++ [v] }

/-- What `debounceNoArgsFunc` sets up, at the instant `now`: the captured variable
`timer` (`none` is nil) with the timer it points to, the channel `errChan`, the
callbacks that are inside `funcToCall`, the record of every execution of `funcToCall`
started so far, oldest first, and `pending`, the timers of earlier calls that the
variable no longer points to and that the runtime still holds because they are
waiting. -/
structure Debouncer where
  now : Nat
  timer : Option Timer
  errChan : ErrChan
  running : List Execution
  executions : List Execution
  pending : List Timer := []
  deriving DecidableEq, Repr

/-- Go `debounceNoArgsFunc`, called at instant `now`: `timer` is nil and `errChan` is a
fresh channel. -/
def debounceNoArgsFunc (now : Nat) : Debouncer :=
  { now := now, timer := none, errChan := ⟨[], []⟩, running := [], executions := [],
    pending := [] }

/-- The callback of a timer starts and enters `funcToCall`. -/
def Debouncer.start (funcToCall : Nat → Nat → Nat × Option GoError) (d : Debouncer) :
    Debouncer :=
  let r := funcToCall d.executions.length d.now
  let e : Execution := ⟨d.now, d.now + r.1, r.2⟩
  { d with running := d.running ++ [e], executions := d.executions ++ [e] }

/-- The runtime fires every timer that is waiting and due, the timers of earlier calls
first: each callback starts, and a fired timer is no longer held. -/
def Debouncer.fire (funcToCall : Nat → Nat → Nat × Option GoError) (d : Debouncer) :
    Debouncer :=
  let due := d.pending.filter (fun timer => timer.waiting && decide (timer.due ≤ d.now))
  let d := due.foldl (fun d _ => d.start funcToCall)
    { d with
      pending := d.pending.filter (fun timer => timer.waiting && !decide (timer.due ≤ d.now)) }
  match d.timer with
  | none => d
  | some timer =>
    if timer.waiting = true ∧ timer.due ≤ d.now then
      { d.start funcToCall with timer := some { timer with waiting := false } }
    else d

/-- The callbacks whose `funcToCall` has returned by now send its value on `errChan`,
in the order they started. -/
def Debouncer.complete (d : Debouncer) : Debouncer :=
  { d with
    running := d.running.filter (fun e => decide (¬ e.finish ≤ d.now))
    errChan := (d.running.filter (fun e => decide (e.finish ≤ d.now))).foldl
      (fun errChan e => errChan.send e.result) d.errChan }

/-- What the runtime does at the present instant. -/
def Debouncer.settle (funcToCall : Nat → Nat → Nat × Option GoError) (d : Debouncer) :
    Debouncer :=
  (d.fire funcToCall).complete

/-- One tick passes. -/
def Debouncer.tick (funcToCall : Nat → Nat → Nat × Option GoError) (d : Debouncer) :
    Debouncer :=
  Debouncer.settle funcToCall { d with now := d.now + 1 }

/-- The given number of ticks pass without a call. -/
def Debouncer.wait (funcToCall : Nat → Nat → Nat × Option GoError) :
    Nat → Debouncer → Debouncer
  | 0, d => d
  | n + 1, d => Debouncer.wait funcToCall n (d.tick funcToCall)

/-- The closure `debounced` returned by `debounceNoArgsFunc`: `timer.Stop()` if there is
a timer, then `timer = time.AfterFunc(interval, ...)`.  The timer the variable pointed
to stays with the runtime when it is still waiting after the `Stop`; the callback of
the new timer is what `fire` starts, `errChan <- funcToCall()`. -/
def Debouncer.debounced (interval : Nat) (_ : Nat → Nat → Nat × Option GoError)
    (d : Debouncer) : Debouncer :=
  let d := match d.timer with
    | some timer =>
      if timer.Stop.waiting then { d with pending := d.pending ++ [timer.Stop] } else d
    | none => d
  { d with timer := some ⟨d.now + interval, true⟩ }

/-- A schedule of calls, given by the ticks that pass before each call. -/
def Debouncer.run (interval : Nat) (funcToCall : Nat → Nat → Nat × Option GoError) :
    Debouncer → List Nat → Debouncer
  | d, [] => d
  | d, delay :: delays =>
    Debouncer.run interval funcToCall
      ((d.wait funcToCall delay).debounced interval funcToCall) delays

/-- The state, at instant `T`, of a debouncer whose timer was set for the instant `due`
at a moment when no execution was running and no other timer was waiting, the record of
executions being `executions` and the channel `errChan` at that moment: before `due`
nothing has changed, from `due` on
the timer has fired and one more execution is recorded, which is running until it
returns and then has sent its value. -/
def Debouncer.quiet (funcToCall : Nat → Nat → Nat × Option GoError)
    (executions : List Execution) (errChan : ErrChan) (due T : Nat) : Debouncer :=
  let r := funcToCall executions.length due
  let e : Execution := ⟨due, due + r.1, r.2⟩
  { now := T
    timer := some ⟨due, decide (T < due)⟩
    errChan := if due + r.1 ≤ T then errChan.send r.2 else errChan
    running := if due ≤ T ∧ T < due + r.1 then [e] else []
    executions := if T < due then executions else executions ++ [e]
    pending := [] }

/-- The execution is in progress at the instant `t`. -/
def Execution.InProgress (e : Execution) (t : Nat) : Prop :=
  e.start ≤ t ∧ t < e.finish

/-- An execution that returns nil after three ticks, then executions that return an
error after two ticks. -/
def sampleFunc : Nat → Nat → Nat × Option GoError :=
  fun k _ => if k = 0 then (3, none) else (2, some (GoError.lib ⟨"", "DebouncerTestError"⟩))

/-- An execution that runs for five ticks. -/
def sampleSlowFunc : Nat → Nat → Nat × Option GoError :=
  fun _ _ => (5, none)

/-- The invariant behind serial executions when `funcToCall` always returns in less
than `interval` ticks: the recorded executions follow one another without overlap, each
was entered by now and returns less than `interval` ticks after it was entered, a
waiting timer is due at least `interval` ticks after every recorded execution was
entered, and no timer of an earlier call is still waiting. -/
def Debouncer.Serial (interval : Nat) (d : Debouncer) : Prop :=
  d.executions.Pairwise (fun e1 e2 => e1.finish ≤ e2.start) ∧
  (∀ e ∈ d.executions, e.start ≤ d.now ∧ e.finish < e.start + interval) ∧
  (∀ timer, d.timer = some timer → timer.waiting = true →
    ∀ e ∈ d.executions, e.start + interval ≤ timer.due) ∧
  d.pending = []

/-! ## Label arguments of the command line (`cli.go`) -/

/-- Modelled from the spec: the library function `strings.Split` is not in the sources;
this is its documented behaviour for a separator of one character, on the characters of
`s`: the pieces between the occurrences of the separator, in order, one more piece than
there are occurrences. -/
def stringsSplit.pieces (sep : Char) : List Char → List (List Char)
  | [] => [[]]
  | c :: cs =>
    if c = sep then [] :: stringsSplit.pieces sep cs
    else
      match stringsSplit.pieces sep cs with
      | [] => [[c]]
      | piece :: pieces => (c :: piece) :: pieces

/-- Modelled from the spec: Go `strings.Split(s, sep)` for a separator of one character,
by `stringsSplit.pieces`. -/
def stringsSplit (s : String) (sep : Char) : List String :=
  (stringsSplit.pieces sep s.data).map String.mk

/-- Modelled from the spec: the library function `strings.Join` is not in the sources;
this is its documented behaviour, the elements in order with `sep` between any two. -/
def stringsJoin : List String → String → String
  | [], _ => ""
  | [a], _ => a
  | a :: b :: elems, sep => a ++ sep ++ stringsJoin (b :: elems) sep

/-- Go `out[key] = value` on a map held as its list of entries: the entry of `key` is
replaced, every other entry is kept. -/
def mapSet (out : StrMap) (key value : String) : StrMap :=
  (key, value) :: out.filter (fun entry => entry.1 != key)

/-- Go `parseLabelsKeyValuePairs`. -/
def parseLabelsKeyValuePairs (kvPairs : Slice String) : StrMap :=
  kvPairs.elems.foldl (fun out pair =>
    let splitPair := stringsSplit pair '='
    let key := splitPair.headD ""
    let value := if splitPair.length > 1 then stringsJoin (splitPair.drop 1) "=" else ""
    mapSet out key value) []

/-- The text of a label argument before its first `=` (all of it when it has none). -/
def textBeforeFirstEq (pair : String) : String :=
  ⟨pair.data.takeWhile (fun c => c != '=')⟩

/-- The text of a label argument after its first `=`, later `=` included; the empty
string when it has none. -/
def textAfterFirstEq (pair : String) : String :=
  ⟨(pair.data.dropWhile (fun c => c != '=')).drop 1⟩

/-- The copy of `mainConfigMap` that `migratePreExistingConfigMap` gets back from a store
that completes the generated name with `suffix`. -/
def migratedCopy {σ : Type} (authMerger : AwsAuthMerger σ) (mainConfigMap : ConfigMap)
    (suffix : String) : ConfigMap :=
  { Name := preExistingConfigMapCreateName ++ suffix
    GenerateName := preExistingConfigMapCreateName
    Namespace := authMerger.namespace_
    Labels := authMerger.autoCreateLabels
    Annotations := [(autoCreateAnnotationKey, "true")]
    Data := mainConfigMap.Data }

/-! ## The change notifier (`configmap_watch_controller.go`) -/

/-- A value of type `interface{}` handed to an event handler: a `*corev1.ConfigMap`
(`none` is the nil pointer), or a value of another dynamic type, given by the name of
that type (the tombstone `cache.DeletedFinalStateUnknown` of a missed deletion is one). -/
inductive Payload where
  | configMap (obj : Option ConfigMap)
  | other (dynamicType : String)
  deriving DecidableEq, Repr

/-- Go `obj.(*corev1.ConfigMap)`, the type assertion with one result: the pointer, or
the run-time panic of a failed assertion, `Except.error` with its message. -/
def Payload.assertConfigMap : Payload → Except String (Option ConfigMap)
  | .configMap obj => .ok obj
  | .other dynamicType =>
    .error ("interface conversion: interface {} is " ++ dynamicType ++ ", not *v1.ConfigMap")

/-- The part of `ConfigMapWatchController` the handlers write: the values sent on
`notifyChan` so far. -/
structure ConfigMapWatchController where
  notifyChan : List Unit
  deriving DecidableEq, Repr

/-- Go `configMapAdded`: the argument of `Debugf` is evaluated, then one value is sent
on `notifyChan`.  `Except.error` is a panic of the handler. -/
def ConfigMapWatchController.configMapAdded (controller : ConfigMapWatchController)
    (obj : Payload) : Except String ConfigMapWatchController :=
  match obj.assertConfigMap with
  | .error msg => .error msg
  | .ok _ => .ok { controller with notifyChan := controller.notifyChan ++ [()] }

/-- Go `configMapUpdated`. -/
def ConfigMapWatchController.configMapUpdated (controller : ConfigMapWatchController)
    (obj updated : Payload) : Except String ConfigMapWatchController :=
  match obj.assertConfigMap with
  | .error msg => .error msg
  | .ok _ =>
    match updated.assertConfigMap with
    | .error msg => .error msg
    | .ok _ => .ok { controller with notifyChan := controller.notifyChan ++ [()] }

/-- Go `configMapDeleted`. -/
def ConfigMapWatchController.configMapDeleted (controller : ConfigMapWatchController)
    (obj : Payload) : Except String ConfigMapWatchController :=
  match obj.assertConfigMap with
  | .error msg => .error msg
  | .ok _ => .ok { controller with notifyChan := controller.notifyChan ++ [()] }

/-! ## The steady state of `eventLoop` (`aws_auth_merger.go`)

The `for { select { ... } }` at the end of `eventLoop`, over the debouncer with explicit
time.  `syncAwsAuthConfigMaps` is given, as `funcToCall` is for the debouncer, by what
its executions do. -/

/-- Go `<-errChan`: the oldest value of the buffer, after which a blocked sender, if
there is one, puts its value into the buffer; `none` when nothing is there to receive. -/
def ErrChan.recv (errChan : ErrChan) : Option (Option GoError × ErrChan) :=
  match errChan.buffer with
  | [] => none
  | v :: buffer =>
    match errChan.blocked with
    | [] => some (v, { errChan with buffer := buffer })
    | b :: blocked => some (v, { buffer := buffer ++ [b], blocked := blocked })

/-- The case that `select` takes in one round of the loop. -/
inductive SelectCase where
  | notifyChan
  | tickerC (tick : Time)
  | syncErrChan
  deriving DecidableEq, Repr

/-- State of the loop: the debouncer behind `debouncedSync` and `syncErrChan`, and the
number of calls of `debouncedSync` made so far. -/
structure EventLoop where
  debouncer : Debouncer
  debouncedSyncCalls : Nat
  deriving DecidableEq, Repr

/-- One round of the loop of `eventLoop` in which `select` takes the given case: the
state after it, and the error that `eventLoop` returns if the round ends in
`return err` (`none`: the loop goes on to the next round).  The whole result is `none`
when the case cannot be taken because `syncErrChan` holds nothing. -/
def eventLoop.round (interval : Nat)
    (syncAwsAuthConfigMaps : Nat → Nat → Nat × Option GoError) (s : EventLoop) :
    SelectCase → Option (EventLoop × Option GoError)
  | .notifyChan =>
    some ({ debouncer := s.debouncer.debounced interval syncAwsAuthConfigMaps
            debouncedSyncCalls := s.debouncedSyncCalls + 1 }, none)
  | .tickerC _ =>
    some ({ debouncer := s.debouncer.debounced interval syncAwsAuthConfigMaps
            debouncedSyncCalls := s.debouncedSyncCalls + 1 }, none)
  | .syncErrChan =>
    match s.debouncer.errChan.recv with
    | none => none
    | some (err, errChan) =>
      let s := { s with debouncer := { s.debouncer with errChan := errChan } }
      match err with
      | some err => some (s, some err)
      | none => some (s, none)

/-- What happens to the loop: ticks pass while it is blocked in `select`, or `select`
takes a case. -/
inductive LoopEvent where
  | pass (ticks : Nat)
  | select (case : SelectCase)
  deriving DecidableEq, Repr

/-- The loop of `eventLoop` along a sequence of events: the state it reaches and the
error `eventLoop` returns, `none` while the loop is still running at the end of the
sequence.  A case that cannot be taken leaves the loop blocked; after `return err` no
further event is served. -/
def eventLoop.steady (interval : Nat)
    (syncAwsAuthConfigMaps : Nat → Nat → Nat × Option GoError) :
    EventLoop → List LoopEvent → EventLoop × Option GoError
  | s, [] => (s, none)
  | s, .pass ticks :: events =>
    eventLoop.steady interval syncAwsAuthConfigMaps
      { s with debouncer := s.debouncer.wait syncAwsAuthConfigMaps ticks } events
  | s, .select case :: events =>
    match eventLoop.round interval syncAwsAuthConfigMaps s case with
    | none => eventLoop.steady interval syncAwsAuthConfigMaps s events
    | some (s, some err) => (s, some err)
    | some (s, none) => eventLoop.steady interval syncAwsAuthConfigMaps s events

/-- The sample store once the malformed source is gone. -/
def sampleWorldFixed : World (List ConfigMap) :=
  { store := [sampleSourceA, sampleMainConfigMap], calls := [] }

/-- A store holding two sources that declare the same role, and the main object. -/
def sampleWorldConflict : World (List ConfigMap) :=
  { store := [sampleSourceA, sampleSourceDup, sampleMainConfigMap], calls := [] }

/-- Cycles of the sample merger that take one tick each: the first one runs on the
store `first`, the later ones on the fixed store (the sample store lists in one page,
so the page bound is not reached). -/
def sampleCycles (first : World (List ConfigMap)) : Nat → Nat → Nat × Option GoError :=
  fun k t =>
    (1, match syncAwsAuthConfigMaps sampleLib sampleMerger t 0
          (if k = 0 then first else sampleWorldFixed) with
        | some (_, err) => err
        | none => none)

/-! # Theorems -/

/-! ## The two merge functions -/

theorem mergeRoleMappingLists_loopA_eq (l : List RoleMapping) (seen : List String)
    (acc : List RoleMapping) :
    mergeRoleMappingLists.loopA l (seen, acc)
      = ((l.map (·.RoleArn)).reverse ++ seen, acc ++ l) := by
  induction l generalizing seen acc with
  | nil => simp [mergeRoleMappingLists.loopA]
  | cons x xs ih => simp [mergeRoleMappingLists.loopA, ih]

theorem mergeUserMappingLists_loopA_eq (l : List UserMapping) (seen : List String)
    (acc : List UserMapping) :
    mergeUserMappingLists.loopA l (seen, acc)
      = ((l.map (·.UserArn)).reverse ++ seen, acc ++ l) := by
  induction l generalizing seen acc with
  | nil => simp [mergeUserMappingLists.loopA]
  | cons x xs ih => simp [mergeUserMappingLists.loopA, ih]

theorem mergeRoleMappingLists_loopB_eq (seen : List String) (B acc : List RoleMapping) :
    mergeRoleMappingLists.loopB seen B acc
      = match B.find? (fun b => decide (b.RoleArn ∈ seen)) with
        | some b => (none, some (GoError.mappingConflict ⟨roleMappingType, b.RoleArn⟩))
        | none => (some (acc ++ B), none) := by
  induction B generalizing acc with
  | nil => simp [mergeRoleMappingLists.loopB]
  | cons x xs ih =>
    by_cases hx : x.RoleArn ∈ seen
    · simp [mergeRoleMappingLists.loopB, List.find?, hx]
    · simp [mergeRoleMappingLists.loopB, List.find?, hx, ih]

theorem mergeUserMappingLists_loopB_eq (seen : List String) (B acc : List UserMapping) :
    mergeUserMappingLists.loopB seen B acc
      = match B.find? (fun b => decide (b.UserArn ∈ seen)) with
        | some b => (none, some (GoError.mappingConflict ⟨userMappingType, b.UserArn⟩))
        | none => (some (acc ++ B), none) := by
  induction B generalizing acc with
  | nil => simp [mergeUserMappingLists.loopB]
  | cons x xs ih =>
    by_cases hx : x.UserArn ∈ seen
    · simp [mergeUserMappingLists.loopB, List.find?, hx]
    · simp [mergeUserMappingLists.loopB, List.find?, hx, ih]

theorem mergeRoleMappingLists_eq_mergeBy (A B : Slice RoleMapping) :
    mergeRoleMappingLists A B = mergeBy (·.RoleArn) roleMappingType A.elems B.elems := by
  have hdec : (fun b : RoleMapping => decide (b.RoleArn ∈ (A.elems.map (·.RoleArn)).reverse ++ []))
      = (fun b => decide (b.RoleArn ∈ A.elems.map (·.RoleArn))) := by
    funext b
    simp
  simp only [mergeRoleMappingLists, mergeBy, mergeRoleMappingLists_loopA_eq,
    mergeRoleMappingLists_loopB_eq, hdec, List.nil_append]
  cases List.find? (fun b : RoleMapping => decide (b.RoleArn ∈ A.elems.map (·.RoleArn))) B.elems <;> rfl

theorem mergeUserMappingLists_eq_mergeBy (A B : Slice UserMapping) :
    mergeUserMappingLists A B = mergeBy (·.UserArn) userMappingType A.elems B.elems := by
  have hdec : (fun b : UserMapping => decide (b.UserArn ∈ (A.elems.map (·.UserArn)).reverse ++ []))
      = (fun b => decide (b.UserArn ∈ A.elems.map (·.UserArn))) := by
    funext b
    simp
  simp only [mergeUserMappingLists, mergeBy, mergeUserMappingLists_loopA_eq,
    mergeUserMappingLists_loopB_eq, hdec, List.nil_append]
  cases List.find? (fun b : UserMapping => decide (b.UserArn ∈ A.elems.map (·.UserArn))) B.elems <;> rfl

/-! ### Consequences of the reference shape -/

theorem mergeBy_disjoint {α : Type} (key : α → String) (kind : mappingType) (A B : List α)
    (h : ∀ a ∈ A, ∀ b ∈ B, key b ≠ key a) :
    mergeBy key kind A B = (some (A ++ B), none) := by
  have hnone : B.find? (fun b => decide (key b ∈ A.map key)) = none := by
    rw [List.find?_eq_none]
    intro b hb
    simp only [decide_eq_true_eq, List.mem_map, not_exists, not_and]
    intro a ha hab
    exact h a ha b hb hab.symm
  simp only [mergeBy, hnone]

theorem mergeBy_conflict {α : Type} (key : α → String) (kind : mappingType) (A B : List α)
    (h : ∃ a ∈ A, ∃ b ∈ B, key b = key a) :
    ∃ b, B.find? (fun b => decide (key b ∈ A.map key)) = some b ∧
      mergeBy key kind A B = (none, some (GoError.mappingConflict ⟨kind, key b⟩)) := by
  obtain ⟨a, ha, b, hb, hab⟩ := h
  cases hf : B.find? (fun b => decide (key b ∈ A.map key)) with
  | none =>
    rw [List.find?_eq_none] at hf
    have := hf b hb
    simp only [decide_eq_true_eq, List.mem_map, not_exists, not_and] at this
    exact absurd hab.symm (this a ha)
  | some c => exact ⟨c, rfl, by simp only [mergeBy, hf]⟩

/-- A merge either succeeds with the concatenation or fails with `nil`. -/
theorem mergeBy_cases {α : Type} (key : α → String) (kind : mappingType) (A B : List α) :
    ((∀ a ∈ A, ∀ b ∈ B, key b ≠ key a) ∧ mergeBy key kind A B = (some (A ++ B), none)) ∨
    ((∃ a ∈ A, ∃ b ∈ B, key b = key a) ∧
      ∃ b ∈ B, key b ∈ A.map key ∧
        mergeBy key kind A B = (none, some (GoError.mappingConflict ⟨kind, key b⟩))) := by
  by_cases h : ∃ a ∈ A, ∃ b ∈ B, key b = key a
  · right
    refine ⟨h, ?_⟩
    obtain ⟨b, hf, hm⟩ := mergeBy_conflict key kind A B h
    have hb := List.mem_of_find?_eq_some hf
    have hp := List.find?_some hf
    exact ⟨b, hb, by simpa using hp, hm⟩
  · left
    have h' : ∀ a ∈ A, ∀ b ∈ B, key b ≠ key a := by
      intro a ha b hb hab
      exact h ⟨a, ha, b, hb, hab⟩
    exact ⟨h', mergeBy_disjoint key kind A B h'⟩

theorem mergeBy_ok {α : Type} (key : α → String) (kind : mappingType) (A B : List α)
    (h : (mergeBy key kind A B).2 = none) :
    (∀ a ∈ A, ∀ b ∈ B, key b ≠ key a) ∧ mergeBy key kind A B = (some (A ++ B), none) := by
  rcases mergeBy_cases key kind A B with h1 | ⟨_, b, _, _, hm⟩
  · exact h1
  · rw [hm] at h
    cases h

/-- C1: when no identifier of `B` occurs among the identifiers of `A`,
`mergeRoleMappingLists A B` returns the non-nil list `A` followed by `B`, entries and
order unchanged, and the nil error (so empty inputs give the empty list, not an error);
`mergeUserMappingLists` does the same keyed on `UserArn`. -/
theorem mergeMappingLists_disjoint (A B : Slice RoleMapping) (A' B' : Slice UserMapping)
    (hR : ∀ a ∈ A.elems, ∀ b ∈ B.elems, b.RoleArn ≠ a.RoleArn)
    (hU : ∀ a ∈ A'.elems, ∀ b ∈ B'.elems, b.UserArn ≠ a.UserArn) :
    mergeRoleMappingLists A B = (some (A.elems ++ B.elems), none) ∧
    mergeUserMappingLists A' B' = (some (A'.elems ++ B'.elems), none) := by
  rw [mergeRoleMappingLists_eq_mergeBy, mergeUserMappingLists_eq_mergeBy]
  exact ⟨mergeBy_disjoint _ _ _ _ hR, mergeBy_disjoint _ _ _ _ hU⟩

theorem mergeMappingLists_disjoint_witness :
    (mergeRoleMappingLists (some [sampleRoleOne, sampleRoleTwo]) (some [sampleRoleThree])
        = (some [sampleRoleOne, sampleRoleTwo, sampleRoleThree], none) ∧
      mergeUserMappingLists none (some [])
        = (some [], none)) :=
  mergeMappingLists_disjoint (some [sampleRoleOne, sampleRoleTwo]) (some [sampleRoleThree])
    none (some []) (by decide) (by decide)

/-- C2: when some entry of `B` has the identifier of an entry of `A`,
`mergeRoleMappingLists A B` returns the nil list together with the `MappingConflictErr`
of kind `Role` naming the first entry of `B`, in the order of `B`, whose identifier
occurs in `A`; `mergeUserMappingLists` does the same with kind `User` and `UserArn`. -/
theorem mergeMappingLists_conflict (A B : Slice RoleMapping) (A' B' : Slice UserMapping)
    (hR : ∃ a ∈ A.elems, ∃ b ∈ B.elems, b.RoleArn = a.RoleArn)
    (hU : ∃ a ∈ A'.elems, ∃ b ∈ B'.elems, b.UserArn = a.UserArn) :
    (∃ b, B.elems.find? (fun b => decide (b.RoleArn ∈ A.elems.map (·.RoleArn))) = some b ∧
      mergeRoleMappingLists A B
        = (none, some (GoError.mappingConflict ⟨"Role", b.RoleArn⟩))) ∧
    (∃ b, B'.elems.find? (fun b => decide (b.UserArn ∈ A'.elems.map (·.UserArn))) = some b ∧
      mergeUserMappingLists A' B'
        = (none, some (GoError.mappingConflict ⟨"User", b.UserArn⟩))) := by
  rw [mergeRoleMappingLists_eq_mergeBy, mergeUserMappingLists_eq_mergeBy]
  exact ⟨mergeBy_conflict _ roleMappingType _ _ hR, mergeBy_conflict _ userMappingType _ _ hU⟩

theorem mergeMappingLists_conflict_witness :
    (∃ b, [sampleRoleThree, sampleRoleTwo, sampleRoleOne].find?
          (fun b => decide (b.RoleArn ∈ [sampleRoleOne, sampleRoleTwo].map (·.RoleArn)))
        = some b ∧
      mergeRoleMappingLists (some [sampleRoleOne, sampleRoleTwo])
          (some [sampleRoleThree, sampleRoleTwo, sampleRoleOne])
        = (none, some (GoError.mappingConflict ⟨"Role", b.RoleArn⟩))) ∧
    (∃ b, [sampleUserTwo].find?
          (fun b => decide (b.UserArn ∈ [sampleUserOne, sampleUserTwo].map (·.UserArn)))
        = some b ∧
      mergeUserMappingLists (some [sampleUserOne, sampleUserTwo]) (some [sampleUserTwo])
        = (none, some (GoError.mappingConflict ⟨"User", b.UserArn⟩))) :=
  mergeMappingLists_conflict (some [sampleRoleOne, sampleRoleTwo])
    (some [sampleRoleThree, sampleRoleTwo, sampleRoleOne])
    (some [sampleUserOne, sampleUserTwo]) (some [sampleUserTwo])
    ⟨sampleRoleTwo, by decide, sampleRoleTwo, by decide, rfl⟩
    ⟨sampleUserTwo, by decide, sampleUserTwo, by decide, rfl⟩

/-- C3: if `mergeRoleMappingLists A B = R`, `mergeRoleMappingLists R C`,
`mergeRoleMappingLists B C = S` and `mergeRoleMappingLists A S` all succeed, then the
two final results are equal; likewise for `mergeUserMappingLists`. -/
theorem mergeMappingLists_assoc (A B C R S : Slice RoleMapping)
    (A' B' C' R' S' : Slice UserMapping)
    (hAB : mergeRoleMappingLists A B = (R, none))
    (hRC : (mergeRoleMappingLists R C).2 = none)
    (hBC : mergeRoleMappingLists B C = (S, none))
    (hAS : (mergeRoleMappingLists A S).2 = none)
    (hAB' : mergeUserMappingLists A' B' = (R', none))
    (hRC' : (mergeUserMappingLists R' C').2 = none)
    (hBC' : mergeUserMappingLists B' C' = (S', none))
    (hAS' : (mergeUserMappingLists A' S').2 = none) :
    mergeRoleMappingLists R C = mergeRoleMappingLists A S ∧
    mergeUserMappingLists R' C' = mergeUserMappingLists A' S' := by
  rw [mergeRoleMappingLists_eq_mergeBy] at hAB hRC hBC hAS
  rw [mergeUserMappingLists_eq_mergeBy] at hAB' hRC' hBC' hAS'
  rw [mergeRoleMappingLists_eq_mergeBy, mergeRoleMappingLists_eq_mergeBy,
    mergeUserMappingLists_eq_mergeBy, mergeUserMappingLists_eq_mergeBy]
  have e1 := (mergeBy_ok _ _ _ _ (by rw [hAB])).2
  have e2 := (mergeBy_ok _ _ _ _ hRC).2
  have e3 := (mergeBy_ok _ _ _ _ (by rw [hBC])).2
  have e4 := (mergeBy_ok _ _ _ _ hAS).2
  have e1' := (mergeBy_ok _ _ _ _ (by rw [hAB'])).2
  have e2' := (mergeBy_ok _ _ _ _ hRC').2
  have e3' := (mergeBy_ok _ _ _ _ (by rw [hBC'])).2
  have e4' := (mergeBy_ok _ _ _ _ hAS').2
  rw [hAB] at e1
  rw [hBC] at e3
  rw [hAB'] at e1'
  rw [hBC'] at e3'
  have hR : R = some (A.elems ++ B.elems) := congrArg Prod.fst e1
  have hS : S = some (B.elems ++ C.elems) := congrArg Prod.fst e3
  have hR' : R' = some (A'.elems ++ B'.elems) := congrArg Prod.fst e1'
  have hS' : S' = some (B'.elems ++ C'.elems) := congrArg Prod.fst e3'
  rw [e2, e4, e2', e4', hR, hS, hR', hS']
  simp [Slice.elems, List.append_assoc]

theorem mergeMappingLists_assoc_witness :
    mergeRoleMappingLists (some [sampleRoleOne, sampleRoleTwo]) (some [sampleRoleThree])
      = mergeRoleMappingLists (some [sampleRoleOne]) (some [sampleRoleTwo, sampleRoleThree]) ∧
    mergeUserMappingLists (some [sampleUserOne, sampleUserTwo]) (some [sampleUserThree])
      = mergeUserMappingLists (some [sampleUserOne]) (some [sampleUserTwo, sampleUserThree]) :=
  mergeMappingLists_assoc (some [sampleRoleOne]) (some [sampleRoleTwo]) (some [sampleRoleThree])
    (some [sampleRoleOne, sampleRoleTwo]) (some [sampleRoleTwo, sampleRoleThree])
    (some [sampleUserOne]) (some [sampleUserTwo]) (some [sampleUserThree])
    (some [sampleUserOne, sampleUserTwo]) (some [sampleUserTwo, sampleUserThree])
    (by decide) (by decide) (by decide) (by decide)
    (by decide) (by decide) (by decide) (by decide)

/-! ## Identifiers declared by two sources -/

theorem DeclaredTwice_cons (P : List String) (Ls : List (List String)) (x : String) :
    DeclaredTwice (P :: Ls) x ↔ (x ∈ P ∧ ∃ Q ∈ Ls, x ∈ Q) ∨ DeclaredTwice Ls x := by
  constructor
  · rintro ⟨i, j, hij, P', Q', hi, hj, hxP, hxQ⟩
    cases j with
    | zero => omega
    | succ j =>
      rw [List.getElem?_cons_succ] at hj
      cases i with
      | zero =>
        rw [List.getElem?_cons_zero] at hi
        cases hi
        exact Or.inl ⟨hxP, Q', List.getElem?_mem hj, hxQ⟩
      | succ i =>
        rw [List.getElem?_cons_succ] at hi
        exact Or.inr ⟨i, j, by omega, P', Q', hi, hj, hxP, hxQ⟩
  · rintro (⟨hxP, Q, hQ, hxQ⟩ | ⟨i, j, hij, P', Q', hi, hj, hxP, hxQ⟩)
    · obtain ⟨n, hn⟩ := List.mem_iff_getElem?.mp hQ
      exact ⟨0, n + 1, by omega, P, Q, by simp, by simpa using hn, hxP, hxQ⟩
    · exact ⟨i + 1, j + 1, by omega, P', Q', by simpa using hi, by simpa using hj, hxP, hxQ⟩

theorem DeclaredTwice_nil (x : String) : ¬ DeclaredTwice [] x := by
  rintro ⟨i, j, _, P, Q, hi, _⟩
  simp at hi

/-- Folding a source into the running list keeps exactly the duplicates that do not
sit between the running list and that source. -/
theorem DeclaredTwice_fold (R P : List String) (Ls : List (List String)) (x : String) :
    DeclaredTwice (R :: P :: Ls) x ↔ (x ∈ R ∧ x ∈ P) ∨ DeclaredTwice ((R ++ P) :: Ls) x := by
  simp only [DeclaredTwice_cons, List.mem_cons, List.mem_append, exists_eq_or_imp]
  generalize (∃ Q ∈ Ls, x ∈ Q) = E
  tauto

theorem DeclaredTwice_nil_cons (Ls : List (List String)) (x : String) :
    DeclaredTwice ([] :: Ls) x ↔ DeclaredTwice Ls x := by
  simp [DeclaredTwice_cons]

/-! ## The fold of `mergeAwsAuthConfigMaps` -/

/-- What the loop of `mergeAwsAuthConfigMaps` returns, started from non-nil running
lists `R` and `U`.  If it completes, every source parses, no identifier is shared
between the running list and a source or between two sources, and the result is the
running state extended by the names and the declared lists in order.  If it stops with
an error, the error is the parse error of a source or a conflict on an identifier that
is shared in that way. -/
theorem mergeAwsAuthConfigMaps.loop_spec (lib : Lib) (S : List ConfigMap) :
    ∀ (src : List String) (R : List RoleMapping) (U : List UserMapping),
      (∀ res, mergeAwsAuthConfigMaps.loop lib S (src, some R, some U) = .ok res →
        (∀ c ∈ S, Parses lib c) ∧
        (∀ x, ¬ DeclaredTwice (R.map (·.RoleArn) :: roleArnsBySource lib S) x) ∧
        (∀ x, ¬ DeclaredTwice (U.map (·.UserArn) :: userArnsBySource lib S) x) ∧
        res = (src ++ S.map (·.Name), some (R ++ (S.map (rolesOf lib)).flatten),
                some (U ++ (S.map (usersOf lib)).flatten))) ∧
      (∀ e, mergeAwsAuthConfigMaps.loop lib S (src, some R, some U) = .error e →
        (∃ c ∈ S, (getRoleMappingFromConfigMap lib c).2 = some e ∨
                  (getUserMappingFromConfigMap lib c).2 = some e) ∨
        (∃ x, e = GoError.mappingConflict ⟨roleMappingType, x⟩ ∧
              DeclaredTwice (R.map (·.RoleArn) :: roleArnsBySource lib S) x) ∨
        (∃ x, e = GoError.mappingConflict ⟨userMappingType, x⟩ ∧
              DeclaredTwice (U.map (·.UserArn) :: userArnsBySource lib S) x)) := by
  induction S with
  | nil =>
    intro src R U
    refine ⟨?_, ?_⟩
    · intro res h
      simp only [mergeAwsAuthConfigMaps.loop, Except.ok.injEq] at h
      subst h
      refine ⟨by simp, ?_, ?_, by simp⟩
      · intro x hx
        rw [roleArnsBySource, List.map_nil, DeclaredTwice_cons] at hx
        rcases hx with ⟨_, Q, hQ, _⟩ | hx
        · cases hQ
        · exact DeclaredTwice_nil x hx
      · intro x hx
        rw [userArnsBySource, List.map_nil, DeclaredTwice_cons] at hx
        rcases hx with ⟨_, Q, hQ, _⟩ | hx
        · cases hQ
        · exact DeclaredTwice_nil x hx
    · intro e h
      simp [mergeAwsAuthConfigMaps.loop] at h
  | cons cm rest ih =>
    intro src R U
    rw [mergeAwsAuthConfigMaps.loop]
    have hRk : roleArnsBySource lib (cm :: rest)
        = (rolesOf lib cm).map (·.RoleArn) :: roleArnsBySource lib rest := rfl
    have hUk : userArnsBySource lib (cm :: rest)
        = (usersOf lib cm).map (·.UserArn) :: userArnsBySource lib rest := rfl
    rcases hgr : getRoleMappingFromConfigMap lib cm with ⟨cr, _ | er⟩
    swap
    · -- the role list of `cm` does not parse
      refine ⟨fun res h => by simp at h, fun e h => ?_⟩
      simp only [Except.error.injEq] at h
      subst h
      exact Or.inl ⟨cm, List.mem_cons_self _ _, Or.inl (by rw [hgr])⟩
    have hcr : rolesOf lib cm = cr.elems := by rw [rolesOf, hgr]
    simp only [mergeRoleMappingLists_eq_mergeBy]
    rcases mergeBy_cases (·.RoleArn) roleMappingType (Slice.elems (some R)) cr.elems with
      ⟨hdisR, hmR⟩ | ⟨_, b, hb, hbR, hmR⟩
    swap
    · -- a role of `cm` collides with the running list
      rw [hmR]
      refine ⟨fun res h => by simp at h, fun e h => ?_⟩
      simp only [Except.error.injEq] at h
      subst h
      refine Or.inr (Or.inl ⟨b.RoleArn, rfl, ?_⟩)
      rw [hRk, DeclaredTwice_cons]
      refine Or.inl ⟨hbR, _, List.mem_cons_self _ _, ?_⟩
      rw [hcr]
      exact List.mem_map_of_mem _ hb
    rw [hmR]
    rcases hgu : getUserMappingFromConfigMap lib cm with ⟨cu, _ | eu⟩
    swap
    · -- the user list of `cm` does not parse
      refine ⟨fun res h => by simp at h, fun e h => ?_⟩
      simp only [Except.error.injEq] at h
      subst h
      exact Or.inl ⟨cm, List.mem_cons_self _ _, Or.inr (by rw [hgu])⟩
    have hcu : usersOf lib cm = cu.elems := by rw [usersOf, hgu]
    simp only [mergeUserMappingLists_eq_mergeBy]
    rcases mergeBy_cases (·.UserArn) userMappingType (Slice.elems (some U)) cu.elems with
      ⟨hdisU, hmU⟩ | ⟨_, b, hb, hbU, hmU⟩
    swap
    · -- a user of `cm` collides with the running list
      rw [hmU]
      refine ⟨fun res h => by simp at h, fun e h => ?_⟩
      simp only [Except.error.injEq] at h
      subst h
      refine Or.inr (Or.inr ⟨b.UserArn, rfl, ?_⟩)
      rw [hUk, DeclaredTwice_cons]
      refine Or.inl ⟨hbU, _, List.mem_cons_self _ _, ?_⟩
      rw [hcu]
      exact List.mem_map_of_mem _ hb
    rw [hmU]
    simp only [Slice.elems] at hdisR hdisU ⊢
    obtain ⟨ihok, iherr⟩ := ih (src ++ [cm.Name]) (R ++ cr.elems) (U ++ cu.elems)
    have hfoldR : ∀ x, DeclaredTwice (R.map (·.RoleArn) :: roleArnsBySource lib (cm :: rest)) x
        ↔ DeclaredTwice ((R ++ cr.elems).map (·.RoleArn) :: roleArnsBySource lib rest) x := by
      intro x
      rw [hRk, DeclaredTwice_fold, List.map_append, hcr]
      constructor
      · rintro (⟨h1, h2⟩ | h)
        · obtain ⟨a, ha, hax⟩ := List.mem_map.mp h1
          obtain ⟨b, hb, hbx⟩ := List.mem_map.mp h2
          exact absurd (hbx.trans hax.symm) (hdisR a ha b hb)
        · exact h
      · exact Or.inr
    have hfoldU : ∀ x, DeclaredTwice (U.map (·.UserArn) :: userArnsBySource lib (cm :: rest)) x
        ↔ DeclaredTwice ((U ++ cu.elems).map (·.UserArn) :: userArnsBySource lib rest) x := by
      intro x
      rw [hUk, DeclaredTwice_fold, List.map_append, hcu]
      constructor
      · rintro (⟨h1, h2⟩ | h)
        · obtain ⟨a, ha, hax⟩ := List.mem_map.mp h1
          obtain ⟨b, hb, hbx⟩ := List.mem_map.mp h2
          exact absurd (hbx.trans hax.symm) (hdisU a ha b hb)
        · exact h
      · exact Or.inr
    refine ⟨fun res h => ?_, fun e h => ?_⟩
    · obtain ⟨hp, hr, hu, hres⟩ := ihok res h
      refine ⟨?_, fun x => (hfoldR x).not.mpr (hr x), fun x => (hfoldU x).not.mpr (hu x), ?_⟩
      · intro c hc
        rcases List.mem_cons.mp hc with rfl | hc
        · exact ⟨by rw [hgr], by rw [hgu]⟩
        · exact hp c hc
      · rw [hres]
        simp [hcr, hcu, List.append_assoc]
    · rcases iherr e h with ⟨c, hc, hce⟩ | ⟨x, hx, hd⟩ | ⟨x, hx, hd⟩
      · exact Or.inl ⟨c, List.mem_cons_of_mem _ hc, hce⟩
      · exact Or.inr (Or.inl ⟨x, hx, (hfoldR x).mpr hd⟩)
      · exact Or.inr (Or.inr ⟨x, hx, (hfoldU x).mpr hd⟩)

/-- No identifier is declared twice exactly when the identifier lists are pairwise
disjoint (a decidable test). -/
theorem not_DeclaredTwice_iff (Ls : List (List String)) :
    (∀ x, ¬ DeclaredTwice Ls x) ↔ Ls.Pairwise (fun P Q => ∀ x ∈ P, x ∉ Q) := by
  induction Ls with
  | nil => simp [DeclaredTwice_nil]
  | cons P Ls ih =>
    rw [List.pairwise_cons, ← ih]
    simp only [DeclaredTwice_cons, not_or, not_and, not_exists]
    constructor
    · intro h
      exact ⟨fun Q hQ x hx hxQ => (h x).1 hx Q hQ hxQ, fun x => (h x).2⟩
    · rintro ⟨h1, h2⟩ x
      exact ⟨fun hx Q hQ hxQ => h1 Q hQ x hx hxQ, h2 x⟩

/-! ## `mergeAwsAuthConfigMaps` -/

/-- The loop from the initial state, on success. -/
theorem mergeAwsAuthConfigMaps.loop_ok (lib : Lib) (S : List ConfigMap)
    (res : List String × Slice RoleMapping × Slice UserMapping)
    (h : mergeAwsAuthConfigMaps.loop lib S ([], some [], some []) = .ok res) :
    (∀ c ∈ S, Parses lib c) ∧
    (∀ x, ¬ DeclaredTwice (roleArnsBySource lib S) x) ∧
    (∀ x, ¬ DeclaredTwice (userArnsBySource lib S) x) ∧
    res = (S.map (·.Name), some (S.map (rolesOf lib)).flatten,
            some (S.map (usersOf lib)).flatten) := by
  obtain ⟨hp, hr, hu, hres⟩ := (mergeAwsAuthConfigMaps.loop_spec lib S [] [] []).1 res h
  refine ⟨hp, fun x hx => hr x ?_, fun x hx => hu x ?_, by simpa using hres⟩
  · exact (DeclaredTwice_nil_cons _ x).mpr hx
  · exact (DeclaredTwice_nil_cons _ x).mpr hx

/-- The loop from the initial state, on failure. -/
theorem mergeAwsAuthConfigMaps.loop_error (lib : Lib) (S : List ConfigMap) (e : GoError)
    (h : mergeAwsAuthConfigMaps.loop lib S ([], some [], some []) = .error e) :
    (∃ c ∈ S, (getRoleMappingFromConfigMap lib c).2 = some e ∨
              (getUserMappingFromConfigMap lib c).2 = some e) ∨
    (∃ x, e = GoError.mappingConflict ⟨roleMappingType, x⟩ ∧
          DeclaredTwice (roleArnsBySource lib S) x) ∨
    (∃ x, e = GoError.mappingConflict ⟨userMappingType, x⟩ ∧
          DeclaredTwice (userArnsBySource lib S) x) := by
  rcases (mergeAwsAuthConfigMaps.loop_spec lib S [] [] []).2 e h with
    h1 | ⟨x, hx, hd⟩ | ⟨x, hx, hd⟩
  · exact Or.inl h1
  · exact Or.inr (Or.inl ⟨x, hx, (DeclaredTwice_nil_cons _ x).mp hd⟩)
  · exact Or.inr (Or.inr ⟨x, hx, (DeclaredTwice_nil_cons _ x).mp hd⟩)

/-- The loop completes exactly when every source parses and no identifier is declared
by two sources. -/
theorem mergeAwsAuthConfigMaps.loop_complete (lib : Lib) (S : List ConfigMap)
    (hp : ∀ c ∈ S, Parses lib c)
    (hr : ∀ x, ¬ DeclaredTwice (roleArnsBySource lib S) x)
    (hu : ∀ x, ¬ DeclaredTwice (userArnsBySource lib S) x) :
    mergeAwsAuthConfigMaps.loop lib S ([], some [], some [])
      = .ok (S.map (·.Name), some (S.map (rolesOf lib)).flatten,
              some (S.map (usersOf lib)).flatten) := by
  cases hl : mergeAwsAuthConfigMaps.loop lib S ([], some [], some []) with
  | ok res => rw [(mergeAwsAuthConfigMaps.loop_ok lib S res hl).2.2.2]
  | error e =>
    exfalso
    rcases mergeAwsAuthConfigMaps.loop_error lib S e hl with
      ⟨c, hc, hce | hce⟩ | ⟨x, _, hd⟩ | ⟨x, _, hd⟩
    · rw [(hp c hc).1] at hce
      cases hce
    · rw [(hp c hc).2] at hce
      cases hce
    · exact hr x hd
    · exact hu x hd

/-- A failing loop makes `mergeAwsAuthConfigMaps` return the zero ConfigMap and the
error of the loop. -/
theorem mergeAwsAuthConfigMaps_of_loop_error (lib : Lib) (now : Time) (S : Slice ConfigMap)
    (e : GoError)
    (h : mergeAwsAuthConfigMaps.loop lib S.elems ([], some [], some []) = .error e) :
    mergeAwsAuthConfigMaps lib now S = ({}, some e) := by
  simp only [mergeAwsAuthConfigMaps, h]

/-- A successful `mergeAwsAuthConfigMaps` went through a completed loop and three
successful encodings, and returns the object built from them. -/
theorem mergeAwsAuthConfigMaps_ok (lib : Lib) (now : Time) (S : Slice ConfigMap)
    (merged : ConfigMap) (h : mergeAwsAuthConfigMaps lib now S = (merged, none)) :
    ∃ sourcesJson mapRolesYaml mapUsersYaml,
      mergeAwsAuthConfigMaps.loop lib S.elems ([], some [], some [])
        = .ok (S.elems.map (·.Name), some (S.elems.map (rolesOf lib)).flatten,
                some (S.elems.map (usersOf lib)).flatten) ∧
      lib.jsonMarshal (some (S.elems.map (·.Name))) = .ok sourcesJson ∧
      lib.yamlMarshalRoles (some (S.elems.map (rolesOf lib)).flatten) = .ok mapRolesYaml ∧
      lib.yamlMarshalUsers (some (S.elems.map (usersOf lib)).flatten) = .ok mapUsersYaml ∧
      merged = { Name := mainAwsAuthConfigMapName
                 Namespace := mainAwsAuthConfigMapNamespace
                 Labels := [(managedByLabelKey, managedByLabelValue)]
                 Annotations := [(sourcesAnnotationKey, sourcesJson),
                                 (mergedTimestampAnnotationKey, lib.formatUTC now)]
                 Data := [(mapRolesKey, mapRolesYaml), (mapUsersKey, mapUsersYaml)] } := by
  cases hl : mergeAwsAuthConfigMaps.loop lib S.elems ([], some [], some []) with
  | error e =>
    rw [mergeAwsAuthConfigMaps_of_loop_error lib now S e hl] at h
    cases h
  | ok res =>
    have hres := (mergeAwsAuthConfigMaps.loop_ok lib S.elems res hl).2.2.2
    subst hres
    simp only [mergeAwsAuthConfigMaps, hl] at h
    cases hj : lib.jsonMarshal (some (S.elems.map (·.Name))) with
    | error e => simp [hj] at h
    | ok sj =>
      cases hr : lib.yamlMarshalRoles (some (S.elems.map (rolesOf lib)).flatten) with
      | error e => simp [hj, hr] at h
      | ok ry =>
        cases hu : lib.yamlMarshalUsers (some (S.elems.map (usersOf lib)).flatten) with
        | error e => simp [hj, hr, hu] at h
        | ok uy =>
          simp only [hj, hr, hu, Prod.mk.injEq, and_true] at h
          exact ⟨sj, ry, uy, rfl, rfl, rfl, rfl, h.symm⟩

/-- Every shared identifier is `X` exactly when any two identifier lists meet at most
in `X` (a decidable test). -/
theorem DeclaredTwice_only_iff (Ls : List (List String)) (X : String) :
    (∀ x, DeclaredTwice Ls x → x = X) ↔ Ls.Pairwise (fun P Q => ∀ x ∈ P, x ∈ Q → x = X) := by
  induction Ls with
  | nil => simp [DeclaredTwice_nil]
  | cons P Ls ih =>
    rw [List.pairwise_cons, ← ih]
    simp only [DeclaredTwice_cons]
    constructor
    · intro h
      exact ⟨fun Q hQ x hx hxQ => h x (Or.inl ⟨hx, Q, hQ, hxQ⟩), fun x hx => h x (Or.inr hx)⟩
    · rintro ⟨h1, h2⟩ x (⟨hx, Q, hQ, hxQ⟩ | hx)
      · exact h1 Q hQ x hx hxQ
      · exact h2 x hx

theorem lookup_mapRoles (a b : String) :
    List.lookup "mapRoles" [(mapRolesKey, a), (mapUsersKey, b)] = some a := by
  simp [List.lookup, mapRolesKey]

theorem lookup_mapUsers (a b : String) :
    List.lookup "mapUsers" [(mapRolesKey, a), (mapUsersKey, b)] = some b := by
  simp [List.lookup, mapRolesKey, mapUsersKey]

theorem lookup_sources (a b : String) :
    List.lookup "gruntwork.io/aws-auth-merger-sources"
      [(sourcesAnnotationKey, a), (mergedTimestampAnnotationKey, b)] = some a := by
  simp [List.lookup, sourcesAnnotationKey]

/-- C4 (as stated, refuted): on the single source `sampleSourceDup`, whose own role list
names `asdf` twice, `mergeAwsAuthConfigMaps` succeeds, the merged role list is that list
and the `mapRoles` data is its serialization, so two merged entries share a `RoleArn`. -/
theorem merged_identifiers_distinct_counterexample :
    (mergeAwsAuthConfigMaps sampleLib 0 (some [sampleSourceDup])).2 = none ∧
    mergeAwsAuthConfigMaps.loop sampleLib [sampleSourceDup] ([], some [], some [])
      = .ok (["team-dup"], some [sampleRoleOne, sampleRoleOne], some []) ∧
    sampleLib.yamlMarshalRoles (some [sampleRoleOne, sampleRoleOne])
      = .ok (sampleRolesYaml [sampleRoleOne, sampleRoleOne]) ∧
    (mergeAwsAuthConfigMaps sampleLib 0 (some [sampleSourceDup])).1.Data.lookup "mapRoles"
      = some (sampleRolesYaml [sampleRoleOne, sampleRoleOne]) ∧
    ¬ ([sampleRoleOne, sampleRoleOne].map (·.RoleArn)).Nodup :=
  ⟨by decide, rfl, rfl, by decide, by decide⟩

/-- C4 (amended): when `mergeAwsAuthConfigMaps` succeeds, the merged role list, whose
serialization is the `mapRoles` data, is the concatenation of the role lists of the
sources in input order, and no `RoleArn` is declared by two different sources; the same
holds for the merged user list, `mapUsers` and `UserArn`.  Two merged entries with one
identifier therefore come from one and the same source. -/
theorem merged_identifiers_distinct_across_sources (lib : Lib) (now : Time)
    (S : Slice ConfigMap) (merged : ConfigMap)
    (h : mergeAwsAuthConfigMaps lib now S = (merged, none)) :
    ∃ (names : List String) (R : List RoleMapping) (U : List UserMapping)
        (mapRolesYaml mapUsersYaml : String),
      mergeAwsAuthConfigMaps.loop lib S.elems ([], some [], some [])
        = .ok (names, some R, some U) ∧
      lib.yamlMarshalRoles (some R) = .ok mapRolesYaml ∧
      lib.yamlMarshalUsers (some U) = .ok mapUsersYaml ∧
      merged.Data = [("mapRoles", mapRolesYaml), ("mapUsers", mapUsersYaml)] ∧
      R = (S.elems.map (rolesOf lib)).flatten ∧
      U = (S.elems.map (usersOf lib)).flatten ∧
      (∀ x, ¬ DeclaredTwice (roleArnsBySource lib S.elems) x) ∧
      (∀ x, ¬ DeclaredTwice (userArnsBySource lib S.elems) x) := by
  obtain ⟨sj, ry, uy, hl, _, hr, hu, hm⟩ := mergeAwsAuthConfigMaps_ok lib now S merged h
  obtain ⟨_, hdr, hdu, _⟩ := mergeAwsAuthConfigMaps.loop_ok lib S.elems _ hl
  exact ⟨_, _, _, ry, uy, hl, hr, hu, by rw [hm]; rfl, rfl, rfl, hdr, hdu⟩

theorem merged_identifiers_distinct_across_sources_witness :
    ∃ (names : List String) (R : List RoleMapping) (U : List UserMapping)
        (mapRolesYaml mapUsersYaml : String),
      mergeAwsAuthConfigMaps.loop sampleLib
          (Slice.elems (some [sampleSourceA, sampleSourceB, sampleSourceC]))
          ([], some [], some [])
        = .ok (names, some R, some U) ∧
      sampleLib.yamlMarshalRoles (some R) = .ok mapRolesYaml ∧
      sampleLib.yamlMarshalUsers (some U) = .ok mapUsersYaml ∧
      (mergeAwsAuthConfigMaps sampleLib 0
          (some [sampleSourceA, sampleSourceB, sampleSourceC])).1.Data
        = [("mapRoles", mapRolesYaml), ("mapUsers", mapUsersYaml)] ∧
      R = ((Slice.elems (some [sampleSourceA, sampleSourceB, sampleSourceC])).map
            (rolesOf sampleLib)).flatten ∧
      U = ((Slice.elems (some [sampleSourceA, sampleSourceB, sampleSourceC])).map
            (usersOf sampleLib)).flatten ∧
      (∀ x, ¬ DeclaredTwice (roleArnsBySource sampleLib
          (Slice.elems (some [sampleSourceA, sampleSourceB, sampleSourceC]))) x) ∧
      (∀ x, ¬ DeclaredTwice (userArnsBySource sampleLib
          (Slice.elems (some [sampleSourceA, sampleSourceB, sampleSourceC]))) x) :=
  merged_identifiers_distinct_across_sources sampleLib 0
    (some [sampleSourceA, sampleSourceB, sampleSourceC])
    (mergeAwsAuthConfigMaps sampleLib 0 (some [sampleSourceA, sampleSourceB, sampleSourceC])).1
    (by decide)

/-- C5: when every source parses and no role identifier and no user identifier is
declared by two different sources, `mergeAwsAuthConfigMaps` succeeds; its `mapRoles`
data is the serialization of the concatenation, in input order, of the role lists of
the sources, whose length is the sum of the per-source counts, and its `mapUsers` data
is the serialization of the concatenation of the user lists.  The serializations are
the values the encoders return on the names and on the two concatenations. -/
theorem merge_of_disjoint_sources (lib : Lib) (now : Time) (S : Slice ConfigMap)
    (sourcesJson mapRolesYaml mapUsersYaml : String)
    (hp : ∀ c ∈ S.elems, Parses lib c)
    (hr : ∀ x, ¬ DeclaredTwice (roleArnsBySource lib S.elems) x)
    (hu : ∀ x, ¬ DeclaredTwice (userArnsBySource lib S.elems) x)
    (hj : lib.jsonMarshal (some (S.elems.map (·.Name))) = .ok sourcesJson)
    (hry : lib.yamlMarshalRoles (some (S.elems.map (rolesOf lib)).flatten) = .ok mapRolesYaml)
    (huy : lib.yamlMarshalUsers (some (S.elems.map (usersOf lib)).flatten) = .ok mapUsersYaml) :
    (mergeAwsAuthConfigMaps lib now S).2 = none ∧
    (mergeAwsAuthConfigMaps lib now S).1.Data.lookup "mapRoles" = some mapRolesYaml ∧
    (mergeAwsAuthConfigMaps lib now S).1.Data.lookup "mapUsers" = some mapUsersYaml ∧
    ((S.elems.map (rolesOf lib)).flatten).length
      = (S.elems.map (fun c => (rolesOf lib c).length)).sum ∧
    ((S.elems.map (usersOf lib)).flatten).length
      = (S.elems.map (fun c => (usersOf lib c).length)).sum := by
  have hl := mergeAwsAuthConfigMaps.loop_complete lib S.elems hp hr hu
  have hm : mergeAwsAuthConfigMaps lib now S
      = ({ Name := mainAwsAuthConfigMapName
           Namespace := mainAwsAuthConfigMapNamespace
           Labels := [(managedByLabelKey, managedByLabelValue)]
           Annotations := [(sourcesAnnotationKey, sourcesJson),
                           (mergedTimestampAnnotationKey, lib.formatUTC now)]
           Data := [(mapRolesKey, mapRolesYaml), (mapUsersKey, mapUsersYaml)] }, none) := by
    simp only [mergeAwsAuthConfigMaps, hl, hj, hry, huy]
  rw [hm]
  refine ⟨rfl, lookup_mapRoles _ _, lookup_mapUsers _ _, ?_, ?_⟩
  · simp [List.length_flatten, List.map_map, Function.comp_def]
  · simp [List.length_flatten, List.map_map, Function.comp_def]

theorem merge_of_disjoint_sources_witness :
    (mergeAwsAuthConfigMaps sampleLib 0
        (some [sampleSourceA, sampleSourceB, sampleSourceC])).2 = none ∧
    (mergeAwsAuthConfigMaps sampleLib 0
        (some [sampleSourceA, sampleSourceB, sampleSourceC])).1.Data.lookup "mapRoles"
      = some (sampleRolesYaml [sampleRoleOne, sampleRoleTwo, sampleRoleThree]) ∧
    (mergeAwsAuthConfigMaps sampleLib 0
        (some [sampleSourceA, sampleSourceB, sampleSourceC])).1.Data.lookup "mapUsers"
      = some (sampleUsersYaml [sampleUserOne, sampleUserTwo, sampleUserThree]) ∧
    (((Slice.elems (some [sampleSourceA, sampleSourceB, sampleSourceC])).map
        (rolesOf sampleLib)).flatten).length
      = ((Slice.elems (some [sampleSourceA, sampleSourceB, sampleSourceC])).map
          (fun c => (rolesOf sampleLib c).length)).sum ∧
    (((Slice.elems (some [sampleSourceA, sampleSourceB, sampleSourceC])).map
        (usersOf sampleLib)).flatten).length
      = ((Slice.elems (some [sampleSourceA, sampleSourceB, sampleSourceC])).map
          (fun c => (usersOf sampleLib c).length)).sum :=
  merge_of_disjoint_sources sampleLib 0 (some [sampleSourceA, sampleSourceB, sampleSourceC])
    "[\"team-a\",\"team-b\",\"team-c\"]"
    (sampleRolesYaml [sampleRoleOne, sampleRoleTwo, sampleRoleThree])
    (sampleUsersYaml [sampleUserOne, sampleUserTwo, sampleUserThree])
    (by decide) ((not_DeclaredTwice_iff _).mpr (by decide))
    ((not_DeclaredTwice_iff _).mpr (by decide)) rfl rfl rfl

/-- C6: when every source parses and two different sources each declare a role entry
with identifier `X` (only the identifiers matter, not the usernames or groups),
`mergeAwsAuthConfigMaps` returns the zero ConfigMap and a `MappingConflictErr`; and when
`X` is the only role identifier declared by two sources and no user identifier is
declared by two sources, the error is the conflict of kind `Role` naming `X`. -/
theorem merge_of_shared_role (lib : Lib) (now : Time) (S : Slice ConfigMap) (X : String)
    (hp : ∀ c ∈ S.elems, Parses lib c)
    (hX : DeclaredTwice (roleArnsBySource lib S.elems) X) :
    (∃ e : MappingConflictErr,
      mergeAwsAuthConfigMaps lib now S = ({}, some (GoError.mappingConflict e))) ∧
    ((∀ x, DeclaredTwice (roleArnsBySource lib S.elems) x → x = X) →
      (∀ x, ¬ DeclaredTwice (userArnsBySource lib S.elems) x) →
      mergeAwsAuthConfigMaps lib now S = ({}, some (GoError.mappingConflict ⟨"Role", X⟩))) := by
  cases hl : mergeAwsAuthConfigMaps.loop lib S.elems ([], some [], some []) with
  | ok res => exact absurd hX ((mergeAwsAuthConfigMaps.loop_ok lib S.elems res hl).2.1 X)
  | error e =>
    rw [mergeAwsAuthConfigMaps_of_loop_error lib now S e hl]
    rcases mergeAwsAuthConfigMaps.loop_error lib S.elems e hl with
      ⟨c, hc, hce | hce⟩ | ⟨x, hx, hd⟩ | ⟨x, hx, hd⟩
    · rw [(hp c hc).1] at hce
      cases hce
    · rw [(hp c hc).2] at hce
      cases hce
    · subst hx
      refine ⟨⟨_, rfl⟩, fun honly _ => ?_⟩
      rw [honly x hd]
      rfl
    · subst hx
      exact ⟨⟨_, rfl⟩, fun _ hnone => absurd hd (hnone x)⟩

theorem merge_of_shared_role_witness :
    (∃ e : MappingConflictErr,
      mergeAwsAuthConfigMaps sampleLib 0 (some [sampleSourceA, sampleSourceC, sampleSourceD])
        = ({}, some (GoError.mappingConflict e))) ∧
    mergeAwsAuthConfigMaps sampleLib 0 (some [sampleSourceA, sampleSourceC, sampleSourceD])
      = ({}, some (GoError.mappingConflict ⟨"Role", "hjkl"⟩)) :=
  ⟨(merge_of_shared_role sampleLib 0 (some [sampleSourceA, sampleSourceC, sampleSourceD])
      "hjkl" (by decide)
      ⟨1, 2, by decide, ["hjkl", "1234"], ["hjkl"], rfl, rfl, by decide, by decide⟩).1,
   (merge_of_shared_role sampleLib 0 (some [sampleSourceA, sampleSourceC, sampleSourceD])
      "hjkl" (by decide)
      ⟨1, 2, by decide, ["hjkl", "1234"], ["hjkl"], rfl, rfl, by decide, by decide⟩).2
      ((DeclaredTwice_only_iff _ _).mpr (by decide))
      ((not_DeclaredTwice_iff _).mpr (by decide))⟩

/-- C10: when `mergeAwsAuthConfigMaps` succeeds, the sources annotation of the result is
what `json.Marshal` returns on the list of the names of the sources in input order, one
element per source: nothing is dropped, sorted or deduplicated. -/
theorem sources_annotation_in_input_order (lib : Lib) (now : Time) (S : Slice ConfigMap)
    (merged : ConfigMap) (h : mergeAwsAuthConfigMaps lib now S = (merged, none)) :
    ∃ sourcesJson,
      lib.jsonMarshal (some (S.elems.map (·.Name))) = .ok sourcesJson ∧
      merged.Annotations.lookup "gruntwork.io/aws-auth-merger-sources" = some sourcesJson ∧
      (S.elems.map (·.Name)).length = S.elems.length := by
  obtain ⟨sj, ry, uy, _, hj, _, _, hm⟩ := mergeAwsAuthConfigMaps_ok lib now S merged h
  refine ⟨sj, hj, ?_, List.length_map _ _⟩
  rw [hm]
  exact lookup_sources _ _

theorem sources_annotation_in_input_order_witness :
    ∃ sourcesJson,
      sourcesJson = "[\"team-c\",\"team-b\",\"team-b\"]" ∧
      sampleLib.jsonMarshal
          (some ((Slice.elems (some [sampleSourceC, sampleSourceEmpty, sampleSourceB])).map
            (·.Name))) = .ok sourcesJson ∧
      (mergeAwsAuthConfigMaps sampleLib 0
          (some [sampleSourceC, sampleSourceEmpty, sampleSourceB])).1.Annotations.lookup
            "gruntwork.io/aws-auth-merger-sources" = some sourcesJson ∧
      ((Slice.elems (some [sampleSourceC, sampleSourceEmpty, sampleSourceB])).map
          (·.Name)).length
        = (Slice.elems (some [sampleSourceC, sampleSourceEmpty, sampleSourceB])).length :=
  (sources_annotation_in_input_order sampleLib 0
    (some [sampleSourceC, sampleSourceEmpty, sampleSourceB])
    (mergeAwsAuthConfigMaps sampleLib 0
      (some [sampleSourceC, sampleSourceEmpty, sampleSourceB])).1
    (by decide)).imp fun sj hsj => ⟨Except.ok.inj (hsj.1.symm.trans rfl), hsj⟩

/-! ## Listing and the merge-and-upsert cycle -/

/-- The pagination loop leaves the store alone and issues `List` requests only. -/
theorem listAwsAuthConfigMaps.loop_frame {σ : Type} (authMerger : AwsAuthMerger σ)
    (fuel : Nat) :
    ∀ (w : World σ) (configmapList : ConfigMapList) (allConfigMaps : Slice ConfigMap)
      (out : World σ × Slice ConfigMap × Option GoError),
      listAwsAuthConfigMaps.loop authMerger fuel w configmapList allConfigMaps = some out →
      out.1.store = w.store ∧
      ∃ cs, out.1.calls = w.calls ++ cs ∧ ∀ c ∈ cs, c.isWrite = false := by
  induction fuel with
  | zero =>
    intro w cl acc out h
    rw [listAwsAuthConfigMaps.loop] at h
    by_cases hc : cl.Continue = ""
    · simp only [hc, if_true, Option.some.injEq] at h
      subst h
      exact ⟨rfl, [], by simp, by simp⟩
    · simp [hc] at h
  | succ fuel ih =>
    intro w cl acc out h
    rw [listAwsAuthConfigMaps.loop] at h
    by_cases hc : cl.Continue = ""
    · simp only [hc, if_true, Option.some.injEq] at h
      subst h
      exact ⟨rfl, [], by simp, by simp⟩
    · simp only [hc, if_false, AwsAuthMerger.callList] at h
      cases hr : authMerger.clientset.list w.store authMerger.namespace_
          authMerger.labelSelector cl.Continue with
      | error err =>
        simp only [hr, Option.some.injEq] at h
        subst h
        exact ⟨rfl, _, rfl, by simp [ApiCall.isWrite]⟩
      | ok page =>
        simp only [hr] at h
        obtain ⟨hs, cs, hcs, hw⟩ := ih _ _ _ _ h
        refine ⟨hs, ApiCall.list authMerger.namespace_ authMerger.labelSelector cl.Continue :: cs,
          by rw [hcs]; simp, ?_⟩
        intro c hc
        rcases List.mem_cons.mp hc with rfl | hc
        · rfl
        · exact hw c hc

/-- Listing the sources leaves the store alone and issues `List` requests only. -/
theorem listAwsAuthConfigMaps_frame {σ : Type} (authMerger : AwsAuthMerger σ) (fuel : Nat)
    (w : World σ) (out : World σ × Slice ConfigMap × Option GoError)
    (h : listAwsAuthConfigMaps authMerger fuel w = some out) :
    out.1.store = w.store ∧
    ∃ cs, out.1.calls = w.calls ++ cs ∧ ∀ c ∈ cs, c.isWrite = false := by
  simp only [listAwsAuthConfigMaps, AwsAuthMerger.callList] at h
  cases hr : authMerger.clientset.list w.store authMerger.namespace_
      authMerger.labelSelector "" with
  | error err =>
    simp only [hr, Option.some.injEq] at h
    subst h
    exact ⟨rfl, _, rfl, by simp [ApiCall.isWrite]⟩
  | ok page =>
    simp only [hr] at h
    obtain ⟨hs, cs, hcs, hw⟩ := listAwsAuthConfigMaps.loop_frame authMerger fuel _ _ _ _ h
    refine ⟨hs, ApiCall.list authMerger.namespace_ authMerger.labelSelector "" :: cs,
      by rw [hcs]; simp, ?_⟩
    intro c hc
    rcases List.mem_cons.mp hc with rfl | hc
    · rfl
    · exact hw c hc

/-- C7: when listing the sources succeeds and `mergeAwsAuthConfigMaps` on the listed
sources returns an error, `syncAwsAuthConfigMaps` returns that same error, the requests
it issued contain no `Create` and no `Update`, and the store is the one from before the
cycle; in particular a `Get` of `kube-system/aws-auth` answers as before. -/
theorem sync_stops_on_merge_error {σ : Type} (lib : Lib) (authMerger : AwsAuthMerger σ)
    (now : Time) (fuel : Nat) (w w' : World σ) (configmaps : Slice ConfigMap) (e : GoError)
    (hl : listAwsAuthConfigMaps authMerger fuel w = some (w', configmaps, none))
    (hm : (mergeAwsAuthConfigMaps lib now configmaps).2 = some e) :
    syncAwsAuthConfigMaps lib authMerger now fuel w = some (w', some e) ∧
    w'.store = w.store ∧
    (∃ cs, w'.calls = w.calls ++ cs ∧ ∀ c ∈ cs, c.isWrite = false) ∧
    authMerger.clientset.get w'.store "kube-system" "aws-auth"
      = authMerger.clientset.get w.store "kube-system" "aws-auth" := by
  obtain ⟨hs, hcs⟩ := listAwsAuthConfigMaps_frame authMerger fuel w _ hl
  refine ⟨?_, hs, hcs, ?_⟩
  · rcases hmm : mergeAwsAuthConfigMaps lib now configmaps with ⟨merged, err⟩
    rw [hmm] at hm
    simp only at hm
    subst hm
    simp only [syncAwsAuthConfigMaps, hl, hmm]
  · simp only at hs
    rw [hs]

theorem sync_stops_on_merge_error_witness :
    syncAwsAuthConfigMaps sampleLib sampleMerger 0 0 sampleWorldBad
      = some ({ store := [sampleSourceA, sampleSourceBad, sampleMainConfigMap],
                calls := [ApiCall.list "aws-auth-merger" "" ""] },
              some (GoError.invalidMappingList
                ⟨"Role", "team-bad", ⟨"", "yaml: unmarshal errors"⟩⟩)) ∧
    [sampleSourceA, sampleSourceBad, sampleMainConfigMap] = sampleWorldBad.store ∧
    (∃ cs, [ApiCall.list "aws-auth-merger" "" ""] = sampleWorldBad.calls ++ cs ∧
      ∀ c ∈ cs, c.isWrite = false) ∧
    sampleMerger.clientset.get [sampleSourceA, sampleSourceBad, sampleMainConfigMap]
        "kube-system" "aws-auth"
      = sampleMerger.clientset.get sampleWorldBad.store "kube-system" "aws-auth" :=
  sync_stops_on_merge_error sampleLib sampleMerger 0 0 sampleWorldBad
    { store := [sampleSourceA, sampleSourceBad, sampleMainConfigMap],
      calls := [ApiCall.list "aws-auth-merger" "" ""] }
    (some [sampleSourceA, sampleSourceBad])
    (GoError.invalidMappingList ⟨"Role", "team-bad", ⟨"", "yaml: unmarshal errors"⟩⟩)
    rfl (by decide)

/-! ## The source reader -/

/-- C8: on a ConfigMap whose data has no `mapRoles` key `getRoleMappingFromConfigMap`
returns the empty, non-nil list and the nil error, whatever else the data holds, and on
one without `mapUsers` key `getUserMappingFromConfigMap` does; merging the returned list
into any running list succeeds and leaves the running list unchanged. -/
theorem reader_missing_key (lib : Lib) (configmap configmap' : ConfigMap)
    (hR : configmap.Data.lookup "mapRoles" = none)
    (hU : configmap'.Data.lookup "mapUsers" = none) :
    getRoleMappingFromConfigMap lib configmap = (some [], none) ∧
    getUserMappingFromConfigMap lib configmap' = (some [], none) ∧
    (∀ R : List RoleMapping,
      mergeRoleMappingLists (some R) (getRoleMappingFromConfigMap lib configmap).1
        = (some R, none)) ∧
    (∀ U : List UserMapping,
      mergeUserMappingLists (some U) (getUserMappingFromConfigMap lib configmap').1
        = (some U, none)) := by
  have h1 : getRoleMappingFromConfigMap lib configmap = (some [], none) := by
    have hR' : configmap.Data.lookup mapRolesKey = none := hR
    simp only [getRoleMappingFromConfigMap, hR']
  have h2 : getUserMappingFromConfigMap lib configmap' = (some [], none) := by
    have hU' : configmap'.Data.lookup mapUsersKey = none := hU
    simp only [getUserMappingFromConfigMap, hU']
  refine ⟨h1, h2, fun R => ?_, fun U => ?_⟩
  · rw [h1, mergeRoleMappingLists_eq_mergeBy]
    simp [mergeBy, Slice.elems]
  · rw [h2, mergeUserMappingLists_eq_mergeBy]
    simp [mergeBy, Slice.elems]

theorem reader_missing_key_witness :
    getRoleMappingFromConfigMap sampleLib sampleSourceB = (some [], none) ∧
    getUserMappingFromConfigMap sampleLib sampleSourceA = (some [], none) ∧
    (∀ R : List RoleMapping,
      mergeRoleMappingLists (some R) (getRoleMappingFromConfigMap sampleLib sampleSourceB).1
        = (some R, none)) ∧
    (∀ U : List UserMapping,
      mergeUserMappingLists (some U) (getUserMappingFromConfigMap sampleLib sampleSourceA).1
        = (some U, none)) :=
  reader_missing_key sampleLib sampleSourceB sampleSourceA (by decide) (by decide)

/-- C9: on a ConfigMap named `n` whose `mapRoles` value is rejected by the YAML decoder
with error `e`, `getRoleMappingFromConfigMap` returns the nil list and the
`InvalidMappingListErr` of kind `Role`, name `n` and underlying error `e`, whose message
is `Error parsing mapRoles on ConfigMap n : e`; `getUserMappingFromConfigMap` does the
same for `mapUsers` with kind `User` and `Error parsing mapUsers on ConfigMap n : e`. -/
theorem reader_parse_error (lib : Lib) :
    (∀ (configmap : ConfigMap) (mapRolesRaw : String) (e : LibError),
      configmap.Data.lookup "mapRoles" = some mapRolesRaw →
      lib.yamlUnmarshalRoles mapRolesRaw = .error e →
      getRoleMappingFromConfigMap lib configmap
        = (none, some (GoError.invalidMappingList ⟨"Role", configmap.Name, e⟩)) ∧
      InvalidMappingListErr.Error ⟨"Role", configmap.Name, e⟩
        = "Error parsing mapRoles on ConfigMap " ++ configmap.Name ++ " : " ++ e.message) ∧
    (∀ (configmap : ConfigMap) (mapUsersRaw : String) (e : LibError),
      configmap.Data.lookup "mapUsers" = some mapUsersRaw →
      lib.yamlUnmarshalUsers mapUsersRaw = .error e →
      getUserMappingFromConfigMap lib configmap
        = (none, some (GoError.invalidMappingList ⟨"User", configmap.Name, e⟩)) ∧
      InvalidMappingListErr.Error ⟨"User", configmap.Name, e⟩
        = "Error parsing mapUsers on ConfigMap " ++ configmap.Name ++ " : " ++ e.message) := by
  refine ⟨fun configmap raw e hR he => ⟨?_, ?_⟩, fun configmap raw e hU he => ⟨?_, ?_⟩⟩
  · have hR' : configmap.Data.lookup mapRolesKey = some raw := hR
    simp only [getRoleMappingFromConfigMap, hR', he]
    rfl
  · simp [InvalidMappingListErr.Error, roleMappingType]
  · have hU' : configmap.Data.lookup mapUsersKey = some raw := hU
    simp only [getUserMappingFromConfigMap, hU', he]
    rfl
  · simp [InvalidMappingListErr.Error, roleMappingType, userMappingType]

theorem reader_parse_error_witness :
    (getRoleMappingFromConfigMap sampleLib sampleSourceBad
        = (none, some (GoError.invalidMappingList
            ⟨"Role", "team-bad", ⟨"", "yaml: unmarshal errors"⟩⟩)) ∧
      InvalidMappingListErr.Error ⟨"Role", "team-bad", ⟨"", "yaml: unmarshal errors"⟩⟩
        = "Error parsing mapRoles on ConfigMap team-bad : yaml: unmarshal errors") ∧
    (getUserMappingFromConfigMap sampleLib sampleSourceBadUsers
        = (none, some (GoError.invalidMappingList
            ⟨"User", "team-bad-users", ⟨"", "yaml: unmarshal errors"⟩⟩)) ∧
      InvalidMappingListErr.Error ⟨"User", "team-bad-users", ⟨"", "yaml: unmarshal errors"⟩⟩
        = "Error parsing mapUsers on ConfigMap team-bad-users : yaml: unmarshal errors") :=
  ⟨(reader_parse_error sampleLib).1 sampleSourceBad "rolearn: ["
      ⟨"", "yaml: unmarshal errors"⟩ (by decide) rfl,
   (reader_parse_error sampleLib).2 sampleSourceBadUsers "- userarn"
      ⟨"", "yaml: unmarshal errors"⟩ (by decide) rfl⟩

/-! ## Shape and clock independence of the merged object -/

/-- The two outcomes of `mergeAwsAuthConfigMaps` on a source list: at every clock
reading the same error with the zero ConfigMap, or at every clock reading the object
built from the same three encodings and the formatted reading. -/
theorem mergeAwsAuthConfigMaps_cases (lib : Lib) (S : Slice ConfigMap) :
    (∃ e, ∀ now, mergeAwsAuthConfigMaps lib now S = ({}, some e)) ∨
    (∃ sourcesJson mapRolesYaml mapUsersYaml, ∀ now,
      mergeAwsAuthConfigMaps lib now S
        = ({ Name := mainAwsAuthConfigMapName
             Namespace := mainAwsAuthConfigMapNamespace
             Labels := [(managedByLabelKey, managedByLabelValue)]
             Annotations := [(sourcesAnnotationKey, sourcesJson),
                             (mergedTimestampAnnotationKey, lib.formatUTC now)]
             Data := [(mapRolesKey, mapRolesYaml), (mapUsersKey, mapUsersYaml)] }, none)) := by
  cases hl : mergeAwsAuthConfigMaps.loop lib S.elems ([], some [], some []) with
  | error e => exact Or.inl ⟨e, fun now => mergeAwsAuthConfigMaps_of_loop_error lib now S e hl⟩
  | ok res =>
    obtain ⟨sources, mapRolesMerged, mapUsersMerged⟩ := res
    cases hj : lib.jsonMarshal (some sources) with
    | error e => exact Or.inl ⟨GoError.lib e, fun now => by simp only [mergeAwsAuthConfigMaps, hl, hj]⟩
    | ok sj =>
      cases hr : lib.yamlMarshalRoles mapRolesMerged with
      | error e =>
        exact Or.inl ⟨GoError.lib e, fun now => by simp only [mergeAwsAuthConfigMaps, hl, hj, hr]⟩
      | ok ry =>
        cases hu : lib.yamlMarshalUsers mapUsersMerged with
        | error e =>
          exact Or.inl ⟨GoError.lib e, fun now => by
            simp only [mergeAwsAuthConfigMaps, hl, hj, hr, hu]⟩
        | ok uy =>
          exact Or.inr ⟨sj, ry, uy, fun now => by
            simp only [mergeAwsAuthConfigMaps, hl, hj, hr, hu]⟩

/-- C11: when `mergeAwsAuthConfigMaps` succeeds, the result is named `aws-auth` in
namespace `kube-system`, its labels are exactly the managed-by label with value
`aws-auth-merger`, its annotation keys are exactly the sources key and the timestamp
key, and its data keys are exactly `mapRoles` and `mapUsers`, whatever labels,
annotations and other data keys the sources carry. -/
theorem merged_result_shape (lib : Lib) (now : Time) (S : Slice ConfigMap)
    (merged : ConfigMap) (h : mergeAwsAuthConfigMaps lib now S = (merged, none)) :
    merged.Name = "aws-auth" ∧
    merged.Namespace = "kube-system" ∧
    merged.Labels = [("gruntwork.io/managed-by", "aws-auth-merger")] ∧
    merged.Annotations.map Prod.fst
      = ["gruntwork.io/aws-auth-merger-sources", "gruntwork.io/aws-auth-merger-timestamp"] ∧
    merged.Data.map Prod.fst = ["mapRoles", "mapUsers"] := by
  obtain ⟨sj, ry, uy, _, _, _, _, hm⟩ := mergeAwsAuthConfigMaps_ok lib now S merged h
  subst hm
  exact ⟨rfl, rfl, rfl, rfl, rfl⟩

theorem merged_result_shape_witness :
    (mergeAwsAuthConfigMaps sampleLib 0 (some [sampleSourceA, sampleSourceExtras])).1.Name
      = "aws-auth" ∧
    (mergeAwsAuthConfigMaps sampleLib 0 (some [sampleSourceA, sampleSourceExtras])).1.Namespace
      = "kube-system" ∧
    (mergeAwsAuthConfigMaps sampleLib 0 (some [sampleSourceA, sampleSourceExtras])).1.Labels
      = [("gruntwork.io/managed-by", "aws-auth-merger")] ∧
    (mergeAwsAuthConfigMaps sampleLib 0
        (some [sampleSourceA, sampleSourceExtras])).1.Annotations.map Prod.fst
      = ["gruntwork.io/aws-auth-merger-sources", "gruntwork.io/aws-auth-merger-timestamp"] ∧
    (mergeAwsAuthConfigMaps sampleLib 0
        (some [sampleSourceA, sampleSourceExtras])).1.Data.map Prod.fst
      = ["mapRoles", "mapUsers"] :=
  merged_result_shape sampleLib 0 (some [sampleSourceA, sampleSourceExtras])
    (mergeAwsAuthConfigMaps sampleLib 0 (some [sampleSourceA, sampleSourceExtras])).1
    (by decide)

/-- C12: for two clock readings `t1` and `t2`, `mergeAwsAuthConfigMaps` on the same
sources returns the same error value; when that is an error the two results are equal,
and when it is nil the result at `t2` is the result at `t1` with the value of the
timestamp annotation replaced by the formatted `t2`, every other field (name, namespace,
labels, sources annotation, `mapRoles` and `mapUsers` data) being the same. -/
theorem merge_clock_independent (lib : Lib) (S : Slice ConfigMap) (t1 t2 : Time) :
    (mergeAwsAuthConfigMaps lib t1 S).2 = (mergeAwsAuthConfigMaps lib t2 S).2 ∧
    ((mergeAwsAuthConfigMaps lib t1 S).2 ≠ none →
      mergeAwsAuthConfigMaps lib t2 S = mergeAwsAuthConfigMaps lib t1 S) ∧
    ((mergeAwsAuthConfigMaps lib t1 S).2 = none →
      ∃ sourcesJson,
        (mergeAwsAuthConfigMaps lib t1 S).1.Annotations
          = [("gruntwork.io/aws-auth-merger-sources", sourcesJson),
             ("gruntwork.io/aws-auth-merger-timestamp", lib.formatUTC t1)] ∧
        mergeAwsAuthConfigMaps lib t2 S
          = ({ (mergeAwsAuthConfigMaps lib t1 S).1 with
                Annotations := [("gruntwork.io/aws-auth-merger-sources", sourcesJson),
                  ("gruntwork.io/aws-auth-merger-timestamp", lib.formatUTC t2)] }, none)) := by
  rcases mergeAwsAuthConfigMaps_cases lib S with ⟨e, he⟩ | ⟨sj, ry, uy, hok⟩
  · rw [he t1, he t2]
    exact ⟨rfl, fun _ => rfl, fun h => by cases h⟩
  · rw [hok t1, hok t2]
    exact ⟨rfl, fun h => absurd rfl h, fun _ => ⟨sj, rfl, rfl⟩⟩

theorem merge_clock_independent_witness :
    mergeAwsAuthConfigMaps sampleLib 9 (some [sampleSourceA, sampleSourceC, sampleSourceD])
      = mergeAwsAuthConfigMaps sampleLib 4 (some [sampleSourceA, sampleSourceC, sampleSourceD]) ∧
    (∃ sourcesJson,
      (mergeAwsAuthConfigMaps sampleLib 4 (some [sampleSourceA, sampleSourceB])).1.Annotations
        = [("gruntwork.io/aws-auth-merger-sources", sourcesJson),
           ("gruntwork.io/aws-auth-merger-timestamp", sampleLib.formatUTC 4)] ∧
      mergeAwsAuthConfigMaps sampleLib 9 (some [sampleSourceA, sampleSourceB])
        = ({ (mergeAwsAuthConfigMaps sampleLib 4 (some [sampleSourceA, sampleSourceB])).1 with
              Annotations := [("gruntwork.io/aws-auth-merger-sources", sourcesJson),
                ("gruntwork.io/aws-auth-merger-timestamp", sampleLib.formatUTC 9)] }, none)) :=
  ⟨(merge_clock_independent sampleLib
      (some [sampleSourceA, sampleSourceC, sampleSourceD]) 4 9).2.1 (by decide),
   (merge_clock_independent sampleLib (some [sampleSourceA, sampleSourceB]) 4 9).2.2
      (by decide)⟩

/-! ## The in-memory store satisfies the store laws -/

theorem maxNameLength_ge (st : List ConfigMap) : ∀ c ∈ st, c.Name.length ≤ maxNameLength st := by
  induction st with
  | nil => simp
  | cons d st ih =>
    intro c hc
    rcases List.mem_cons.mp hc with rfl | hc
    · exact Nat.le_max_left _ _
    · exact Nat.le_trans (ih c hc) (Nat.le_max_right _ _)

theorem freshSuffix_length (st : List ConfigMap) :
    (freshSuffix st).length = maxNameLength st + 1 := by
  simp [freshSuffix, String.length]

theorem storeFind_generated (st : List ConfigMap) (ns pre : String) :
    storeFind st ns (pre ++ freshSuffix st) = none := by
  rw [storeFind, List.find?_eq_none]
  intro c hc
  have hlen := maxNameLength_ge st c hc
  have hne : c.Name ≠ pre ++ freshSuffix st := by
    intro h
    have := congrArg String.length h
    rw [String.length_append, freshSuffix_length] at this
    omega
  simp [hne]

theorem append_ne_empty (a b : String) (h : a ≠ "") : a ++ b ≠ "" := by
  intro hab
  have h1 := congrArg String.length hab
  rw [String.length_append] at h1
  have h2 : a.length = 0 := by
    have : ("" : String).length = 0 := rfl
    omega
  have h3 : a.data = [] := List.length_eq_zero.mp h2
  exact h (String.ext h3)

theorem storeFind_append_other (st : List ConfigMap) (c : ConfigMap) (ns name : String)
    (h : ¬ (c.Namespace = ns ∧ c.Name = name)) :
    storeFind (st ++ [c]) ns name = storeFind st ns name := by
  rw [storeFind, storeFind, List.find?_append]
  cases st.find? (fun c => decide (c.Namespace = ns ∧ c.Name = name)) with
  | some d => rfl
  | none => simp [List.find?, h]

theorem storeFind_append_new (st : List ConfigMap) (c : ConfigMap)
    (h : storeFind st c.Namespace c.Name = none) :
    storeFind (st ++ [c]) c.Namespace c.Name = some c := by
  rw [storeFind] at h
  rw [storeFind, List.find?_append, h]
  simp [List.find?]

theorem storeFind_cons_of_pos (d : ConfigMap) (st : List ConfigMap) (ns name : String)
    (h : d.Namespace = ns ∧ d.Name = name) : storeFind (d :: st) ns name = some d := by
  rw [storeFind, List.find?_cons_of_pos]
  exact decide_eq_true h

theorem storeFind_cons_of_neg (d : ConfigMap) (st : List ConfigMap) (ns name : String)
    (h : ¬ (d.Namespace = ns ∧ d.Name = name)) :
    storeFind (d :: st) ns name = storeFind st ns name := by
  rw [storeFind, storeFind, List.find?_cons_of_neg]
  simpa using h

theorem storeFind_map_same (st : List ConfigMap) (ns name : String) (c old : ConfigMap)
    (hc : c.Namespace = ns ∧ c.Name = name) (h : storeFind st ns name = some old) :
    storeFind (st.map fun d => if d.Namespace = ns ∧ d.Name = name then c else d) ns name
      = some c := by
  induction st with
  | nil => simp [storeFind] at h
  | cons d st ih =>
    rw [List.map_cons]
    by_cases hd : d.Namespace = ns ∧ d.Name = name
    · rw [if_pos hd]
      exact storeFind_cons_of_pos _ _ _ _ hc
    · rw [if_neg hd, storeFind_cons_of_neg _ _ _ _ hd]
      rw [storeFind_cons_of_neg _ _ _ _ hd] at h
      exact ih h

theorem storeFind_map_other (st : List ConfigMap) (ns name ns' name' : String) (c : ConfigMap)
    (hc : c.Namespace = ns ∧ c.Name = name) (hne : (ns', name') ≠ (ns, name)) :
    storeFind (st.map fun d => if d.Namespace = ns ∧ d.Name = name then c else d) ns' name'
      = storeFind st ns' name' := by
  have hother : ∀ d : ConfigMap, d.Namespace = ns ∧ d.Name = name →
      ¬ (d.Namespace = ns' ∧ d.Name = name') := by
    rintro d ⟨h1, h2⟩ ⟨h3, h4⟩
    exact hne (by rw [← h3, ← h4, h1, h2])
  induction st with
  | nil => rfl
  | cons d st ih =>
    rw [List.map_cons]
    by_cases hd : d.Namespace = ns ∧ d.Name = name
    · rw [if_pos hd, storeFind_cons_of_neg _ _ _ _ (hother c hc),
        storeFind_cons_of_neg _ _ _ _ (hother d hd)]
      exact ih
    · rw [if_neg hd]
      by_cases hd' : d.Namespace = ns' ∧ d.Name = name'
      · rw [storeFind_cons_of_pos _ _ _ _ hd', storeFind_cons_of_pos _ _ _ _ hd']
      · rw [storeFind_cons_of_neg _ _ _ _ hd', storeFind_cons_of_neg _ _ _ _ hd']
        exact ih

theorem sampleClient_get_congr (st st' : List ConfigMap) (ns name : String)
    (h : storeFind st' ns name = storeFind st ns name) :
    sampleClient.get st' ns name = sampleClient.get st ns name := by
  simp only [sampleClient, h]

theorem sampleClient_get_found (st : List ConfigMap) (ns name : String) (c : ConfigMap)
    (hname : name ≠ "") (h : storeFind st ns name = some c) :
    sampleClient.get st ns name = .ok c := by
  simp only [sampleClient, hname, h, ↓reduceIte]

theorem sampleClient_laws : StoreLaws sampleClient where
  get_empty := fun st ns =>
    ⟨⟨"", "resource name may not be empty"⟩, by simp [sampleClient], by decide⟩
  create_named := by
    intro st ns c st' c' hname h
    simp only [sampleClient, hname, false_and, ↓reduceIte] at h
    cases hf : storeFind st ns c.Name with
    | some d => simp [hf] at h
    | none =>
      simp only [hf, Prod.mk.injEq, Except.ok.injEq] at h
      exact h.2.symm
  create_generated := by
    intro st ns c hname hgen
    refine ⟨st ++ [{ c with Namespace := ns, Name := c.GenerateName ++ freshSuffix st }],
      freshSuffix st,
      ⟨"NotFound", "configmaps " ++ (c.GenerateName ++ freshSuffix st) ++ " not found"⟩,
      ?_, ?_, rfl⟩
    · simp only [sampleClient, hname, hgen, and_false, ↓reduceIte, storeFind_generated]
    · simp only [sampleClient, append_ne_empty _ _ hgen, ↓reduceIte, storeFind_generated]
  create_stores := by
    intro st ns c st' c' h
    by_cases h1 : c.Name = "" ∧ c.GenerateName = ""
    · simp [sampleClient, h1] at h
    simp only [sampleClient, h1, ↓reduceIte] at h
    generalize hn : (if c.Name = "" then c.GenerateName ++ freshSuffix st else c.Name) = name at h
    have hname : name ≠ "" := by
      subst hn
      by_cases h2 : c.Name = ""
      · have h3 : c.GenerateName ≠ "" := fun h3 => h1 ⟨h2, h3⟩
        simp only [h2, ↓reduceIte]
        exact append_ne_empty _ _ h3
      · simp only [h2, ↓reduceIte]
        exact h2
    cases hf : storeFind st ns name with
    | some d => simp [hf] at h
    | none =>
      simp only [hf, Prod.mk.injEq, Except.ok.injEq] at h
      obtain ⟨hst, hc⟩ := h
      subst hst
      subst hc
      refine ⟨?_, ?_⟩
      · exact sampleClient_get_found _ _ _ _ hname
          (storeFind_append_new st { c with Namespace := ns, Name := name } hf)
      · intro ns' name' hne
        apply sampleClient_get_congr
        apply storeFind_append_other
        rintro ⟨h2, h3⟩
        exact hne (by rw [← h2, ← h3])
  update_stores := by
    intro st ns c st' c' h
    by_cases h1 : c.Name = ""
    · simp [sampleClient, h1] at h
    simp only [sampleClient, h1, ↓reduceIte] at h
    cases hf : storeFind st ns c.Name with
    | none => simp [hf] at h
    | some old =>
      simp only [hf, Prod.mk.injEq, Except.ok.injEq] at h
      obtain ⟨hst, hc⟩ := h
      subst hst
      subst hc
      refine ⟨rfl, ?_, ?_⟩
      · exact sampleClient_get_found _ _ _ _ h1
          (storeFind_map_same st ns c.Name { c with Namespace := ns } old ⟨rfl, rfl⟩ hf)
      · intro ns' name' hne
        apply sampleClient_get_congr
        exact storeFind_map_other st ns c.Name ns' name' { c with Namespace := ns }
          ⟨rfl, rfl⟩ hne
  update_existing := by
    intro st ns c old h
    by_cases h1 : c.Name = ""
    · simp [sampleClient, h1] at h
    simp only [sampleClient, h1, ↓reduceIte] at h
    cases hf : storeFind st ns c.Name with
    | none => simp [hf] at h
    | some d =>
      refine ⟨st.map fun x => if x.Namespace = ns ∧ x.Name = c.Name then
          { c with Namespace := ns } else x, { c with Namespace := ns }, ?_⟩
      simp only [sampleClient, h1, ↓reduceIte, hf]

/-! ## The upsert protocol -/

theorem ConfigMap.with_own_namespace (c : ConfigMap) : { c with Namespace := c.Namespace } = c := by
  cases c
  rfl

/-- The three ways through `upsertConfigMap`, by the answer to the `Get`. -/
theorem upsertConfigMap_eq {σ : Type} (authMerger : AwsAuthMerger σ) (w : World σ)
    (c : ConfigMap) :
    upsertConfigMap authMerger w c
      = match authMerger.clientset.get w.store c.Namespace c.Name with
        | .error e =>
          if IsNotFound e then
            ({ store := (authMerger.clientset.create w.store c.Namespace c).1,
               calls := w.calls ++ [ApiCall.get c.Namespace c.Name, ApiCall.create c.Namespace c] },
              match (authMerger.clientset.create w.store c.Namespace c).2 with
              | .ok _ => (true, none)
              | .error err => (false, some (GoError.lib err)))
          else
            ({ w with calls := w.calls ++ [ApiCall.get c.Namespace c.Name] },
              false, some (GoError.lib e))
        | .ok _ =>
          ({ store := (authMerger.clientset.update w.store c.Namespace c).1,
             calls := w.calls ++ [ApiCall.get c.Namespace c.Name, ApiCall.update c.Namespace c] },
            match (authMerger.clientset.update w.store c.Namespace c).2 with
            | .ok _ => (false, none)
            | .error err => (false, some (GoError.lib err))) := by
  simp only [upsertConfigMap, AwsAuthMerger.callGet]
  cases hg : authMerger.clientset.get w.store c.Namespace c.Name with
  | error e =>
    by_cases hnf : IsNotFound e = true
    · simp only [hnf, Bool.not_true, Bool.false_eq_true, ↓reduceIte, AwsAuthMerger.callCreate]
      cases hc : (authMerger.clientset.create w.store c.Namespace c).2 <;>
        simp [hc]
    · have hnf' : IsNotFound e = false := by simpa using hnf
      simp [hnf']
  | ok old =>
    simp only [AwsAuthMerger.callUpdate]
    cases hc : (authMerger.clientset.update w.store c.Namespace c).2 <;>
      simp [hc]

/-- On a lawful store a successful upsert leaves the object itself at its identity. -/
theorem upsertConfigMap_stored {σ : Type} (authMerger : AwsAuthMerger σ)
    (laws : StoreLaws authMerger.clientset) (w : World σ) (c : ConfigMap)
    (h : (upsertConfigMap authMerger w c).2.2 = none) :
    authMerger.clientset.get (upsertConfigMap authMerger w c).1.store c.Namespace c.Name
      = .ok c := by
  rw [upsertConfigMap_eq] at h ⊢
  cases hg : authMerger.clientset.get w.store c.Namespace c.Name with
  | error e =>
    rw [hg] at h
    simp only at h ⊢
    by_cases hnf : IsNotFound e = true
    · simp only [hnf, ↓reduceIte] at h ⊢
      have hname : c.Name ≠ "" := by
        intro h0
        obtain ⟨e', he', hnf'⟩ := laws.get_empty w.store c.Namespace
        rw [h0, he'] at hg
        cases hg
        rw [hnf] at hnf'
        cases hnf'
      rcases hc : authMerger.clientset.create w.store c.Namespace c with ⟨st', r⟩
      rw [hc] at h
      cases r with
      | error err => simp at h
      | ok c' =>
        have hc' := laws.create_named _ _ _ _ _ hname hc
        rw [ConfigMap.with_own_namespace] at hc'
        subst hc'
        exact (laws.create_stores _ _ _ _ _ hc).1
    · have hnf' : IsNotFound e = false := by simpa using hnf
      simp [hnf'] at h
  | ok old =>
    rw [hg] at h
    simp only at h ⊢
    rcases hc : authMerger.clientset.update w.store c.Namespace c with ⟨st', r⟩
    rw [hc] at h
    cases r with
    | error err => simp at h
    | ok c' =>
      obtain ⟨hc', hget, _⟩ := laws.update_stores _ _ _ _ _ hc
      rw [ConfigMap.with_own_namespace] at hc'
      subst hc'
      exact hget

/-- C14: `upsertConfigMap` first issues a `Get` of the namespace and name of `c`.  When
that reports not-found it issues a `Create` of `c` and, if the create succeeds, returns
`(true, nil)`; when it returns an existing object it issues an `Update` with `c` and, if
the update succeeds, returns `(false, nil)`; when it fails with any other error it
issues nothing more, leaves the store as it was and returns that error.  On a store that
obeys `StoreLaws`, after a successful call a `Get` of that identity returns `c` itself:
its labels, annotations and data, and nothing of a previous object. -/
theorem upsert_protocol {σ : Type} (authMerger : AwsAuthMerger σ) (w : World σ)
    (c : ConfigMap) :
    (∀ e, authMerger.clientset.get w.store c.Namespace c.Name = .error e →
      IsNotFound e = true →
      (upsertConfigMap authMerger w c).1.calls
        = w.calls ++ [ApiCall.get c.Namespace c.Name, ApiCall.create c.Namespace c] ∧
      (upsertConfigMap authMerger w c).1.store
        = (authMerger.clientset.create w.store c.Namespace c).1 ∧
      ∀ created, (authMerger.clientset.create w.store c.Namespace c).2 = .ok created →
        (upsertConfigMap authMerger w c).2 = (true, none)) ∧
    (∀ existing, authMerger.clientset.get w.store c.Namespace c.Name = .ok existing →
      (upsertConfigMap authMerger w c).1.calls
        = w.calls ++ [ApiCall.get c.Namespace c.Name, ApiCall.update c.Namespace c] ∧
      (upsertConfigMap authMerger w c).1.store
        = (authMerger.clientset.update w.store c.Namespace c).1 ∧
      ∀ updated, (authMerger.clientset.update w.store c.Namespace c).2 = .ok updated →
        (upsertConfigMap authMerger w c).2 = (false, none)) ∧
    (∀ e, authMerger.clientset.get w.store c.Namespace c.Name = .error e →
      IsNotFound e = false →
      upsertConfigMap authMerger w c
        = ({ w with calls := w.calls ++ [ApiCall.get c.Namespace c.Name] },
            false, some (GoError.lib e))) ∧
    (StoreLaws authMerger.clientset → (upsertConfigMap authMerger w c).2.2 = none →
      ∃ stored,
        authMerger.clientset.get (upsertConfigMap authMerger w c).1.store c.Namespace c.Name
          = .ok stored ∧
        stored = c ∧ stored.Labels = c.Labels ∧ stored.Annotations = c.Annotations ∧
        stored.Data = c.Data) := by
  refine ⟨fun e hg hnf => ?_, fun existing hg => ?_, fun e hg hnf => ?_, fun laws h => ?_⟩
  · rw [upsertConfigMap_eq, hg]
    simp only [hnf, ↓reduceIte, true_and]
    intro created hc
    rw [hc]
  · rw [upsertConfigMap_eq, hg]
    simp only [true_and]
    intro updated hc
    rw [hc]
  · rw [upsertConfigMap_eq, hg]
    simp only [hnf, Bool.false_eq_true, ↓reduceIte]
  · exact ⟨c, upsertConfigMap_stored authMerger laws w c h, rfl, rfl, rfl, rfl⟩

theorem upsert_protocol_witness :
    ((upsertConfigMap sampleMerger ⟨[sampleSourceA], []⟩ sampleMainConfigMap).1.calls
        = [ApiCall.get "kube-system" "aws-auth",
           ApiCall.create "kube-system" sampleMainConfigMap] ∧
      (upsertConfigMap sampleMerger ⟨[sampleSourceA], []⟩ sampleMainConfigMap).1.store
        = [sampleSourceA, sampleMainConfigMap] ∧
      (upsertConfigMap sampleMerger ⟨[sampleSourceA], []⟩ sampleMainConfigMap).2
        = (true, none)) ∧
    ((upsertConfigMap sampleMerger ⟨[sampleSourceA, sampleMainStale], []⟩
          sampleMainConfigMap).1.calls
        = [ApiCall.get "kube-system" "aws-auth",
           ApiCall.update "kube-system" sampleMainConfigMap] ∧
      (upsertConfigMap sampleMerger ⟨[sampleSourceA, sampleMainStale], []⟩
          sampleMainConfigMap).1.store
        = [sampleSourceA, sampleMainConfigMap] ∧
      (upsertConfigMap sampleMerger ⟨[sampleSourceA, sampleMainStale], []⟩
          sampleMainConfigMap).2
        = (false, none)) ∧
    upsertConfigMap sampleMerger ⟨[sampleSourceA], []⟩ sampleUnnamed
      = (⟨[sampleSourceA], [ApiCall.get "aws-auth-merger" ""]⟩, false,
          some (GoError.lib ⟨"", "resource name may not be empty"⟩)) ∧
    (∃ stored,
      sampleMerger.clientset.get
          (upsertConfigMap sampleMerger ⟨[sampleSourceA, sampleMainStale], []⟩
            sampleMainConfigMap).1.store "kube-system" "aws-auth" = .ok stored ∧
      stored = sampleMainConfigMap ∧ stored.Labels = sampleMainConfigMap.Labels ∧
      stored.Annotations = sampleMainConfigMap.Annotations ∧
      stored.Data = sampleMainConfigMap.Data) :=
  ⟨by
      have h := (upsert_protocol sampleMerger ⟨[sampleSourceA], []⟩ sampleMainConfigMap).1
        ⟨"NotFound", "configmaps aws-auth not found"⟩ rfl rfl
      exact ⟨h.1, h.2.1, h.2.2 sampleMainConfigMap rfl⟩,
   by
      have h := (upsert_protocol sampleMerger ⟨[sampleSourceA, sampleMainStale], []⟩
        sampleMainConfigMap).2.1 sampleMainStale rfl
      exact ⟨h.1, h.2.1, h.2.2 sampleMainConfigMap rfl⟩,
   (upsert_protocol sampleMerger ⟨[sampleSourceA], []⟩ sampleUnnamed).2.2.1
      ⟨"", "resource name may not be empty"⟩ rfl rfl,
   (upsert_protocol sampleMerger ⟨[sampleSourceA, sampleMainStale], []⟩
      sampleMainConfigMap).2.2.2 sampleClient_laws (by decide)⟩

/-! ## Migration of a pre-existing main object -/

/-- The object `migratePreExistingConfigMap` asks the store to create for the main
object `mainConfigMap`. -/
theorem migratePreExistingConfigMap_eq {σ : Type} (authMerger : AwsAuthMerger σ)
    (w : World σ) :
    migratePreExistingConfigMap authMerger w
      = match authMerger.clientset.get w.store "kube-system" "aws-auth" with
        | .error e =>
          ({ w with calls := w.calls ++ [ApiCall.get "kube-system" "aws-auth"] }, none,
            if IsNotFound e then none else some (GoError.lib e))
        | .ok mainConfigMap =>
          if isManagedByMerger mainConfigMap then
            ({ w with calls := w.calls ++ [ApiCall.get "kube-system" "aws-auth"] }, none, none)
          else
            ({ store := (authMerger.clientset.create w.store authMerger.namespace_
                  { GenerateName := "preexisting-aws-auth"
                    Namespace := authMerger.namespace_
                    Labels := authMerger.autoCreateLabels
                    Annotations := [("gruntwork.io/aws-auth-merger-created", "true")]
                    Data := mainConfigMap.Data }).1,
               calls := w.calls ++ [ApiCall.get "kube-system" "aws-auth",
                 ApiCall.create authMerger.namespace_
                  { GenerateName := "preexisting-aws-auth"
                    Namespace := authMerger.namespace_
                    Labels := authMerger.autoCreateLabels
                    Annotations := [("gruntwork.io/aws-auth-merger-created", "true")]
                    Data := mainConfigMap.Data }] },
              match (authMerger.clientset.create w.store authMerger.namespace_
                  { GenerateName := "preexisting-aws-auth"
                    Namespace := authMerger.namespace_
                    Labels := authMerger.autoCreateLabels
                    Annotations := [("gruntwork.io/aws-auth-merger-created", "true")]
                    Data := mainConfigMap.Data }).2 with
              | .ok createdConfigMap => (some createdConfigMap, none)
              | .error err => (none, some (GoError.lib err))) := by
  simp only [migratePreExistingConfigMap, getMainAwsAuthConfigMap, AwsAuthMerger.callGet,
    mainAwsAuthConfigMapNamespace, mainAwsAuthConfigMapName]
  cases hg : authMerger.clientset.get w.store "kube-system" "aws-auth" with
  | error e =>
    by_cases hnf : IsNotFound e = true
    · simp [hnf]
    · have hnf' : IsNotFound e = false := by simpa using hnf
      simp [hnf']
  | ok mainConfigMap =>
    by_cases hm : isManagedByMerger mainConfigMap = true
    · simp [hm]
    · have hm' : isManagedByMerger mainConfigMap = false := by simpa using hm
      simp only [hm', Bool.false_eq_true, ↓reduceIte, AwsAuthMerger.callCreate,
        preExistingConfigMapCreateName, autoCreateAnnotationKey]
      cases hc : (authMerger.clientset.create w.store authMerger.namespace_
                  { GenerateName := "preexisting-aws-auth"
                    Namespace := authMerger.namespace_
                    Labels := authMerger.autoCreateLabels
                    Annotations := [("gruntwork.io/aws-auth-merger-created", "true")]
                    Data := mainConfigMap.Data }).2 <;> simp [hc]

theorem isManagedByMerger_iff (c : ConfigMap) :
    isManagedByMerger c = true
      ↔ c.Labels.lookup "gruntwork.io/managed-by" = some "aws-auth-merger" := by
  simp only [isManagedByMerger, managedByLabelKey, managedByLabelValue]
  cases c.Labels.lookup "gruntwork.io/managed-by" with
  | none => simp
  | some v => simp

/-- C16: `migratePreExistingConfigMap` returns `(nil, nil)` with the store unchanged
exactly when the `Get` of `kube-system/aws-auth` reports not-found or returns an object
whose label `gruntwork.io/managed-by` has the value `aws-auth-merger`; for an object
that lacks the label or carries another value it issues the `Create` of the copy in the
watch namespace and returns the created object, or the error of the create. -/
theorem migrate_skips_iff_absent_or_managed {σ : Type} (authMerger : AwsAuthMerger σ)
    (w : World σ) :
    (((migratePreExistingConfigMap authMerger w).2 = (none, none) ∧
        (migratePreExistingConfigMap authMerger w).1.store = w.store) ↔
      ((∃ e, authMerger.clientset.get w.store "kube-system" "aws-auth" = .error e ∧
          IsNotFound e = true) ∨
        (∃ main, authMerger.clientset.get w.store "kube-system" "aws-auth" = .ok main ∧
          main.Labels.lookup "gruntwork.io/managed-by" = some "aws-auth-merger"))) ∧
    (∀ main, authMerger.clientset.get w.store "kube-system" "aws-auth" = .ok main →
      main.Labels.lookup "gruntwork.io/managed-by" ≠ some "aws-auth-merger" →
      (migratePreExistingConfigMap authMerger w).1.calls
        = w.calls ++ [ApiCall.get "kube-system" "aws-auth",
            ApiCall.create authMerger.namespace_
              { GenerateName := "preexisting-aws-auth"
                Namespace := authMerger.namespace_
                Labels := authMerger.autoCreateLabels
                Annotations := [("gruntwork.io/aws-auth-merger-created", "true")]
                Data := main.Data }] ∧
      (∀ created,
        (authMerger.clientset.create w.store authMerger.namespace_
            { GenerateName := "preexisting-aws-auth"
              Namespace := authMerger.namespace_
              Labels := authMerger.autoCreateLabels
              Annotations := [("gruntwork.io/aws-auth-merger-created", "true")]
              Data := main.Data }).2 = .ok created →
        (migratePreExistingConfigMap authMerger w).2 = (some created, none)) ∧
      (∀ err,
        (authMerger.clientset.create w.store authMerger.namespace_
            { GenerateName := "preexisting-aws-auth"
              Namespace := authMerger.namespace_
              Labels := authMerger.autoCreateLabels
              Annotations := [("gruntwork.io/aws-auth-merger-created", "true")]
              Data := main.Data }).2 = .error err →
        (migratePreExistingConfigMap authMerger w).2 = (none, some (GoError.lib err)))) := by
  rw [migratePreExistingConfigMap_eq]
  cases hg : authMerger.clientset.get w.store "kube-system" "aws-auth" with
  | error e =>
    refine ⟨?_, fun main h => by cases h⟩
    by_cases hnf : IsNotFound e = true
    · simp [hnf]
    · have hnf' : IsNotFound e = false := by simpa using hnf
      simp [hnf']
  | ok main =>
    by_cases hm : isManagedByMerger main = true
    · have hl := (isManagedByMerger_iff main).mp hm
      refine ⟨?_, fun main' h hne => ?_⟩
      · simp [hm, hl]
      · cases h
        exact absurd hl hne
    · have hl : main.Labels.lookup "gruntwork.io/managed-by" ≠ some "aws-auth-merger" :=
        fun h => hm ((isManagedByMerger_iff main).mpr h)
      have hm' : isManagedByMerger main = false := by simpa using hm
      refine ⟨?_, fun main' h _ => ?_⟩
      · simp only [hm', Bool.false_eq_true, ↓reduceIte, reduceCtorEq, false_and, exists_false,
          Except.ok.injEq, exists_eq_left', hl, or_self, iff_false, not_and]
        intro h
        exfalso
        cases hc : (authMerger.clientset.create w.store authMerger.namespace_
            { GenerateName := "preexisting-aws-auth"
              Namespace := authMerger.namespace_
              Labels := authMerger.autoCreateLabels
              Annotations := [("gruntwork.io/aws-auth-merger-created", "true")]
              Data := main.Data }).2 <;> simp [hc] at h
      · cases h
        simp only [hm', Bool.false_eq_true, ↓reduceIte, true_and]
        exact ⟨fun created hc => by rw [hc], fun err hc => by rw [hc]⟩

theorem migrate_skips_iff_absent_or_managed_witness :
    ((migratePreExistingConfigMap sampleMerger ⟨[sampleSourceA], []⟩).2 = (none, none) ∧
      (migratePreExistingConfigMap sampleMerger ⟨[sampleSourceA], []⟩).1.store
        = [sampleSourceA]) ∧
    ((migratePreExistingConfigMap sampleMerger ⟨[sampleMainConfigMap], []⟩).2 = (none, none) ∧
      (migratePreExistingConfigMap sampleMerger ⟨[sampleMainConfigMap], []⟩).1.store
        = [sampleMainConfigMap]) ∧
    ((migratePreExistingConfigMap sampleMerger ⟨[sampleMainOther], []⟩).1.calls
        = [ApiCall.get "kube-system" "aws-auth",
            ApiCall.create "aws-auth-merger"
              { GenerateName := "preexisting-aws-auth"
                Namespace := "aws-auth-merger"
                Labels := []
                Annotations := [("gruntwork.io/aws-auth-merger-created", "true")]
                Data := sampleMainOther.Data }] ∧
      (migratePreExistingConfigMap sampleMerger ⟨[sampleMainOther], []⟩).2
        = (some { Name := "preexisting-aws-authxxxxxxxxx"
                  GenerateName := "preexisting-aws-auth"
                  Namespace := "aws-auth-merger"
                  Labels := []
                  Annotations := [("gruntwork.io/aws-auth-merger-created", "true")]
                  Data := sampleMainOther.Data }, none)) :=
  ⟨(migrate_skips_iff_absent_or_managed sampleMerger ⟨[sampleSourceA], []⟩).1.mpr
      (Or.inl ⟨⟨"NotFound", "configmaps aws-auth not found"⟩, rfl, rfl⟩),
   (migrate_skips_iff_absent_or_managed sampleMerger ⟨[sampleMainConfigMap], []⟩).1.mpr
      (Or.inr ⟨sampleMainConfigMap, rfl, by decide⟩),
   by
    have h := (migrate_skips_iff_absent_or_managed sampleMerger ⟨[sampleMainOther], []⟩).2
      sampleMainOther rfl (by decide)
    exact ⟨h.1, h.2.1 _ rfl⟩⟩

/-- C15: on a store that obeys `StoreLaws`, when `kube-system/aws-auth` exists and is
not managed by the merger, `migratePreExistingConfigMap` issues one `Create` and nothing
else that writes; the created object lives in the watch namespace under a name that was
unused and starts with `preexisting-aws-auth`, carries the labels `autoCreateLabels`,
exactly the annotation `gruntwork.io/aws-auth-merger-created: "true"` and the data of
`kube-system/aws-auth`; every other identity of the store, `kube-system/aws-auth`
included, reads as before. -/
theorem migrate_copies_unmanaged {σ : Type} (authMerger : AwsAuthMerger σ)
    (laws : StoreLaws authMerger.clientset) (w : World σ) (main : ConfigMap)
    (hget : authMerger.clientset.get w.store "kube-system" "aws-auth" = .ok main)
    (hun : isManagedByMerger main = false) :
    ∃ suffix,
      (migratePreExistingConfigMap authMerger w).2
        = (some { Name := "preexisting-aws-auth" ++ suffix
                  GenerateName := "preexisting-aws-auth"
                  Namespace := authMerger.namespace_
                  Labels := authMerger.autoCreateLabels
                  Annotations := [("gruntwork.io/aws-auth-merger-created", "true")]
                  Data := main.Data }, none) ∧
      (migratePreExistingConfigMap authMerger w).1.calls
        = w.calls ++ [ApiCall.get "kube-system" "aws-auth",
            ApiCall.create authMerger.namespace_
              { GenerateName := "preexisting-aws-auth"
                Namespace := authMerger.namespace_
                Labels := authMerger.autoCreateLabels
                Annotations := [("gruntwork.io/aws-auth-merger-created", "true")]
                Data := main.Data }] ∧
      (∃ e, authMerger.clientset.get w.store authMerger.namespace_
              ("preexisting-aws-auth" ++ suffix) = .error e ∧ IsNotFound e = true) ∧
      authMerger.clientset.get (migratePreExistingConfigMap authMerger w).1.store
          authMerger.namespace_ ("preexisting-aws-auth" ++ suffix)
        = .ok { Name := "preexisting-aws-auth" ++ suffix
                GenerateName := "preexisting-aws-auth"
                Namespace := authMerger.namespace_
                Labels := authMerger.autoCreateLabels
                Annotations := [("gruntwork.io/aws-auth-merger-created", "true")]
                Data := main.Data } ∧
      (∀ ns' name', (ns', name') ≠ (authMerger.namespace_, "preexisting-aws-auth" ++ suffix) →
        authMerger.clientset.get (migratePreExistingConfigMap authMerger w).1.store ns' name'
          = authMerger.clientset.get w.store ns' name') ∧
      authMerger.clientset.get (migratePreExistingConfigMap authMerger w).1.store
          "kube-system" "aws-auth" = .ok main := by
  obtain ⟨st', suffix, e, hc, hfresh, hnf⟩ := laws.create_generated w.store authMerger.namespace_
    { GenerateName := "preexisting-aws-auth"
      Namespace := authMerger.namespace_
      Labels := authMerger.autoCreateLabels
      Annotations := [("gruntwork.io/aws-auth-merger-created", "true")]
      Data := main.Data } rfl (by show "preexisting-aws-auth" ≠ ""; decide)
  obtain ⟨hstored, hframe⟩ := laws.create_stores _ _ _ _ _ hc
  refine ⟨suffix, ?_⟩
  rw [migratePreExistingConfigMap_eq, hget]
  simp only [hun, Bool.false_eq_true, ↓reduceIte, hc]
  refine ⟨trivial, trivial, ⟨e, hfresh, hnf⟩, hstored, hframe, ?_⟩
  rw [hframe "kube-system" "aws-auth" ?_, hget]
  intro h
  have h2 := congrArg (fun p => p.2.length) h
  simp only [String.length_append] at h2
  have h3 : "aws-auth".length = 8 := by decide
  have h4 : "preexisting-aws-auth".length = 20 := by decide
  omega

theorem migrate_copies_unmanaged_witness :
    ∃ suffix,
      (migratePreExistingConfigMap sampleMergerLabels
          ⟨[sampleSourceA, sampleMainStale], []⟩).2
        = (some { Name := "preexisting-aws-auth" ++ suffix
                  GenerateName := "preexisting-aws-auth"
                  Namespace := "aws-auth-merger"
                  Labels := [("gruntwork.io/random-id", "abc")]
                  Annotations := [("gruntwork.io/aws-auth-merger-created", "true")]
                  Data := sampleMainStale.Data }, none) ∧
      (migratePreExistingConfigMap sampleMergerLabels
          ⟨[sampleSourceA, sampleMainStale], []⟩).1.calls
        = [] ++ [ApiCall.get "kube-system" "aws-auth",
            ApiCall.create "aws-auth-merger"
              { GenerateName := "preexisting-aws-auth"
                Namespace := "aws-auth-merger"
                Labels := [("gruntwork.io/random-id", "abc")]
                Annotations := [("gruntwork.io/aws-auth-merger-created", "true")]
                Data := sampleMainStale.Data }] ∧
      (∃ e, sampleClient.get [sampleSourceA, sampleMainStale] "aws-auth-merger"
              ("preexisting-aws-auth" ++ suffix) = .error e ∧ IsNotFound e = true) ∧
      sampleClient.get (migratePreExistingConfigMap sampleMergerLabels
          ⟨[sampleSourceA, sampleMainStale], []⟩).1.store
          "aws-auth-merger" ("preexisting-aws-auth" ++ suffix)
        = .ok { Name := "preexisting-aws-auth" ++ suffix
                GenerateName := "preexisting-aws-auth"
                Namespace := "aws-auth-merger"
                Labels := [("gruntwork.io/random-id", "abc")]
                Annotations := [("gruntwork.io/aws-auth-merger-created", "true")]
                Data := sampleMainStale.Data } ∧
      (∀ ns' name', (ns', name') ≠ ("aws-auth-merger", "preexisting-aws-auth" ++ suffix) →
        sampleClient.get (migratePreExistingConfigMap sampleMergerLabels
            ⟨[sampleSourceA, sampleMainStale], []⟩).1.store ns' name'
          = sampleClient.get [sampleSourceA, sampleMainStale] ns' name') ∧
      sampleClient.get (migratePreExistingConfigMap sampleMergerLabels
          ⟨[sampleSourceA, sampleMainStale], []⟩).1.store
          "kube-system" "aws-auth" = .ok sampleMainStale :=
  migrate_copies_unmanaged sampleMergerLabels sampleClient_laws
    ⟨[sampleSourceA, sampleMainStale], []⟩ sampleMainStale rfl (by decide)

/-! ## The cycle on a lawful store -/

/-- A successful cycle listed the sources, merged them and upserted the result. -/
theorem syncAwsAuthConfigMaps_ok {σ : Type} (lib : Lib) (authMerger : AwsAuthMerger σ)
    (now : Time) (fuel : Nat) (w w1 : World σ)
    (h : syncAwsAuthConfigMaps lib authMerger now fuel w = some (w1, none)) :
    ∃ wl configmaps merged,
      listAwsAuthConfigMaps authMerger fuel w = some (wl, configmaps, none) ∧
      mergeAwsAuthConfigMaps lib now configmaps = (merged, none) ∧
      (upsertConfigMap authMerger wl merged).2.2 = none ∧
      w1 = (upsertConfigMap authMerger wl merged).1 := by
  simp only [syncAwsAuthConfigMaps] at h
  rcases hl : listAwsAuthConfigMaps authMerger fuel w with _ | ⟨wl, configmaps, _ | e⟩
  · simp [hl] at h
  · rw [hl] at h
    simp only at h
    rcases hm : mergeAwsAuthConfigMaps lib now configmaps with ⟨merged, _ | e⟩
    · rw [hm] at h
      simp only at h
      rcases hu : upsertConfigMap authMerger wl merged with ⟨wu, created, _ | e⟩
      · rw [hu] at h
        simp only [Option.some.injEq, Prod.mk.injEq, and_true] at h
        exact ⟨wl, configmaps, merged, rfl, hm, by rw [hu], by rw [hu]; exact h.symm⟩
      · rw [hu] at h
        simp at h
    · rw [hm] at h
      simp at h
  · rw [hl] at h
    simp at h

/-- On a lawful store a successful cycle leaves the merged object at
`kube-system/aws-auth`. -/
theorem syncAwsAuthConfigMaps_stored {σ : Type} (lib : Lib) (authMerger : AwsAuthMerger σ)
    (laws : StoreLaws authMerger.clientset) (now : Time) (fuel : Nat) (w w1 : World σ)
    (h : syncAwsAuthConfigMaps lib authMerger now fuel w = some (w1, none)) :
    ∃ wl configmaps merged,
      listAwsAuthConfigMaps authMerger fuel w = some (wl, configmaps, none) ∧
      mergeAwsAuthConfigMaps lib now configmaps = (merged, none) ∧
      authMerger.clientset.get w1.store "kube-system" "aws-auth" = .ok merged := by
  obtain ⟨wl, configmaps, merged, hl, hm, hu, hw⟩ :=
    syncAwsAuthConfigMaps_ok lib authMerger now fuel w w1 h
  refine ⟨wl, configmaps, merged, hl, hm, ?_⟩
  have hs := upsertConfigMap_stored authMerger laws wl merged hu
  obtain ⟨_, _, _, _, _, _, _, hshape⟩ := mergeAwsAuthConfigMaps_ok lib now configmaps merged hm
  rw [hw]
  have hns : merged.Namespace = "kube-system" := by rw [hshape]; rfl
  have hname : merged.Name = "aws-auth" := by rw [hshape]; rfl
  rw [hns, hname] at hs
  exact hs

/-- C17: the result of a successful `mergeAwsAuthConfigMaps` is managed by the merger;
hence, on a store that obeys `StoreLaws`, in the state a successful merge-and-upsert
cycle leaves, `migratePreExistingConfigMap` issues its `Get` and nothing else, leaves
the store as it is and returns `(nil, nil)`. -/
theorem managed_after_cycle {σ : Type} (lib : Lib) (authMerger : AwsAuthMerger σ)
    (laws : StoreLaws authMerger.clientset) :
    (∀ now S merged, mergeAwsAuthConfigMaps lib now S = (merged, none) →
      isManagedByMerger merged = true) ∧
    (∀ now fuel (w w1 : World σ),
      syncAwsAuthConfigMaps lib authMerger now fuel w = some (w1, none) →
      migratePreExistingConfigMap authMerger w1
        = ({ w1 with calls := w1.calls ++ [ApiCall.get "kube-system" "aws-auth"] },
            none, none)) := by
  have hmanaged : ∀ now S merged, mergeAwsAuthConfigMaps lib now S = (merged, none) →
      isManagedByMerger merged = true := by
    intro now S merged hm
    obtain ⟨_, _, _, _, _, _, _, hshape⟩ := mergeAwsAuthConfigMaps_ok lib now S merged hm
    rw [hshape]
    simp [isManagedByMerger, List.lookup, managedByLabelValue]
  refine ⟨hmanaged, fun now fuel w w1 h => ?_⟩
  obtain ⟨wl, configmaps, merged, _, hm, hget⟩ :=
    syncAwsAuthConfigMaps_stored lib authMerger laws now fuel w w1 h
  rw [migratePreExistingConfigMap_eq, hget]
  simp only [hmanaged now configmaps merged hm, ↓reduceIte]

theorem managed_after_cycle_witness :
    isManagedByMerger
        (mergeAwsAuthConfigMaps sampleLib 0 (some [sampleSourceA, sampleSourceB])).1 = true ∧
    migratePreExistingConfigMap sampleMerger
        (upsertConfigMap sampleMerger
          ⟨[sampleSourceA, sampleMainStale], [ApiCall.list "aws-auth-merger" "" ""]⟩
          (mergeAwsAuthConfigMaps sampleLib 0 (some [sampleSourceA])).1).1
      = ({ (upsertConfigMap sampleMerger
              ⟨[sampleSourceA, sampleMainStale], [ApiCall.list "aws-auth-merger" "" ""]⟩
              (mergeAwsAuthConfigMaps sampleLib 0 (some [sampleSourceA])).1).1 with
            calls := (upsertConfigMap sampleMerger
              ⟨[sampleSourceA, sampleMainStale], [ApiCall.list "aws-auth-merger" "" ""]⟩
              (mergeAwsAuthConfigMaps sampleLib 0 (some [sampleSourceA])).1).1.calls
                ++ [ApiCall.get "kube-system" "aws-auth"] }, none, none) :=
  ⟨(managed_after_cycle sampleLib sampleMerger sampleClient_laws).1 0
      (some [sampleSourceA, sampleSourceB]) _ (by decide),
   (managed_after_cycle sampleLib sampleMerger sampleClient_laws).2 0 0
      ⟨[sampleSourceA, sampleMainStale], []⟩ _ rfl⟩

/-! ## Two cycles in a row -/

/-- C13 (as stated, refuted): the merger watches `kube-system` with the empty selector
and the store holds one source there.  The first cycle succeeds and leaves the source
as it was; the second cycle, run on the store the first one left, lists
`kube-system/aws-auth` next to the source and fails with a conflict on the role that
both declare. -/
theorem sync_twice_counterexample :
    (syncAwsAuthConfigMaps sampleLib sampleMergerKubeSystem 0 0
        ⟨[sampleSourceKubeSystem], []⟩).map (·.2) = some none ∧
    (syncAwsAuthConfigMaps sampleLib sampleMergerKubeSystem 0 0
        ⟨[sampleSourceKubeSystem], []⟩).map (fun r => storeFind r.1.store "kube-system" "team-a")
      = some (some sampleSourceKubeSystem) ∧
    (syncAwsAuthConfigMaps sampleLib sampleMergerKubeSystem 0 0
        ⟨[sampleSourceKubeSystem], []⟩).map (fun r => r.1.store.length) = some 2 ∧
    ((syncAwsAuthConfigMaps sampleLib sampleMergerKubeSystem 0 0
        ⟨[sampleSourceKubeSystem], []⟩).bind fun r =>
          syncAwsAuthConfigMaps sampleLib sampleMergerKubeSystem 1 0 r.1).map (·.2)
      = some (some (GoError.mappingConflict ⟨"Role", "asdf"⟩)) :=
  ⟨rfl, rfl, rfl, rfl⟩

/-- C13 (amended): on a store that obeys `StoreLaws`, when a cycle succeeds and the
listing of the sources in the state it leaves returns the same ConfigMaps as the listing
before it, a second cycle run in that state succeeds as well, and the object it leaves
at `kube-system/aws-auth` is the object the first cycle left with the value of the
timestamp annotation replaced by the formatted clock reading of the second cycle. -/
theorem sync_twice_same_sources {σ : Type} (lib : Lib) (authMerger : AwsAuthMerger σ)
    (laws : StoreLaws authMerger.clientset) (t1 t2 : Time) (fuel : Nat)
    (w w1 wl wl' : World σ) (configmaps : Slice ConfigMap)
    (h1 : syncAwsAuthConfigMaps lib authMerger t1 fuel w = some (w1, none))
    (hl : listAwsAuthConfigMaps authMerger fuel w = some (wl, configmaps, none))
    (hl' : listAwsAuthConfigMaps authMerger fuel w1 = some (wl', configmaps, none)) :
    ∃ w2 first sourcesJson,
      syncAwsAuthConfigMaps lib authMerger t2 fuel w1 = some (w2, none) ∧
      authMerger.clientset.get w1.store "kube-system" "aws-auth" = .ok first ∧
      first.Annotations
        = [("gruntwork.io/aws-auth-merger-sources", sourcesJson),
           ("gruntwork.io/aws-auth-merger-timestamp", lib.formatUTC t1)] ∧
      authMerger.clientset.get w2.store "kube-system" "aws-auth"
        = .ok { first with
                Annotations := [("gruntwork.io/aws-auth-merger-sources", sourcesJson),
                  ("gruntwork.io/aws-auth-merger-timestamp", lib.formatUTC t2)] } := by
  obtain ⟨wl0, cms0, merged1, hl0, hm1, hget1⟩ :=
    syncAwsAuthConfigMaps_stored lib authMerger laws t1 fuel w w1 h1
  rw [hl] at hl0
  simp only [Option.some.injEq, Prod.mk.injEq, and_true] at hl0
  obtain ⟨_, hcms⟩ := hl0
  subst hcms
  rcases mergeAwsAuthConfigMaps_cases lib configmaps with ⟨e, he⟩ | ⟨sj, ry, uy, hok⟩
  · rw [he t1] at hm1
    cases hm1
  have hm2 := hok t2
  rw [hok t1] at hm1
  simp only [Prod.mk.injEq, and_true] at hm1
  subst hm1
  have hstore : wl'.store = w1.store := (listAwsAuthConfigMaps_frame authMerger fuel w1 _ hl').1
  -- the upsert of the second cycle finds the object of the first and updates it
  have hu : (upsertConfigMap authMerger wl'
      { Name := mainAwsAuthConfigMapName
        Namespace := mainAwsAuthConfigMapNamespace
        Labels := [(managedByLabelKey, managedByLabelValue)]
        Annotations := [(sourcesAnnotationKey, sj),
                        (mergedTimestampAnnotationKey, lib.formatUTC t2)]
        Data := [(mapRolesKey, ry), (mapUsersKey, uy)] }).2.2 = none := by
    rw [upsertConfigMap_eq]
    have hg := hget1
    rw [← hstore] at hg
    simp only [mainAwsAuthConfigMapName, mainAwsAuthConfigMapNamespace, hg]
    obtain ⟨st', c', hupd⟩ := laws.update_existing wl'.store "kube-system"
      { Name := "aws-auth"
        Namespace := "kube-system"
        Labels := [(managedByLabelKey, managedByLabelValue)]
        Annotations := [(sourcesAnnotationKey, sj),
                        (mergedTimestampAnnotationKey, lib.formatUTC t2)]
        Data := [(mapRolesKey, ry), (mapUsersKey, uy)] } _ hg
    rw [hupd]
  have hstored := upsertConfigMap_stored authMerger laws wl' _ hu
  refine ⟨_, _, sj, ?_, hget1, rfl, hstored⟩
  simp only [syncAwsAuthConfigMaps, hl', hm2]
  rcases hup : upsertConfigMap authMerger wl'
      { Name := mainAwsAuthConfigMapName
        Namespace := mainAwsAuthConfigMapNamespace
        Labels := [(managedByLabelKey, managedByLabelValue)]
        Annotations := [(sourcesAnnotationKey, sj),
                        (mergedTimestampAnnotationKey, lib.formatUTC t2)]
        Data := [(mapRolesKey, ry), (mapUsersKey, uy)] } with ⟨wu, created, err⟩
  rw [hup] at hu
  simp only at hu
  subst hu
  rfl

theorem sync_twice_same_sources_witness :
    ∃ w2 first sourcesJson,
      syncAwsAuthConfigMaps sampleLib sampleMerger 7 0
          ⟨[sampleSourceA, sampleSourceB,
              (mergeAwsAuthConfigMaps sampleLib 3 (some [sampleSourceA, sampleSourceB])).1],
            [ApiCall.list "aws-auth-merger" "" "", ApiCall.get "kube-system" "aws-auth",
              ApiCall.create "kube-system"
                (mergeAwsAuthConfigMaps sampleLib 3 (some [sampleSourceA, sampleSourceB])).1]⟩
        = some (w2, none) ∧
      sampleClient.get
          [sampleSourceA, sampleSourceB,
            (mergeAwsAuthConfigMaps sampleLib 3 (some [sampleSourceA, sampleSourceB])).1]
          "kube-system" "aws-auth" = .ok first ∧
      first.Annotations
        = [("gruntwork.io/aws-auth-merger-sources", sourcesJson),
           ("gruntwork.io/aws-auth-merger-timestamp", sampleLib.formatUTC 3)] ∧
      sampleClient.get w2.store "kube-system" "aws-auth"
        = .ok { first with
                Annotations := [("gruntwork.io/aws-auth-merger-sources", sourcesJson),
                  ("gruntwork.io/aws-auth-merger-timestamp", sampleLib.formatUTC 7)] } :=
  sync_twice_same_sources sampleLib sampleMerger sampleClient_laws 3 7 0
    ⟨[sampleSourceA, sampleSourceB], []⟩ _ _ _ (some [sampleSourceA, sampleSourceB])
    rfl rfl rfl

/-! ## The debouncer between calls -/

/-- Without timers of earlier calls the runtime has the current timer to fire, no
other. -/
theorem Debouncer.fire_eq (funcToCall : Nat → Nat → Nat × Option GoError) (d : Debouncer)
    (hpend : d.pending = []) :
    d.fire funcToCall
      = match d.timer with
        | none => d
        | some timer =>
          if timer.waiting = true ∧ timer.due ≤ d.now then
            { d.start funcToCall with timer := some { timer with waiting := false } }
          else d := by
  obtain ⟨now, timer, errChan, running, executions, pending⟩ := d
  simp only at hpend
  subst hpend
  rfl

/-- A timer of an earlier call that was not stopped fires as well: with a timer left
waiting for instant 1 and the current timer waiting for instant 2, two ticks start two
executions. -/
theorem Debouncer.wait_pending_fires :
    (Debouncer.wait sampleSlowFunc 2
      { now := 0, timer := some ⟨2, true⟩, errChan := ⟨[], []⟩, running := [],
        executions := [], pending := [⟨1, true⟩] }).executions
      = [⟨1, 6, none⟩, ⟨2, 7, none⟩] := by
  decide

/-- Calls made at one instant are served with no timer firing in between, also when the
interval is zero: three calls at instant 0 start nothing at that instant and lead to
one execution, started by the timer of the last call at the next tick. -/
theorem Debouncer.run_same_instant :
    ((debounceNoArgsFunc 0).run 0 sampleFunc [0, 0, 0]).executions = [] ∧
    (((debounceNoArgsFunc 0).run 0 sampleFunc [0, 0, 0]).wait sampleFunc 1).executions
      = [⟨1, 4, none⟩] ∧
    (((debounceNoArgsFunc 0).run 0 sampleFunc [0, 0, 0]).wait sampleFunc 9).executions
      = [⟨1, 4, none⟩] := by
  decide

theorem Debouncer.tick_quiet (funcToCall : Nat → Nat → Nat × Option GoError)
    (L : List Execution) (C : ErrChan) (due T : Nat) :
    Debouncer.tick funcToCall (Debouncer.quiet funcToCall L C due T)
      = Debouncer.quiet funcToCall L C due (T + 1) := by
  have hf : ∀ d : Debouncer, d.pending = [] →
      Debouncer.settle funcToCall d
        = (match d.timer with
          | none => d
          | some timer =>
            if timer.waiting = true ∧ timer.due ≤ d.now then
              { d.start funcToCall with timer := some { timer with waiting := false } }
            else d).complete := by
    intro d hd
    rw [Debouncer.settle, Debouncer.fire_eq funcToCall d hd]
  rw [Debouncer.tick, hf _ rfl]
  rcases Nat.lt_trichotomy (T + 1) due with hlt | heq | hgt
  · have h0 : T < due := by omega
    have h1 : ¬ due ≤ T + 1 := by omega
    have h1' : ¬ due ≤ T := by omega
    have h2 : ¬ due + (funcToCall L.length due).1 ≤ T + 1 := by omega
    have h2' : ¬ due + (funcToCall L.length due).1 ≤ T := by omega
    simp [Debouncer.start, Debouncer.complete,
      Debouncer.quiet, h0, h1, h1', h2, h2', hlt]
  · subst heq
    by_cases hz : (funcToCall L.length (T + 1)).1 = 0
    · simp [Debouncer.start, Debouncer.complete,
        Debouncer.quiet, hz]
    · have h3 : 0 < (funcToCall L.length (T + 1)).1 := by omega
      have h4 : ¬ T + 1 + (funcToCall L.length (T + 1)).1 ≤ T := by omega
      simp [Debouncer.start, Debouncer.complete,
        Debouncer.quiet, hz, h3, h4]
  · have h0 : ¬ T < due := by omega
    have h0' : ¬ T + 1 < due := by omega
    have h1 : due ≤ T := by omega
    have h1' : due ≤ T + 1 := by omega
    rcases Nat.lt_trichotomy (due + (funcToCall L.length due).1) (T + 1) with hlt | heq | hgt'
    · have h2 : due + (funcToCall L.length due).1 ≤ T := by omega
      have h2' : due + (funcToCall L.length due).1 ≤ T + 1 := by omega
      have h3 : ¬ T < due + (funcToCall L.length due).1 := by omega
      have h3' : ¬ T + 1 < due + (funcToCall L.length due).1 := by omega
      simp [Debouncer.start, Debouncer.complete,
        Debouncer.quiet, h0, h0', h1, h1', h2, h2', h3, h3']
    · have h2 : ¬ due + (funcToCall L.length due).1 ≤ T := by omega
      have h2' : due + (funcToCall L.length due).1 ≤ T + 1 := by omega
      have h3 : T < due + (funcToCall L.length due).1 := by omega
      have h3' : ¬ T + 1 < due + (funcToCall L.length due).1 := by omega
      simp [Debouncer.start, Debouncer.complete,
        Debouncer.quiet, h0, h0', h1, h1', h2, h2', h3, h3']
    · have h2 : ¬ due + (funcToCall L.length due).1 ≤ T := by omega
      have h2' : ¬ due + (funcToCall L.length due).1 ≤ T + 1 := by omega
      have h3 : T < due + (funcToCall L.length due).1 := by omega
      have h3' : T + 1 < due + (funcToCall L.length due).1 := by omega
      simp [Debouncer.start, Debouncer.complete,
        Debouncer.quiet, h0, h0', h1, h1', h2, h2', h3, h3']

theorem Debouncer.wait_quiet (funcToCall : Nat → Nat → Nat × Option GoError)
    (L : List Execution) (C : ErrChan) (due : Nat) (n : Nat) :
    ∀ T, Debouncer.wait funcToCall n (Debouncer.quiet funcToCall L C due T)
      = Debouncer.quiet funcToCall L C due (T + n) := by
  induction n with
  | zero => intro T; rfl
  | succ n ih =>
    intro T
    rw [Debouncer.wait, Debouncer.tick_quiet, ih]
    congr 1
    omega

/-- A call when nothing is running and no timer of an earlier call is waiting: the
timer the variable points to is stopped, so that it will not fire, and the new timer is
the only one waiting. -/
theorem Debouncer.debounced_idle (interval : Nat)
    (funcToCall : Nat → Nat → Nat × Option GoError) (d : Debouncer) (hpos : 0 < interval)
    (hrun : d.running = []) (hpend : d.pending = []) :
    d.debounced interval funcToCall
      = Debouncer.quiet funcToCall d.executions d.errChan (d.now + interval) d.now := by
  obtain ⟨now, timer, errChan, running, executions, pending⟩ := d
  simp only at hrun hpend
  subst hrun hpend
  have h1 : now < now + interval := by omega
  have h2 : ¬ now + interval ≤ now := by omega
  have h3 : ¬ now + interval + (funcToCall executions.length (now + interval)).1 ≤ now := by
    omega
  cases timer with
  | none => simp [Debouncer.debounced, Debouncer.quiet, h1, h2, h3]
  | some timer => simp [Debouncer.debounced, Timer.Stop, Debouncer.quiet, h1, h2, h3]

/-- A call leaves no timer of an earlier call waiting: it stops the one the variable
points to. -/
theorem Debouncer.debounced_pending (interval : Nat)
    (funcToCall : Nat → Nat → Nat × Option GoError) (d : Debouncer)
    (hpend : d.pending = []) :
    (d.debounced interval funcToCall).pending = [] ∧
    (d.debounced interval funcToCall).timer = some ⟨d.now + interval, true⟩ ∧
    (d.debounced interval funcToCall).executions = d.executions ∧
    (d.debounced interval funcToCall).now = d.now := by
  cases ht : d.timer with
  | none => simp [Debouncer.debounced, ht, hpend]
  | some timer => simp [Debouncer.debounced, ht, hpend, Timer.Stop]

theorem Debouncer.Serial_fire (interval : Nat) (funcToCall : Nat → Nat → Nat × Option GoError)
    (hshort : ∀ k t, (funcToCall k t).1 < interval) (d : Debouncer)
    (h : d.Serial interval) : (d.fire funcToCall).Serial interval := by
  obtain ⟨hp, hb, ht, hpend⟩ := h
  rw [Debouncer.fire_eq funcToCall d hpend]
  cases htimer : d.timer with
  | none => exact ⟨hp, hb, ht, hpend⟩
  | some timer =>
    simp only
    by_cases hf : timer.waiting = true ∧ timer.due ≤ d.now
    · simp only [hf, and_self, ↓reduceIte]
      refine ⟨?_, ?_, ?_, hpend⟩
      · simp only [Debouncer.start, List.pairwise_append, List.pairwise_cons,
          List.not_mem_nil, false_imp_iff, implies_true, List.Pairwise.nil, and_self,
          List.mem_singleton, forall_eq, true_and]
        refine ⟨hp, fun e he => ?_⟩
        have h1 := (hb e he).2
        have h2 := ht timer htimer hf.1 e he
        omega
      · intro e he
        simp only [Debouncer.start, List.mem_append, List.mem_singleton] at he
        rcases he with he | rfl
        · exact hb e he
        · exact ⟨Nat.le_refl _, by have := hshort d.executions.length d.now; simp only; omega⟩
      · intro timer' h1 h2
        simp only [Option.some.injEq] at h1
        subst h1
        simp at h2
    · simp only [hf, ↓reduceIte]
      exact ⟨hp, hb, ht, hpend⟩

theorem Debouncer.Serial_complete (interval : Nat) (d : Debouncer)
    (h : d.Serial interval) : d.complete.Serial interval := h

theorem Debouncer.Serial_tick (interval : Nat) (funcToCall : Nat → Nat → Nat × Option GoError)
    (hshort : ∀ k t, (funcToCall k t).1 < interval) (d : Debouncer)
    (h : d.Serial interval) : (d.tick funcToCall).Serial interval := by
  apply Debouncer.Serial_complete
  apply Debouncer.Serial_fire interval funcToCall hshort
  obtain ⟨hp, hb, ht, hpend⟩ := h
  exact ⟨hp, fun e he => ⟨Nat.le_succ_of_le (hb e he).1, (hb e he).2⟩, ht, hpend⟩

theorem Debouncer.Serial_wait (interval : Nat) (funcToCall : Nat → Nat → Nat × Option GoError)
    (hshort : ∀ k t, (funcToCall k t).1 < interval) (n : Nat) :
    ∀ d : Debouncer, d.Serial interval → (d.wait funcToCall n).Serial interval := by
  induction n with
  | zero => intro d h; exact h
  | succ n ih =>
    intro d h
    exact ih _ (Debouncer.Serial_tick interval funcToCall hshort d h)

theorem Debouncer.Serial_debounced (interval : Nat)
    (funcToCall : Nat → Nat → Nat × Option GoError) (d : Debouncer)
    (h : d.Serial interval) : (d.debounced interval funcToCall).Serial interval := by
  obtain ⟨hp, hb, _, hpend⟩ := h
  obtain ⟨h1, h2, h3, h4⟩ := Debouncer.debounced_pending interval funcToCall d hpend
  refine ⟨by rw [h3]; exact hp, fun e he => ?_, fun timer ht _ e he => ?_, h1⟩
  · rw [h3] at he
    rw [h4]
    exact hb e he
  · rw [h2] at ht
    simp only [Option.some.injEq] at ht
    subst ht
    rw [h3] at he
    have := (hb e he).1
    simp only
    omega

theorem Debouncer.Serial_run (interval : Nat) (funcToCall : Nat → Nat → Nat × Option GoError)
    (hshort : ∀ k t, (funcToCall k t).1 < interval) (delays : List Nat) :
    ∀ d : Debouncer, d.Serial interval → (d.run interval funcToCall delays).Serial interval := by
  induction delays with
  | nil => intro d h; exact h
  | cons g gs ih =>
    intro d h
    exact ih _ (Debouncer.Serial_debounced interval funcToCall _
      (Debouncer.Serial_wait interval funcToCall hshort g d h))

/-- C20 (as stated, refuted): with an interval of two ticks and a `funcToCall` that runs
for five, a call at instant 0 starts an execution at instant 2; a second call at instant
3, while that execution is running, starts another execution at instant 5, two ticks
before the first one returns: at instant 5 both are in progress. -/
theorem debounce_serial_counterexample :
    (((debounceNoArgsFunc 0).run 2 sampleSlowFunc [0]).wait sampleSlowFunc 3).running
      = [⟨2, 7, none⟩] ∧
    (((debounceNoArgsFunc 0).run 2 sampleSlowFunc [0, 3]).wait sampleSlowFunc 2).executions
      = [⟨2, 7, none⟩, ⟨5, 10, none⟩] ∧
    Execution.InProgress ⟨2, 7, none⟩ 5 ∧ Execution.InProgress ⟨5, 10, none⟩ 5 :=
  ⟨by decide, by decide, ⟨by decide, by decide⟩, ⟨by decide, by decide⟩⟩

/-- C20 (amended): when every execution of `funcToCall` returns in less than `interval`
ticks, then for every schedule of calls any two executions of `funcToCall`, the earlier
and a later one, are such that the earlier has returned when the later is entered; so
at no instant are two executions in progress, and a call that arrives while an
execution is running does not lead to a second one before the first has returned. -/
theorem debounce_serial_of_short_executions (interval : Nat)
    (funcToCall : Nat → Nat → Nat × Option GoError)
    (hshort : ∀ k t, (funcToCall k t).1 < interval)
    (t0 : Nat) (delays : List Nat) (w : Nat) (i j : Nat) (ei ej : Execution) (hij : i < j)
    (hi : (((debounceNoArgsFunc t0).run interval funcToCall delays).wait funcToCall
      w).executions[i]? = some ei)
    (hj : (((debounceNoArgsFunc t0).run interval funcToCall delays).wait funcToCall
      w).executions[j]? = some ej) :
    ei.finish ≤ ej.start ∧ ∀ t, ¬ (ei.InProgress t ∧ ej.InProgress t) := by
  have hinit : (debounceNoArgsFunc t0).Serial interval := by
    simp [Debouncer.Serial, debounceNoArgsFunc]
  have hs := Debouncer.Serial_wait interval funcToCall hshort w _
    (Debouncer.Serial_run interval funcToCall hshort delays _ hinit)
  have hp := hs.1
  rw [List.pairwise_iff_getElem] at hp
  obtain ⟨hi1, hi2⟩ := List.getElem?_eq_some_iff.mp hi
  obtain ⟨hj1, hj2⟩ := List.getElem?_eq_some_iff.mp hj
  have hle : ei.finish ≤ ej.start := by
    have := hp i j hi1 hj1 hij
    rw [hi2, hj2] at this
    exact this
  refine ⟨hle, fun t ht => ?_⟩
  obtain ⟨⟨_, h1⟩, ⟨h2, _⟩⟩ := ht
  omega

theorem debounce_serial_of_short_executions_witness :
    (((debounceNoArgsFunc 0).run 4 sampleFunc [0, 5, 1]).wait sampleFunc 6).executions
      = [⟨4, 7, none⟩, ⟨10, 12, some (GoError.lib ⟨"", "DebouncerTestError"⟩)⟩] ∧
    (((debounceNoArgsFunc 0).run 4 sampleFunc [0, 5]).wait sampleFunc 0).running
      = [⟨4, 7, none⟩] ∧
    ((7 : Nat) ≤ 10 ∧
      ∀ t, ¬ (Execution.InProgress ⟨4, 7, none⟩ t ∧
        Execution.InProgress ⟨10, 12, some (GoError.lib ⟨"", "DebouncerTestError"⟩)⟩ t)) :=
  ⟨by decide, by decide,
   debounce_serial_of_short_executions 4 sampleFunc
    (fun k _ => by unfold sampleFunc; split <;> decide)
    0 [0, 5, 1] 6 0 1 ⟨4, 7, none⟩ ⟨10, 12, some (GoError.lib ⟨"", "DebouncerTestError"⟩)⟩
    (by decide) (by decide) (by decide)⟩

/-! ## `parseLabelsKeyValuePairs` -/

/-- The first piece of a split is the text before the first separator, the other pieces
are the split of the text after it. -/
theorem stringsSplit.pieces_eq (sep : Char) (s : List Char) :
    stringsSplit.pieces sep s
      = s.takeWhile (fun c => c != sep) ::
          (match s.dropWhile (fun c => c != sep) with
           | [] => []
           | _ :: rest => stringsSplit.pieces sep rest) := by
  induction s with
  | nil => rfl
  | cons c cs ih =>
    by_cases h : c = sep
    · subst h
      simp [stringsSplit.pieces]
    · have hb : (c != sep) = true := by simpa using h
      simp only [stringsSplit.pieces, if_neg h, List.takeWhile_cons, List.dropWhile_cons, hb,
        if_true]
      rw [ih]

/-- A split has at least one piece. -/
theorem stringsSplit.pieces_ne_nil (sep : Char) (s : List Char) :
    stringsSplit.pieces sep s ≠ [] := by
  rw [stringsSplit.pieces_eq]
  exact List.cons_ne_nil _ _

/-- A character put in front of the first piece comes out in front of the joined text. -/
theorem stringsJoin_cons_head (c : Char) (p : List Char) (ps : List (List Char))
    (sep : String) :
    stringsJoin (((c :: p) :: ps).map String.mk) sep
      = String.mk (c :: (stringsJoin ((p :: ps).map String.mk) sep).data) := by
  cases ps with
  | nil => rfl
  | cons q qs =>
    simp only [List.map_cons, stringsJoin]
    apply String.ext
    simp [String.data_append]

/-- Joining the pieces of a split with the separator gives the text back. -/
theorem stringsJoin_pieces (sep : Char) (s : List Char) :
    stringsJoin ((stringsSplit.pieces sep s).map String.mk) (String.singleton sep)
      = String.mk s := by
  induction s with
  | nil => rfl
  | cons c cs ih =>
    cases hp : stringsSplit.pieces sep cs with
    | nil => exact absurd hp (stringsSplit.pieces_ne_nil sep cs)
    | cons p ps =>
      rw [hp] at ih
      by_cases h : c = sep
      · subst h
        simp only [stringsSplit.pieces, if_true, hp]
        simp only [List.map_cons, stringsJoin] at ih ⊢
        rw [ih]
        apply String.ext
        simp [String.singleton]
      · simp only [stringsSplit.pieces, if_neg h, hp]
        rw [stringsJoin_cons_head, ih]

/-- What one label argument contributes: the first piece of its split is the text before
its first `=`, the joined other pieces are the text after it. -/
theorem stringsSplit_key_value (pair : String) :
    (stringsSplit pair '=').headD "" = textBeforeFirstEq pair ∧
    (if (stringsSplit pair '=').length > 1
      then stringsJoin ((stringsSplit pair '=').drop 1) "=" else "")
      = textAfterFirstEq pair := by
  unfold stringsSplit textBeforeFirstEq textAfterFirstEq
  rw [stringsSplit.pieces_eq]
  refine ⟨rfl, ?_⟩
  cases h : pair.data.dropWhile (fun c => c != '=') with
  | nil => rfl
  | cons e rest =>
    have hne := stringsSplit.pieces_ne_nil '=' rest
    have hlen : (stringsSplit.pieces '=' rest).length > 0 :=
      List.length_pos.mpr hne
    simp only [List.map_cons, List.length_cons, List.length_map, List.drop_succ_cons,
      List.drop_zero]
    rw [if_pos (by omega)]
    exact stringsJoin_pieces '=' rest

/-- Reading a map after `out[key] = value`. -/
theorem lookup_mapSet (out : StrMap) (key value k : String) :
    (mapSet out key value).lookup k = if k = key then some value else out.lookup k := by
  unfold mapSet
  by_cases h : k = key
  · subst h
    simp [List.lookup]
  · rw [if_neg h]
    have hb : (k == key) = false := by simpa using h
    simp only [List.lookup, hb]
    induction out with
    | nil => rfl
    | cons entry rest ih =>
      obtain ⟨a, b⟩ := entry
      by_cases ha : a = key
      · subst ha
        have hka : (k == a) = false := hb
        simp [List.filter, List.lookup, hka, ih]
      · have hne : (a != key) = true := by simpa using ha
        simp only [List.filter, hne, List.lookup]
        rw [ih]

/-- After `out[key] = value` the keys of the map are still pairwise distinct. -/
theorem nodup_mapSet (out : StrMap) (key value : String) (h : (out.map (·.1)).Nodup) :
    ((mapSet out key value).map (·.1)).Nodup := by
  unfold mapSet
  rw [List.map_cons, List.nodup_cons]
  constructor
  · intro hmem
    rcases List.mem_map.mp hmem with ⟨entry, he, hk⟩
    have := (List.mem_filter.mp he).2
    simp at this
    exact this hk
  · exact h.sublist ((List.filter_sublist _).map _)

/-- C25: the map `parseLabelsKeyValuePairs` returns, read at any key, holds the text
after the first `=` (the empty string when there is none, later `=` kept) of the last
argument whose text before the first `=` is that key, and holds nothing at a key that
is the text before the first `=` of no argument; the map has one entry for each of
its keys. -/
theorem parse_labels_key_value_pairs (kvPairs : Slice String) :
    (∀ k, (parseLabelsKeyValuePairs kvPairs).lookup k
        = (kvPairs.elems.reverse.find? (fun pair => textBeforeFirstEq pair == k)).map
            textAfterFirstEq) ∧
    ((parseLabelsKeyValuePairs kvPairs).map (·.1)).Nodup := by
  unfold parseLabelsKeyValuePairs
  generalize kvPairs.elems = l
  induction l using List.reverseRecOn with
  | nil => exact ⟨fun k => rfl, List.nodup_nil⟩
  | append_singleton l pair ih =>
    rw [List.foldl_append, List.foldl_cons, List.foldl_nil, List.reverse_append]
    simp only [(stringsSplit_key_value pair).1, (stringsSplit_key_value pair).2]
    refine ⟨fun k => ?_, nodup_mapSet _ _ _ ih.2⟩
    rw [lookup_mapSet, ih.1 k]
    simp only [List.reverse_cons, List.reverse_nil, List.nil_append, List.singleton_append,
      List.find?_cons]
    by_cases h : k = textBeforeFirstEq pair
    · subst h
      simp
    · rw [if_neg h]
      have hb : (textBeforeFirstEq pair == k) = false := by
        simpa using fun h' => h h'.symm
      rw [hb]

theorem parse_labels_key_value_pairs_witness :
    (parseLabelsKeyValuePairs (some ["team=a=b", "env", "team=x=y"])).lookup "team"
        = some "x=y" ∧
    (parseLabelsKeyValuePairs (some ["team=a=b", "env", "team=x=y"])).lookup "env"
        = some "" ∧
    (parseLabelsKeyValuePairs (some ["team=a=b", "env", "team=x=y"])).lookup "a" = none := by
  have h := (parse_labels_key_value_pairs (some ["team=a=b", "env", "team=x=y"])).1
  refine ⟨?_, ?_, ?_⟩
  · rw [h]; decide
  · rw [h]; decide
  · rw [h]; decide

/-! ## The order of the steps of `mergeAwsAuthConfigMaps` -/

/-- The loop over a list continues the loop over a front part of it: it fails with the
error of the front part, or goes on with the rest from the state the front part left. -/
theorem mergeAwsAuthConfigMaps.loop_append (lib : Lib) (pre rest : List ConfigMap)
    (st : List String × Slice RoleMapping × Slice UserMapping) :
    mergeAwsAuthConfigMaps.loop lib (pre ++ rest) st
      = match mergeAwsAuthConfigMaps.loop lib pre st with
        | .ok st' => mergeAwsAuthConfigMaps.loop lib rest st'
        | .error e => .error e := by
  induction pre generalizing st with
  | nil => rfl
  | cons c pre ih =>
    obtain ⟨src, R, U⟩ := st
    simp only [List.cons_append, mergeAwsAuthConfigMaps.loop]
    rcases h1 : getRoleMappingFromConfigMap lib c with ⟨r, _ | e1⟩
    · simp only []
      rcases h2 : mergeRoleMappingLists R r with ⟨R', _ | e2⟩
      · simp only []
        rcases h3 : getUserMappingFromConfigMap lib c with ⟨u, _ | e3⟩
        · simp only []
          rcases h4 : mergeUserMappingLists U u with ⟨U', _ | e4⟩
          · simp only []
            exact ih _
          · rfl
        · rfl
      · rfl
    · rfl

/-- The loop over one source, step by step. -/
theorem mergeAwsAuthConfigMaps.loop_one (lib : Lib) (c : ConfigMap) (rest : List ConfigMap)
    (src : List String) (R : Slice RoleMapping) (U : Slice UserMapping) :
    mergeAwsAuthConfigMaps.loop lib (c :: rest) (src, R, U)
      = match (getRoleMappingFromConfigMap lib c).2 with
        | some e => .error e
        | none =>
          match (mergeRoleMappingLists R (getRoleMappingFromConfigMap lib c).1).2 with
          | some e => .error e
          | none =>
            match (getUserMappingFromConfigMap lib c).2 with
            | some e => .error e
            | none =>
              match (mergeUserMappingLists U (getUserMappingFromConfigMap lib c).1).2 with
              | some e => .error e
              | none =>
                mergeAwsAuthConfigMaps.loop lib rest
                  (src ++ [c.Name],
                   (mergeRoleMappingLists R (getRoleMappingFromConfigMap lib c).1).1,
                   (mergeUserMappingLists U (getUserMappingFromConfigMap lib c).1).1) := by
  simp only [mergeAwsAuthConfigMaps.loop]
  rcases h1 : getRoleMappingFromConfigMap lib c with ⟨r, _ | e1⟩
  · simp only []
    rcases h2 : mergeRoleMappingLists R r with ⟨R', _ | e2⟩
    · simp only []
      rcases h3 : getUserMappingFromConfigMap lib c with ⟨u, _ | e3⟩
      · simp only []
        rcases h4 : mergeUserMappingLists U u with ⟨U', _ | e4⟩
        · rfl
        · rfl
      · rfl
    · rfl
  · rfl

/-- A failing loop has a first failing step: the sources before some source `c` are
folded without error, and on `c` one of the four steps, taken in the order role parse,
role merge, user parse, user merge, is the first to fail, with the error of the loop. -/
theorem mergeAwsAuthConfigMaps.loop_first_failure (lib : Lib) (S : List ConfigMap)
    (st : List String × Slice RoleMapping × Slice UserMapping) (e : GoError)
    (h : mergeAwsAuthConfigMaps.loop lib S st = .error e) :
    ∃ pre c post src R U, S = pre ++ c :: post ∧
      mergeAwsAuthConfigMaps.loop lib pre st = .ok (src, R, U) ∧
      ((getRoleMappingFromConfigMap lib c).2 = some e ∨
       ((getRoleMappingFromConfigMap lib c).2 = none ∧
        (mergeRoleMappingLists R (getRoleMappingFromConfigMap lib c).1).2 = some e) ∨
       ((getRoleMappingFromConfigMap lib c).2 = none ∧
        (mergeRoleMappingLists R (getRoleMappingFromConfigMap lib c).1).2 = none ∧
        (getUserMappingFromConfigMap lib c).2 = some e) ∨
       ((getRoleMappingFromConfigMap lib c).2 = none ∧
        (mergeRoleMappingLists R (getRoleMappingFromConfigMap lib c).1).2 = none ∧
        (getUserMappingFromConfigMap lib c).2 = none ∧
        (mergeUserMappingLists U (getUserMappingFromConfigMap lib c).1).2 = some e)) := by
  induction S generalizing st with
  | nil => simp [mergeAwsAuthConfigMaps.loop] at h
  | cons c rest ih =>
    obtain ⟨src, R, U⟩ := st
    rw [mergeAwsAuthConfigMaps.loop_one] at h
    cases h1 : (getRoleMappingFromConfigMap lib c).2 with
    | some e1 =>
      rw [h1] at h
      simp only [Except.error.injEq] at h
      exact ⟨[], c, rest, src, R, U, rfl, rfl, Or.inl (h ▸ h1)⟩
    | none =>
      rw [h1] at h
      simp only [] at h
      cases h2 : (mergeRoleMappingLists R (getRoleMappingFromConfigMap lib c).1).2 with
      | some e2 =>
        rw [h2] at h
        simp only [Except.error.injEq] at h
        exact ⟨[], c, rest, src, R, U, rfl, rfl, Or.inr (Or.inl ⟨h1, h ▸ h2⟩)⟩
      | none =>
        rw [h2] at h
        simp only [] at h
        cases h3 : (getUserMappingFromConfigMap lib c).2 with
        | some e3 =>
          rw [h3] at h
          simp only [Except.error.injEq] at h
          exact ⟨[], c, rest, src, R, U, rfl, rfl, Or.inr (Or.inr (Or.inl ⟨h1, h2, h ▸ h3⟩))⟩
        | none =>
          rw [h3] at h
          simp only [] at h
          cases h4 : (mergeUserMappingLists U (getUserMappingFromConfigMap lib c).1).2 with
          | some e4 =>
            rw [h4] at h
            simp only [Except.error.injEq] at h
            exact ⟨[], c, rest, src, R, U, rfl, rfl,
              Or.inr (Or.inr (Or.inr ⟨h1, h2, h3, h ▸ h4⟩))⟩
          | none =>
            rw [h4] at h
            simp only [] at h
            obtain ⟨pre, c', post, src', R', U', hS, hpre, hstep⟩ := ih _ h
            refine ⟨c :: pre, c', post, src', R', U', by rw [hS]; rfl, ?_, hstep⟩
            rw [mergeAwsAuthConfigMaps.loop_one, h1]
            simp only []
            rw [h2]
            simp only []
            rw [h3]
            simp only []
            rw [h4]
            exact hpre

/-- C26: `mergeAwsAuthConfigMaps` takes the sources in input order and, on each, the
steps role parse, role merge, user parse, user merge in that order.  When the sources
before `c` are folded without error into the running lists `R` and `U`, the first of
the four steps that fails on `c` decides the result, which is the zero-valued ConfigMap
with exactly the error of that step, whatever the later steps on `c` would give and
whatever the later sources `post` are; every error the fold returns is the error of
such a first failing step; and every error of `mergeAwsAuthConfigMaps` comes with the
zero-valued ConfigMap. -/
theorem merge_first_failing_step (lib : Lib) (now : Time) (pre post : List ConfigMap)
    (c : ConfigMap) (src : List String) (R : Slice RoleMapping) (U : Slice UserMapping)
    (hpre : mergeAwsAuthConfigMaps.loop lib pre ([], some [], some []) = .ok (src, R, U)) :
    (∀ e, (getRoleMappingFromConfigMap lib c).2 = some e →
      mergeAwsAuthConfigMaps lib now (some (pre ++ c :: post)) = ({}, some e)) ∧
    (∀ e, (getRoleMappingFromConfigMap lib c).2 = none →
      (mergeRoleMappingLists R (getRoleMappingFromConfigMap lib c).1).2 = some e →
      mergeAwsAuthConfigMaps lib now (some (pre ++ c :: post)) = ({}, some e)) ∧
    (∀ e, (getRoleMappingFromConfigMap lib c).2 = none →
      (mergeRoleMappingLists R (getRoleMappingFromConfigMap lib c).1).2 = none →
      (getUserMappingFromConfigMap lib c).2 = some e →
      mergeAwsAuthConfigMaps lib now (some (pre ++ c :: post)) = ({}, some e)) ∧
    (∀ e, (getRoleMappingFromConfigMap lib c).2 = none →
      (mergeRoleMappingLists R (getRoleMappingFromConfigMap lib c).1).2 = none →
      (getUserMappingFromConfigMap lib c).2 = none →
      (mergeUserMappingLists U (getUserMappingFromConfigMap lib c).1).2 = some e →
      mergeAwsAuthConfigMaps lib now (some (pre ++ c :: post)) = ({}, some e)) ∧
    (∀ S e, mergeAwsAuthConfigMaps.loop lib S ([], some [], some []) = .error e →
      ∃ pre' c' post' src' R' U', S = pre' ++ c' :: post' ∧
        mergeAwsAuthConfigMaps.loop lib pre' ([], some [], some []) = .ok (src', R', U') ∧
        ((getRoleMappingFromConfigMap lib c').2 = some e ∨
         ((getRoleMappingFromConfigMap lib c').2 = none ∧
          (mergeRoleMappingLists R' (getRoleMappingFromConfigMap lib c').1).2 = some e) ∨
         ((getRoleMappingFromConfigMap lib c').2 = none ∧
          (mergeRoleMappingLists R' (getRoleMappingFromConfigMap lib c').1).2 = none ∧
          (getUserMappingFromConfigMap lib c').2 = some e) ∨
         ((getRoleMappingFromConfigMap lib c').2 = none ∧
          (mergeRoleMappingLists R' (getRoleMappingFromConfigMap lib c').1).2 = none ∧
          (getUserMappingFromConfigMap lib c').2 = none ∧
          (mergeUserMappingLists U' (getUserMappingFromConfigMap lib c').1).2 = some e))) ∧
    (∀ (S : Slice ConfigMap) e, (mergeAwsAuthConfigMaps lib now S).2 = some e →
      (mergeAwsAuthConfigMaps lib now S).1 = {}) := by
  have key : ∀ e, mergeAwsAuthConfigMaps.loop lib (c :: post) (src, R, U) = .error e →
      mergeAwsAuthConfigMaps lib now (some (pre ++ c :: post)) = ({}, some e) := by
    intro e he
    apply mergeAwsAuthConfigMaps_of_loop_error
    show mergeAwsAuthConfigMaps.loop lib (pre ++ c :: post) _ = _
    rw [mergeAwsAuthConfigMaps.loop_append, hpre]
    exact he
  refine ⟨?_, ?_, ?_, ?_, ?_, ?_⟩
  · intro e h1
    apply key
    rw [mergeAwsAuthConfigMaps.loop_one, h1]
  · intro e h1 h2
    apply key
    rw [mergeAwsAuthConfigMaps.loop_one, h1]
    simp only []
    rw [h2]
  · intro e h1 h2 h3
    apply key
    rw [mergeAwsAuthConfigMaps.loop_one, h1]
    simp only []
    rw [h2]
    simp only []
    rw [h3]
  · intro e h1 h2 h3 h4
    apply key
    rw [mergeAwsAuthConfigMaps.loop_one, h1]
    simp only []
    rw [h2]
    simp only []
    rw [h3]
    simp only []
    rw [h4]
  · intro S e h
    exact mergeAwsAuthConfigMaps.loop_first_failure lib S _ e h
  · intro S e h
    rcases mergeAwsAuthConfigMaps_cases lib S with ⟨e', he'⟩ | ⟨sj, ry, uy, hok⟩
    · rw [he' now]
    · rw [hok now] at h
      simp at h

theorem merge_first_failing_step_witness :
    mergeAwsAuthConfigMaps.loop sampleLib [sampleSourceA] ([], some [], some [])
      = .ok (["team-a"], some [sampleRoleOne], some []) ∧
    mergeAwsAuthConfigMaps sampleLib 0
        (some ([sampleSourceA] ++ sampleSourceBad :: [sampleSourceDup]))
      = ({}, some (GoError.invalidMappingList
          ⟨roleMappingType, "team-bad", ⟨"", "yaml: unmarshal errors"⟩⟩)) :=
  ⟨rfl, (merge_first_failing_step sampleLib 0 [sampleSourceA] [sampleSourceDup]
    sampleSourceBad ["team-a"] (some [sampleRoleOne]) (some []) rfl).1 _ rfl⟩

/-! ## Order of the sources -/

/-- With encoders that return a serialization, `mergeAwsAuthConfigMaps` succeeds exactly
when every source parses and no identifier is declared by two sources. -/
theorem mergeAwsAuthConfigMaps_succeeds_iff (lib : Lib) (now : Time) (S : Slice ConfigMap)
    (hj : ∀ l, ∃ s, lib.jsonMarshal l = .ok s)
    (hr : ∀ l, ∃ s, lib.yamlMarshalRoles l = .ok s)
    (hu : ∀ l, ∃ s, lib.yamlMarshalUsers l = .ok s) :
    (mergeAwsAuthConfigMaps lib now S).2 = none ↔
      ((∀ c ∈ S.elems, Parses lib c) ∧
       (∀ x, ¬ DeclaredTwice (roleArnsBySource lib S.elems) x) ∧
       (∀ x, ¬ DeclaredTwice (userArnsBySource lib S.elems) x)) := by
  constructor
  · intro h
    have hm : mergeAwsAuthConfigMaps lib now S = ((mergeAwsAuthConfigMaps lib now S).1, none) :=
      Prod.ext rfl h
    obtain ⟨_, _, _, hloop, _⟩ := mergeAwsAuthConfigMaps_ok lib now S _ hm
    obtain ⟨hp, hR, hU, _⟩ := mergeAwsAuthConfigMaps.loop_ok lib S.elems _ hloop
    exact ⟨hp, hR, hU⟩
  · rintro ⟨hp, hR, hU⟩
    have hloop := mergeAwsAuthConfigMaps.loop_complete lib S.elems hp hR hU
    obtain ⟨sj, hsj⟩ := hj (some (S.elems.map (·.Name)))
    obtain ⟨ry, hry⟩ := hr (some (S.elems.map (rolesOf lib)).flatten)
    obtain ⟨uy, huy⟩ := hu (some (S.elems.map (usersOf lib)).flatten)
    simp only [mergeAwsAuthConfigMaps, hloop, hsj, hry, huy]

/-- Whether some identifier is declared by two members does not depend on the order
of the members. -/
theorem not_DeclaredTwice_perm (Ls Ls' : List (List String)) (h : Ls.Perm Ls') :
    (∀ x, ¬ DeclaredTwice Ls x) ↔ (∀ x, ¬ DeclaredTwice Ls' x) := by
  rw [not_DeclaredTwice_iff, not_DeclaredTwice_iff]
  apply List.Perm.pairwise_iff _ h
  intro P Q hPQ x hx hx'
  exact hPQ x hx' hx

/-- C27: for a permutation `S'` of the source list `S` (and encoders that return a
serialization), `mergeAwsAuthConfigMaps` succeeds on `S` exactly when it succeeds on
`S'`, success on `S` holds exactly when every source parses and no role identifier and
no user identifier is declared by two different sources, and on success the role list
and the user list folded from `S'`, whose serializations are the data of its result,
are permutations of those folded from `S`. -/
theorem merge_permutation (lib : Lib) (now : Time) (S S' : Slice ConfigMap)
    (hperm : S.elems.Perm S'.elems)
    (hj : ∀ l, ∃ s, lib.jsonMarshal l = .ok s)
    (hr : ∀ l, ∃ s, lib.yamlMarshalRoles l = .ok s)
    (hu : ∀ l, ∃ s, lib.yamlMarshalUsers l = .ok s) :
    ((mergeAwsAuthConfigMaps lib now S).2 = none ↔
      (mergeAwsAuthConfigMaps lib now S').2 = none) ∧
    ((mergeAwsAuthConfigMaps lib now S).2 = none ↔
      ((∀ c ∈ S.elems, Parses lib c) ∧
       (∀ x, ¬ DeclaredTwice (roleArnsBySource lib S.elems) x) ∧
       (∀ x, ¬ DeclaredTwice (userArnsBySource lib S.elems) x))) ∧
    ((mergeAwsAuthConfigMaps lib now S).2 = none →
      ∃ (RS RS' : List RoleMapping) (US US' : List UserMapping) (ry ry' uy uy' : String),
        mergeAwsAuthConfigMaps.loop lib S.elems ([], some [], some [])
          = .ok (S.elems.map (·.Name), some RS, some US) ∧
        mergeAwsAuthConfigMaps.loop lib S'.elems ([], some [], some [])
          = .ok (S'.elems.map (·.Name), some RS', some US') ∧
        lib.yamlMarshalRoles (some RS) = .ok ry ∧ lib.yamlMarshalUsers (some US) = .ok uy ∧
        lib.yamlMarshalRoles (some RS') = .ok ry' ∧ lib.yamlMarshalUsers (some US') = .ok uy' ∧
        (mergeAwsAuthConfigMaps lib now S).1.Data = [(mapRolesKey, ry), (mapUsersKey, uy)] ∧
        (mergeAwsAuthConfigMaps lib now S').1.Data
          = [(mapRolesKey, ry'), (mapUsersKey, uy')] ∧
        RS'.Perm RS ∧ US'.Perm US) := by
  have hiff := mergeAwsAuthConfigMaps_succeeds_iff lib now S hj hr hu
  have hiff' := mergeAwsAuthConfigMaps_succeeds_iff lib now S' hj hr hu
  have hcond : ((∀ c ∈ S.elems, Parses lib c) ∧
       (∀ x, ¬ DeclaredTwice (roleArnsBySource lib S.elems) x) ∧
       (∀ x, ¬ DeclaredTwice (userArnsBySource lib S.elems) x)) ↔
      ((∀ c ∈ S'.elems, Parses lib c) ∧
       (∀ x, ¬ DeclaredTwice (roleArnsBySource lib S'.elems) x) ∧
       (∀ x, ¬ DeclaredTwice (userArnsBySource lib S'.elems) x)) := by
    have h1 : (∀ c ∈ S.elems, Parses lib c) ↔ (∀ c ∈ S'.elems, Parses lib c) :=
      ⟨fun h c hc => h c (hperm.mem_iff.mpr hc), fun h c hc => h c (hperm.mem_iff.mp hc)⟩
    have h2 := not_DeclaredTwice_perm (roleArnsBySource lib S.elems)
      (roleArnsBySource lib S'.elems) (hperm.map _)
    have h3 := not_DeclaredTwice_perm (userArnsBySource lib S.elems)
      (userArnsBySource lib S'.elems) (hperm.map _)
    rw [h1, h2, h3]
  refine ⟨by rw [hiff, hiff', hcond], hiff, ?_⟩
  intro h
  have h' : (mergeAwsAuthConfigMaps lib now S').2 = none := by
    rw [hiff', ← hcond, ← hiff]; exact h
  have hm : mergeAwsAuthConfigMaps lib now S = ((mergeAwsAuthConfigMaps lib now S).1, none) :=
    Prod.ext rfl h
  have hm' : mergeAwsAuthConfigMaps lib now S'
      = ((mergeAwsAuthConfigMaps lib now S').1, none) := Prod.ext rfl h'
  obtain ⟨sj, ry, uy, hloop, _, hry, huy, hmerged⟩ := mergeAwsAuthConfigMaps_ok lib now S _ hm
  obtain ⟨sj', ry', uy', hloop', _, hry', huy', hmerged'⟩ :=
    mergeAwsAuthConfigMaps_ok lib now S' _ hm'
  refine ⟨_, _, _, _, ry, ry', uy, uy', hloop, hloop', hry, huy, hry', huy', ?_, ?_, ?_, ?_⟩
  · rw [hmerged]
  · rw [hmerged']
  · exact ((hperm.map _).flatten).symm
  · exact ((hperm.map _).flatten).symm

theorem merge_permutation_witness :
    [sampleSourceA, sampleSourceB, sampleSourceC].Perm
        [sampleSourceB, sampleSourceA, sampleSourceC] ∧
    ((mergeAwsAuthConfigMaps sampleLib 0
          (some [sampleSourceA, sampleSourceB, sampleSourceC])).2 = none ↔
      (mergeAwsAuthConfigMaps sampleLib 0
          (some [sampleSourceB, sampleSourceA, sampleSourceC])).2 = none) ∧
    (mergeAwsAuthConfigMaps sampleLib 0
        (some [sampleSourceB, sampleSourceA, sampleSourceC])).2 = none :=
  ⟨List.Perm.swap _ _ _,
   (merge_permutation sampleLib 0 (some [sampleSourceA, sampleSourceB, sampleSourceC])
      (some [sampleSourceB, sampleSourceA, sampleSourceC]) (List.Perm.swap _ _ _)
      (fun l => by cases l <;> exact ⟨_, rfl⟩) (fun l => ⟨_, rfl⟩) (fun l => ⟨_, rfl⟩)).1,
   rfl⟩

/-! ## Identifiers of the merged lists -/

/-- Lists with pairwise distinct members, no member of which is declared by two of the
lists, flatten to a list with pairwise distinct members. -/
theorem nodup_flatten_of_not_DeclaredTwice (Ls : List (List String))
    (hown : ∀ l ∈ Ls, l.Nodup) (h : ∀ x, ¬ DeclaredTwice Ls x) : Ls.flatten.Nodup := by
  rw [List.nodup_flatten]
  refine ⟨hown, ?_⟩
  exact ((not_DeclaredTwice_iff Ls).mp h).imp (fun hPQ x hx hx' => hPQ x hx hx')

/-- A fold that completes on a list completed on every front part of it. -/
theorem mergeAwsAuthConfigMaps.loop_front (lib : Lib) (pre post : List ConfigMap)
    (st res : List String × Slice RoleMapping × Slice UserMapping)
    (h : mergeAwsAuthConfigMaps.loop lib (pre ++ post) st = .ok res) :
    ∃ res', mergeAwsAuthConfigMaps.loop lib pre st = .ok res' := by
  rw [mergeAwsAuthConfigMaps.loop_append] at h
  cases hpre : mergeAwsAuthConfigMaps.loop lib pre st with
  | ok res' => exact ⟨res', rfl⟩
  | error e => rw [hpre] at h; simp at h

/-- The identifiers of the lists folded from sources whose own lists have pairwise
distinct identifiers are pairwise distinct. -/
theorem mergeAwsAuthConfigMaps.loop_nodup (lib : Lib) (S : List ConfigMap)
    (res : List String × Slice RoleMapping × Slice UserMapping)
    (hown : ∀ c ∈ S, ((rolesOf lib c).map (·.RoleArn)).Nodup ∧
      ((usersOf lib c).map (·.UserArn)).Nodup)
    (h : mergeAwsAuthConfigMaps.loop lib S ([], some [], some []) = .ok res) :
    ∃ RS US, res = (S.map (·.Name), some RS, some US) ∧
      (RS.map (·.RoleArn)).Nodup ∧ (US.map (·.UserArn)).Nodup := by
  obtain ⟨_, hR, hU, hres⟩ := mergeAwsAuthConfigMaps.loop_ok lib S res h
  refine ⟨_, _, hres, ?_, ?_⟩
  · rw [List.map_flatten, List.map_map]
    apply nodup_flatten_of_not_DeclaredTwice _ _ hR
    intro l hl
    rcases List.mem_map.mp hl with ⟨c, hc, rfl⟩
    exact (hown c hc).1
  · rw [List.map_flatten, List.map_map]
    apply nodup_flatten_of_not_DeclaredTwice _ _ hU
    intro l hl
    rcases List.mem_map.mp hl with ⟨c, hc, rfl⟩
    exact (hown c hc).2

/-- C28: when each source's own parsed role list has pairwise distinct RoleArn values
and its own parsed user list pairwise distinct UserArn values, and
`mergeAwsAuthConfigMaps` succeeds, the merged role list and the merged user list, whose
serializations are the data of the result, have pairwise distinct identifiers, and so
have the running lists after every step of the fold: the lists folded from any front
part of the source list. -/
theorem merged_lists_duplicate_free (lib : Lib) (now : Time) (S : Slice ConfigMap)
    (merged : ConfigMap)
    (hown : ∀ c ∈ S.elems, ((rolesOf lib c).map (·.RoleArn)).Nodup ∧
      ((usersOf lib c).map (·.UserArn)).Nodup)
    (h : mergeAwsAuthConfigMaps lib now S = (merged, none)) :
    (∃ (RS : List RoleMapping) (US : List UserMapping) (ry uy : String),
      mergeAwsAuthConfigMaps.loop lib S.elems ([], some [], some [])
        = .ok (S.elems.map (·.Name), some RS, some US) ∧
      lib.yamlMarshalRoles (some RS) = .ok ry ∧ lib.yamlMarshalUsers (some US) = .ok uy ∧
      merged.Data = [(mapRolesKey, ry), (mapUsersKey, uy)] ∧
      (RS.map (·.RoleArn)).Nodup ∧ (US.map (·.UserArn)).Nodup) ∧
    (∀ pre post, S.elems = pre ++ post →
      ∃ (RS : List RoleMapping) (US : List UserMapping),
        mergeAwsAuthConfigMaps.loop lib pre ([], some [], some [])
          = .ok (pre.map (·.Name), some RS, some US) ∧
        (RS.map (·.RoleArn)).Nodup ∧ (US.map (·.UserArn)).Nodup) := by
  obtain ⟨sj, ry, uy, hloop, _, hry, huy, hmerged⟩ := mergeAwsAuthConfigMaps_ok lib now S _ h
  constructor
  · obtain ⟨RS, US, hres, hRS, hUS⟩ := mergeAwsAuthConfigMaps.loop_nodup lib S.elems _ hown hloop
    simp only [Prod.mk.injEq, Option.some.injEq, true_and] at hres
    obtain ⟨hR, hU⟩ := hres
    subst hR hU
    exact ⟨_, _, ry, uy, hloop, hry, huy, by rw [hmerged], hRS, hUS⟩
  · intro pre post hS
    rw [hS] at hloop
    obtain ⟨res', hpre⟩ := mergeAwsAuthConfigMaps.loop_front lib pre post _ _ hloop
    have hown' : ∀ c ∈ pre, ((rolesOf lib c).map (·.RoleArn)).Nodup ∧
        ((usersOf lib c).map (·.UserArn)).Nodup := by
      intro c hc
      exact hown c (by rw [hS]; exact List.mem_append_left _ hc)
    obtain ⟨RS, US, hres, hRS, hUS⟩ := mergeAwsAuthConfigMaps.loop_nodup lib pre _ hown' hpre
    exact ⟨RS, US, by rw [hpre, hres], hRS, hUS⟩

theorem merged_lists_duplicate_free_witness :
    ∃ (RS : List RoleMapping) (US : List UserMapping) (ry uy : String),
      mergeAwsAuthConfigMaps.loop sampleLib [sampleSourceA, sampleSourceB, sampleSourceC]
          ([], some [], some [])
        = .ok (["team-a", "team-b", "team-c"], some RS, some US) ∧
      sampleLib.yamlMarshalRoles (some RS) = .ok ry ∧
      sampleLib.yamlMarshalUsers (some US) = .ok uy ∧
      (mergeAwsAuthConfigMaps sampleLib 7
          (some [sampleSourceA, sampleSourceB, sampleSourceC])).1.Data
        = [(mapRolesKey, ry), (mapUsersKey, uy)] ∧
      (RS.map (·.RoleArn)).Nodup ∧ (US.map (·.UserArn)).Nodup :=
  (merged_lists_duplicate_free sampleLib 7
    (some [sampleSourceA, sampleSourceB, sampleSourceC]) _ (by decide) rfl).1

/-! ## No source at all -/

/-- C29: on a source list without members (and encoders that serialize the empty
lists) `mergeAwsAuthConfigMaps` succeeds with the `aws-auth` object whose sources
annotation is the JSON rendering of the empty array and whose `mapRoles` and `mapUsers`
data are the serializations of the empty lists; hence, on a store that obeys the store
laws, a cycle whose listing returns no source while `kube-system/aws-auth` exists
succeeds with one `Get` and one `Update` of that identity, after which the store holds
this object without mappings there. -/
theorem merge_of_no_sources {σ : Type} (lib : Lib) (authMerger : AwsAuthMerger σ)
    (laws : StoreLaws authMerger.clientset) (now : Time) (sj ry uy : String)
    (hj : lib.jsonMarshal (some []) = .ok sj)
    (hr : lib.yamlMarshalRoles (some []) = .ok ry)
    (hu : lib.yamlMarshalUsers (some []) = .ok uy) :
    (∀ cms : Slice ConfigMap, cms.elems = [] →
      mergeAwsAuthConfigMaps lib now cms
        = ({ Name := mainAwsAuthConfigMapName
             Namespace := mainAwsAuthConfigMapNamespace
             Labels := [(managedByLabelKey, managedByLabelValue)]
             Annotations := [(sourcesAnnotationKey, sj),
                             (mergedTimestampAnnotationKey, lib.formatUTC now)]
             Data := [(mapRolesKey, ry), (mapUsersKey, uy)] }, none)) ∧
    (∀ fuel (w wl : World σ) (cms : Slice ConfigMap) (old : ConfigMap),
      listAwsAuthConfigMaps authMerger fuel w = some (wl, cms, none) → cms.elems = [] →
      authMerger.clientset.get w.store "kube-system" "aws-auth" = .ok old →
      ∃ w1, syncAwsAuthConfigMaps lib authMerger now fuel w = some (w1, none) ∧
        w1.calls = wl.calls ++ [ApiCall.get "kube-system" "aws-auth",
          ApiCall.update "kube-system"
            { Name := mainAwsAuthConfigMapName
              Namespace := mainAwsAuthConfigMapNamespace
              Labels := [(managedByLabelKey, managedByLabelValue)]
              Annotations := [(sourcesAnnotationKey, sj),
                              (mergedTimestampAnnotationKey, lib.formatUTC now)]
              Data := [(mapRolesKey, ry), (mapUsersKey, uy)] }] ∧
        authMerger.clientset.get w1.store "kube-system" "aws-auth"
          = .ok { Name := mainAwsAuthConfigMapName
                  Namespace := mainAwsAuthConfigMapNamespace
                  Labels := [(managedByLabelKey, managedByLabelValue)]
                  Annotations := [(sourcesAnnotationKey, sj),
                                  (mergedTimestampAnnotationKey, lib.formatUTC now)]
                  Data := [(mapRolesKey, ry), (mapUsersKey, uy)] }) := by
  have hmerge : ∀ cms : Slice ConfigMap, cms.elems = [] →
      mergeAwsAuthConfigMaps lib now cms
        = ({ Name := mainAwsAuthConfigMapName
             Namespace := mainAwsAuthConfigMapNamespace
             Labels := [(managedByLabelKey, managedByLabelValue)]
             Annotations := [(sourcesAnnotationKey, sj),
                             (mergedTimestampAnnotationKey, lib.formatUTC now)]
             Data := [(mapRolesKey, ry), (mapUsersKey, uy)] }, none) := by
    intro cms hcms
    simp only [mergeAwsAuthConfigMaps, hcms, mergeAwsAuthConfigMaps.loop, hj, hr, hu]
  refine ⟨hmerge, ?_⟩
  intro fuel w wl cms old hlist hcms hget
  have hstore : wl.store = w.store := (listAwsAuthConfigMaps_frame authMerger fuel w _ hlist).1
  obtain ⟨merged, hm⟩ : ∃ merged : ConfigMap, merged =
      { Name := mainAwsAuthConfigMapName
        Namespace := mainAwsAuthConfigMapNamespace
        Labels := [(managedByLabelKey, managedByLabelValue)]
        Annotations := [(sourcesAnnotationKey, sj),
                        (mergedTimestampAnnotationKey, lib.formatUTC now)]
        Data := [(mapRolesKey, ry), (mapUsersKey, uy)] } := ⟨_, rfl⟩
  rw [← hm] at hmerge ⊢
  have hns : merged.Namespace = "kube-system" := by rw [hm]; rfl
  have hname : merged.Name = "aws-auth" := by rw [hm]; rfl
  have hget' : authMerger.clientset.get wl.store merged.Namespace merged.Name = .ok old := by
    rw [hns, hname, hstore]; exact hget
  obtain ⟨st', c', hupd⟩ := laws.update_existing wl.store merged.Namespace merged old hget'
  have hup : upsertConfigMap authMerger wl merged
      = ({ store := st',
           calls := wl.calls ++ [ApiCall.get merged.Namespace merged.Name,
             ApiCall.update merged.Namespace merged] }, false, none) := by
    rw [upsertConfigMap_eq, hget']
    simp only [hupd]
  have hsync : syncAwsAuthConfigMaps lib authMerger now fuel w
      = some ((upsertConfigMap authMerger wl merged).1, none) := by
    simp only [syncAwsAuthConfigMaps, hlist, hmerge cms hcms, hup]
  refine ⟨_, hsync, ?_, ?_⟩
  · rw [hup, hns, hname]
  · have := upsertConfigMap_stored authMerger laws wl merged (by rw [hup])
    rw [hns, hname] at this
    exact this

theorem merge_of_no_sources_witness :
    mergeAwsAuthConfigMaps sampleLib 3 (some [])
      = ({ Name := "aws-auth"
           Namespace := "kube-system"
           Labels := [(managedByLabelKey, managedByLabelValue)]
           Annotations := [(sourcesAnnotationKey, "[]"),
                           (mergedTimestampAnnotationKey, "t3")]
           Data := [(mapRolesKey, "[]\n"), (mapUsersKey, "[]\n")] }, none) ∧
    ∃ w1, syncAwsAuthConfigMaps sampleLib sampleMerger 3 0 ⟨[sampleMainStale], []⟩
        = some (w1, none) ∧
      sampleClient.get w1.store "kube-system" "aws-auth"
        = .ok { Name := "aws-auth"
                Namespace := "kube-system"
                Labels := [(managedByLabelKey, managedByLabelValue)]
                Annotations := [(sourcesAnnotationKey, "[]"),
                                (mergedTimestampAnnotationKey, "t3")]
                Data := [(mapRolesKey, "[]\n"), (mapUsersKey, "[]\n")] } :=
  ⟨(merge_of_no_sources sampleLib sampleMerger sampleClient_laws 3 "[]" "[]\n" "[]\n"
      rfl rfl rfl).1 (some []) rfl,
   match (merge_of_no_sources sampleLib sampleMerger sampleClient_laws 3 "[]" "[]\n" "[]\n"
      rfl rfl rfl).2 0 ⟨[sampleMainStale], []⟩ _ _ sampleMainStale rfl rfl rfl with
   | ⟨w1, h1, _, h3⟩ => ⟨w1, h1, h3⟩⟩

/-! ## Migrating twice -/

/-- The role list a source declares depends on its data only. -/
theorem rolesOf_congr (lib : Lib) (c c' : ConfigMap) (h : c.Data = c'.Data) :
    rolesOf lib c = rolesOf lib c' := by
  simp only [rolesOf, getRoleMappingFromConfigMap, h]
  cases c'.Data.lookup mapRolesKey with
  | none => rfl
  | some raw =>
    simp only []
    cases lib.yamlUnmarshalRoles raw <;> rfl

/-- The user list a source declares depends on its data only. -/
theorem usersOf_congr (lib : Lib) (c c' : ConfigMap) (h : c.Data = c'.Data) :
    usersOf lib c = usersOf lib c' := by
  simp only [usersOf, getUserMappingFromConfigMap, h]
  cases c'.Data.lookup mapUsersKey with
  | none => rfl
  | some raw =>
    simp only []
    cases lib.yamlUnmarshalUsers raw <;> rfl

/-- Whether a source parses depends on its data only. -/
theorem Parses_congr (lib : Lib) (c c' : ConfigMap) (h : c.Data = c'.Data)
    (hp : Parses lib c) : Parses lib c' := by
  unfold Parses at hp ⊢
  simp only [getRoleMappingFromConfigMap, getUserMappingFromConfigMap, h] at hp
  simp only [getRoleMappingFromConfigMap, getUserMappingFromConfigMap]
  constructor
  · have h1 := hp.1
    cases hl : c'.Data.lookup mapRolesKey with
    | none => rfl
    | some raw =>
      rw [hl] at h1
      simp only [] at h1 ⊢
      cases hu : lib.yamlUnmarshalRoles raw with
      | ok v => rfl
      | error e => rw [hu] at h1; simp at h1
  · have h2 := hp.2
    cases hl : c'.Data.lookup mapUsersKey with
    | none => rfl
    | some raw =>
      rw [hl] at h2
      simp only [] at h2 ⊢
      cases hu : lib.yamlUnmarshalUsers raw with
      | ok v => rfl
      | error e => rw [hu] at h2; simp at h2

/-- An identifier that two different members of the source list declare is declared
twice. -/
theorem DeclaredTwice_of_two_sources (f : ConfigMap → List String) (S : List ConfigMap)
    (c1 c2 : ConfigMap) (h1 : c1 ∈ S) (h2 : c2 ∈ S) (hne : c1 ≠ c2) (x : String)
    (hx1 : x ∈ f c1) (hx2 : x ∈ f c2) : DeclaredTwice (S.map f) x := by
  obtain ⟨i, hi⟩ := List.mem_iff_getElem?.mp h1
  obtain ⟨j, hj⟩ := List.mem_iff_getElem?.mp h2
  have hij : i ≠ j := by
    intro h
    subst h
    rw [hi] at hj
    exact hne (Option.some.inj hj)
  rcases Nat.lt_or_gt_of_ne hij with hlt | hgt
  · exact ⟨i, j, hlt, f c1, f c2, by rw [List.getElem?_map, hi]; rfl,
      by rw [List.getElem?_map, hj]; rfl, hx1, hx2⟩
  · exact ⟨j, i, hgt, f c2, f c1, by rw [List.getElem?_map, hj]; rfl,
      by rw [List.getElem?_map, hi]; rfl, hx2, hx1⟩

/-- A source list in which some identifier is declared twice never merges, and when
all of its sources parse the error is a conflict. -/
theorem mergeAwsAuthConfigMaps_of_declared_twice (lib : Lib) (now : Time)
    (S : Slice ConfigMap) (x : String)
    (h : DeclaredTwice (roleArnsBySource lib S.elems) x ∨
      DeclaredTwice (userArnsBySource lib S.elems) x) :
    (mergeAwsAuthConfigMaps lib now S).1 = {} ∧
    (mergeAwsAuthConfigMaps lib now S).2 ≠ none ∧
    ((∀ c ∈ S.elems, Parses lib c) →
      ∃ e : MappingConflictErr,
        mergeAwsAuthConfigMaps lib now S = ({}, some (GoError.mappingConflict e))) := by
  cases hloop : mergeAwsAuthConfigMaps.loop lib S.elems ([], some [], some []) with
  | ok res =>
    obtain ⟨_, hR, hU, _⟩ := mergeAwsAuthConfigMaps.loop_ok lib S.elems res hloop
    rcases h with h | h
    · exact absurd h (hR x)
    · exact absurd h (hU x)
  | error e =>
    have hm := mergeAwsAuthConfigMaps_of_loop_error lib now S e hloop
    refine ⟨by rw [hm], by rw [hm]; simp, fun hp => ?_⟩
    rcases mergeAwsAuthConfigMaps.loop_error lib S.elems e hloop with
      ⟨c, hc, hpe⟩ | ⟨y, he, _⟩ | ⟨y, he, _⟩
    · have := hp c hc
      rcases hpe with hpe | hpe
      · rw [this.1] at hpe; simp at hpe
      · rw [this.2] at hpe; simp at hpe
    · exact ⟨_, by rw [hm, he]⟩
    · exact ⟨_, by rw [hm, he]⟩

/-- On a store that obeys the store laws, migrating an unmanaged main object creates
its copy under a name not in use before and changes no other identity. -/
theorem migratePreExistingConfigMap_unmanaged {σ : Type} (authMerger : AwsAuthMerger σ)
    (laws : StoreLaws authMerger.clientset) (w : World σ) (main : ConfigMap)
    (hget : authMerger.clientset.get w.store "kube-system" "aws-auth" = .ok main)
    (hun : isManagedByMerger main = false) :
    ∃ suffix,
      (migratePreExistingConfigMap authMerger w).2
        = (some (migratedCopy authMerger main suffix), none) ∧
      (∃ e, authMerger.clientset.get w.store authMerger.namespace_
              ("preexisting-aws-auth" ++ suffix) = .error e) ∧
      authMerger.clientset.get (migratePreExistingConfigMap authMerger w).1.store
          authMerger.namespace_ ("preexisting-aws-auth" ++ suffix)
        = .ok (migratedCopy authMerger main suffix) ∧
      (∀ ns' name', (ns', name') ≠ (authMerger.namespace_, "preexisting-aws-auth" ++ suffix) →
        authMerger.clientset.get (migratePreExistingConfigMap authMerger w).1.store ns' name'
          = authMerger.clientset.get w.store ns' name') ∧
      authMerger.clientset.get (migratePreExistingConfigMap authMerger w).1.store
          "kube-system" "aws-auth" = .ok main := by
  obtain ⟨st', suffix, e, hc, hfresh, hnf⟩ := laws.create_generated w.store authMerger.namespace_
    { GenerateName := "preexisting-aws-auth"
      Namespace := authMerger.namespace_
      Labels := authMerger.autoCreateLabels
      Annotations := [("gruntwork.io/aws-auth-merger-created", "true")]
      Data := main.Data } rfl (by show "preexisting-aws-auth" ≠ ""; decide)
  obtain ⟨hstored, hframe⟩ := laws.create_stores _ _ _ _ _ hc
  refine ⟨suffix, ?_⟩
  rw [migratePreExistingConfigMap_eq, hget]
  simp only [hun, Bool.false_eq_true, ↓reduceIte, hc]
  refine ⟨rfl, ⟨e, hfresh⟩, hstored, hframe, ?_⟩
  rw [hframe "kube-system" "aws-auth" ?_, hget]
  intro h
  have h2 := congrArg (fun p => p.2.length) h
  simp only [String.length_append] at h2
  have h3 : "aws-auth".length = 8 := by decide
  have h4 : "preexisting-aws-auth".length = 20 := by decide
  omega

/-- C30 (as stated, refuted): the store holds an unmanaged `kube-system/aws-auth` whose
data parses to one role.  Two calls of `migratePreExistingConfigMap` in a row create
two copies of it; the source list made of a source with a malformed role list followed
by the two copies does not fail with a conflict: the merge stops at the first source
with its parse error. -/
theorem migrate_twice_counterexample :
    isManagedByMerger sampleMainStale = false ∧
    Parses sampleLib sampleMainStale ∧
    rolesOf sampleLib sampleMainStale = [sampleRoleTwo] ∧
    (migratePreExistingConfigMap sampleMerger ⟨[sampleMainStale], []⟩).2
      = (some (migratedCopy sampleMerger sampleMainStale "xxxxxxxxx"), none) ∧
    (migratePreExistingConfigMap sampleMerger
        (migratePreExistingConfigMap sampleMerger ⟨[sampleMainStale], []⟩).1).2
      = (some (migratedCopy sampleMerger sampleMainStale "xxxxxxxxxxxxxxxxxxxxxxxxxxxxxx"),
          none) ∧
    mergeAwsAuthConfigMaps sampleLib 0
        (some [sampleSourceBad, migratedCopy sampleMerger sampleMainStale "xxxxxxxxx",
          migratedCopy sampleMerger sampleMainStale "xxxxxxxxxxxxxxxxxxxxxxxxxxxxxx"])
      = ({}, some (GoError.invalidMappingList
          ⟨roleMappingType, "team-bad", ⟨"", "yaml: unmarshal errors"⟩⟩)) := by
  refine ⟨by decide, by decide, rfl, rfl, rfl, rfl⟩

/-- C30 (amended): on a store that obeys the store laws and holds an unmanaged
`kube-system/aws-auth`, `migratePreExistingConfigMap` succeeds with a copy of its data
and leaves the object as it was, still unmanaged, so that a second call right after
succeeds with a second copy of the same data under another name, and the store then
holds both copies.  When that data declares at least one role or user,
`mergeAwsAuthConfigMaps` on any source list containing both copies fails, with the
zero-valued ConfigMap, and the error is a MappingConflictErr whenever every source of
the list parses. -/
theorem migrate_twice_conflict {σ : Type} (authMerger : AwsAuthMerger σ)
    (laws : StoreLaws authMerger.clientset) (w : World σ) (main : ConfigMap)
    (hget : authMerger.clientset.get w.store "kube-system" "aws-auth" = .ok main)
    (hun : isManagedByMerger main = false) :
    ∃ s1 s2, s1 ≠ s2 ∧
      (migratePreExistingConfigMap authMerger w).2
        = (some (migratedCopy authMerger main s1), none) ∧
      authMerger.clientset.get (migratePreExistingConfigMap authMerger w).1.store
          "kube-system" "aws-auth" = .ok main ∧
      (migratePreExistingConfigMap authMerger (migratePreExistingConfigMap authMerger w).1).2
        = (some (migratedCopy authMerger main s2), none) ∧
      authMerger.clientset.get
          (migratePreExistingConfigMap authMerger
            (migratePreExistingConfigMap authMerger w).1).1.store
          authMerger.namespace_ ("preexisting-aws-auth" ++ s1)
        = .ok (migratedCopy authMerger main s1) ∧
      authMerger.clientset.get
          (migratePreExistingConfigMap authMerger
            (migratePreExistingConfigMap authMerger w).1).1.store
          authMerger.namespace_ ("preexisting-aws-auth" ++ s2)
        = .ok (migratedCopy authMerger main s2) ∧
      (migratedCopy authMerger main s1).Data = main.Data ∧
      (migratedCopy authMerger main s2).Data = main.Data ∧
      ∀ (lib : Lib) (now : Time) (S : Slice ConfigMap),
        migratedCopy authMerger main s1 ∈ S.elems →
        migratedCopy authMerger main s2 ∈ S.elems →
        (rolesOf lib main ≠ [] ∨ usersOf lib main ≠ []) →
        (mergeAwsAuthConfigMaps lib now S).1 = {} ∧
        (mergeAwsAuthConfigMaps lib now S).2 ≠ none ∧
        ((∀ c ∈ S.elems, Parses lib c) →
          ∃ e : MappingConflictErr,
            mergeAwsAuthConfigMaps lib now S = ({}, some (GoError.mappingConflict e))) := by
  obtain ⟨s1, hres1, _, hstored1, _, hmain1⟩ :=
    migratePreExistingConfigMap_unmanaged authMerger laws w main hget hun
  obtain ⟨s2, hres2, ⟨e2, hfresh2⟩, hstored2, hframe2, _⟩ :=
    migratePreExistingConfigMap_unmanaged authMerger laws
      (migratePreExistingConfigMap authMerger w).1 main hmain1 hun
  have hne : s1 ≠ s2 := by
    intro h
    subst h
    rw [hstored1] at hfresh2
    simp at hfresh2
  have hname : "preexisting-aws-auth" ++ s1 ≠ "preexisting-aws-auth" ++ s2 := by
    intro h
    apply hne
    have := congrArg String.data h
    simp only [String.data_append] at this
    exact String.ext (List.append_cancel_left this)
  have hcopy : migratedCopy authMerger main s1 ≠ migratedCopy authMerger main s2 := by
    intro h
    exact hname (congrArg ConfigMap.Name h)
  refine ⟨s1, s2, hne, hres1, hmain1, hres2, ?_, hstored2, rfl, rfl, ?_⟩
  · rw [hframe2 _ _ ?_, hstored1]
    intro h
    exact hname (congrArg Prod.snd h)
  · intro lib now S h1 h2 hdata
    rcases hdata with hr | hu
    · obtain ⟨r, hr'⟩ := List.exists_mem_of_ne_nil _ hr
      apply mergeAwsAuthConfigMaps_of_declared_twice lib now S r.RoleArn
      left
      apply DeclaredTwice_of_two_sources (fun c => (rolesOf lib c).map (·.RoleArn)) S.elems
        _ _ h1 h2 hcopy
      · show r.RoleArn ∈ (rolesOf lib (migratedCopy authMerger main s1)).map (·.RoleArn)
        rw [rolesOf_congr lib (migratedCopy authMerger main s1) main rfl]
        exact List.mem_map_of_mem _ hr'
      · show r.RoleArn ∈ (rolesOf lib (migratedCopy authMerger main s2)).map (·.RoleArn)
        rw [rolesOf_congr lib (migratedCopy authMerger main s2) main rfl]
        exact List.mem_map_of_mem _ hr'
    · obtain ⟨r, hr'⟩ := List.exists_mem_of_ne_nil _ hu
      apply mergeAwsAuthConfigMaps_of_declared_twice lib now S r.UserArn
      right
      apply DeclaredTwice_of_two_sources (fun c => (usersOf lib c).map (·.UserArn)) S.elems
        _ _ h1 h2 hcopy
      · show r.UserArn ∈ (usersOf lib (migratedCopy authMerger main s1)).map (·.UserArn)
        rw [usersOf_congr lib (migratedCopy authMerger main s1) main rfl]
        exact List.mem_map_of_mem _ hr'
      · show r.UserArn ∈ (usersOf lib (migratedCopy authMerger main s2)).map (·.UserArn)
        rw [usersOf_congr lib (migratedCopy authMerger main s2) main rfl]
        exact List.mem_map_of_mem _ hr'

theorem migrate_twice_conflict_witness :
    sampleClient.get [sampleMainStale] "kube-system" "aws-auth" = .ok sampleMainStale ∧
    isManagedByMerger sampleMainStale = false ∧
    ∃ s1 s2, s1 ≠ s2 ∧
      (migratePreExistingConfigMap sampleMerger ⟨[sampleMainStale], []⟩).2
        = (some (migratedCopy sampleMerger sampleMainStale s1), none) ∧
      (migratePreExistingConfigMap sampleMerger
          (migratePreExistingConfigMap sampleMerger ⟨[sampleMainStale], []⟩).1).2
        = (some (migratedCopy sampleMerger sampleMainStale s2), none) ∧
      ∃ e : MappingConflictErr,
        mergeAwsAuthConfigMaps sampleLib 0
            (some [sampleSourceA, migratedCopy sampleMerger sampleMainStale s1,
              migratedCopy sampleMerger sampleMainStale s2])
          = ({}, some (GoError.mappingConflict e)) :=
  ⟨rfl, by decide,
   match migrate_twice_conflict sampleMerger sampleClient_laws ⟨[sampleMainStale], []⟩
      sampleMainStale rfl (by decide) with
   | ⟨s1, s2, hne, h1, _, h2, _, _, _, _, hmerge⟩ =>
     ⟨s1, s2, hne, h1, h2,
      (hmerge sampleLib 0
        (some [sampleSourceA, migratedCopy sampleMerger sampleMainStale s1,
          migratedCopy sampleMerger sampleMainStale s2])
        (by simp [Slice.elems]) (by simp [Slice.elems]) (Or.inl (by decide))).2.2
        (by
          intro c hc
          simp only [Slice.elems, List.mem_cons, List.mem_singleton, List.not_mem_nil,
            or_false] at hc
          rcases hc with rfl | rfl | rfl
          · decide
          · exact Parses_congr sampleLib sampleMainStale _ rfl (by decide)
          · exact Parses_congr sampleLib sampleMainStale _ rfl (by decide))⟩⟩

/-! ## The change notifier -/

/-- C21 (the code diverges): a handler called with a `*corev1.ConfigMap` completes and
sends exactly one value on `notifyChan`; called with a payload of another dynamic type,
such as the tombstone `cache.DeletedFinalStateUnknown` that a delete handler can
receive, it panics in the type assertion made for the debug message and sends
nothing. -/
theorem handlers_panic_on_other_payload (controller : ConfigMapWatchController) :
    controller.configMapDeleted (Payload.other "cache.DeletedFinalStateUnknown")
      = .error ("interface conversion: interface {} is cache.DeletedFinalStateUnknown, " ++
          "not *v1.ConfigMap") ∧
    (∀ dynamicType obj,
      (∃ msg, controller.configMapAdded (Payload.other dynamicType) = .error msg) ∧
      (∃ msg, controller.configMapDeleted (Payload.other dynamicType) = .error msg) ∧
      (∃ msg, controller.configMapUpdated (Payload.other dynamicType) obj = .error msg) ∧
      (∃ msg, controller.configMapUpdated obj (Payload.other dynamicType) = .error msg)) ∧
    (∀ obj updated : Option ConfigMap,
      controller.configMapAdded (Payload.configMap obj)
        = .ok { notifyChan := controller.notifyChan ++ [()] } ∧
      controller.configMapDeleted (Payload.configMap obj)
        = .ok { notifyChan := controller.notifyChan ++ [()] } ∧
      controller.configMapUpdated (Payload.configMap obj) (Payload.configMap updated)
        = .ok { notifyChan := controller.notifyChan ++ [()] }) := by
  refine ⟨rfl, ?_, ?_⟩
  · intro dynamicType obj
    refine ⟨⟨_, rfl⟩, ⟨_, rfl⟩, ⟨_, rfl⟩, ?_⟩
    cases obj with
    | configMap o => exact ⟨_, rfl⟩
    | other t => exact ⟨_, rfl⟩
  · intro obj updated
    exact ⟨rfl, rfl, rfl⟩

/-! ## The steady state of `eventLoop` -/

/-- A round that takes the case of `syncErrChan` hands on the value received. -/
theorem eventLoop.round_syncErrChan (interval : Nat)
    (sync : Nat → Nat → Nat × Option GoError) (s : EventLoop) (err : Option GoError)
    (errChan : ErrChan) (h : s.debouncer.errChan.recv = some (err, errChan)) :
    eventLoop.round interval sync s .syncErrChan
      = some ({ s with debouncer := { s.debouncer with errChan := errChan } }, err) := by
  simp only [eventLoop.round, h]
  cases err <;> rfl

/-- A round returns an error only when it received that error from `syncErrChan`. -/
theorem eventLoop.round_returns (interval : Nat)
    (sync : Nat → Nat → Nat × Option GoError) (s s' : EventLoop) (c : SelectCase)
    (e : GoError) (h : eventLoop.round interval sync s c = some (s', some e)) :
    c = .syncErrChan ∧ ∃ errChan, s.debouncer.errChan.recv = some (some e, errChan) := by
  cases c with
  | notifyChan => simp [eventLoop.round] at h
  | tickerC tick => simp [eventLoop.round] at h
  | syncErrChan =>
    refine ⟨rfl, ?_⟩
    cases hr : s.debouncer.errChan.recv with
    | none => simp [eventLoop.round, hr] at h
    | some p =>
      obtain ⟨err, errChan⟩ := p
      rw [eventLoop.round_syncErrChan interval sync s err errChan hr] at h
      simp only [Option.some.injEq, Prod.mk.injEq] at h
      exact ⟨errChan, by rw [h.2]⟩

/-- A loop that returns an error received it from `syncErrChan` in its last round. -/
theorem eventLoop.steady_returns (interval : Nat)
    (sync : Nat → Nat → Nat × Option GoError) (events : List LoopEvent) :
    ∀ (s s' : EventLoop) (e : GoError),
      eventLoop.steady interval sync s events = (s', some e) →
      ∃ before after s1 errChan, events = before ++ .select .syncErrChan :: after ∧
        eventLoop.steady interval sync s before = (s1, none) ∧
        s1.debouncer.errChan.recv = some (some e, errChan) := by
  induction events with
  | nil =>
    intro s s' e h
    simp [eventLoop.steady] at h
  | cons ev events ih =>
    intro s s' e h
    cases ev with
    | pass ticks =>
      simp only [eventLoop.steady] at h
      obtain ⟨before, after, s1, errChan, hev, hrun, hrecv⟩ := ih _ _ _ h
      exact ⟨.pass ticks :: before, after, s1, errChan, by rw [hev]; rfl,
        by simp only [eventLoop.steady]; exact hrun, hrecv⟩
    | select c =>
      simp only [eventLoop.steady] at h
      cases hr : eventLoop.round interval sync s c with
      | none =>
        rw [hr] at h
        simp only [] at h
        obtain ⟨before, after, s1, errChan, hev, hrun, hrecv⟩ := ih _ _ _ h
        exact ⟨.select c :: before, after, s1, errChan, by rw [hev]; rfl,
          by simp only [eventLoop.steady, hr]; exact hrun, hrecv⟩
      | some p =>
        obtain ⟨s2, _ | e2⟩ := p
        · rw [hr] at h
          simp only [] at h
          obtain ⟨before, after, s1, errChan, hev, hrun, hrecv⟩ := ih _ _ _ h
          exact ⟨.select c :: before, after, s1, errChan, by rw [hev]; rfl,
            by simp only [eventLoop.steady, hr]; exact hrun, hrecv⟩
        · rw [hr] at h
          simp only [Prod.mk.injEq, Option.some.injEq] at h
          obtain ⟨hc, errChan, hrecv⟩ := eventLoop.round_returns interval sync s s2 c e2 hr
          subst hc
          exact ⟨[], events, s, errChan, rfl, rfl, by rw [← h.2]; exact hrecv⟩

/-- C22: one round of the steady-state loop.  A round that receives a value from the
result channel of the debouncer ends the loop with exactly that value when it is a
non-nil error and goes on to the next round when it is nil; a round on a notifier
signal and a round on a ticker tick call the debounced sync exactly once and go on to
the next round; a round returns an error only when it received that error from the
result channel, and so does the loop along any sequence of events. -/
theorem event_loop_steady_state (interval : Nat) (sync : Nat → Nat → Nat × Option GoError)
    (s : EventLoop) :
    (∀ err errChan, s.debouncer.errChan.recv = some (err, errChan) →
      eventLoop.round interval sync s .syncErrChan
        = some ({ s with debouncer := { s.debouncer with errChan := errChan } }, err)) ∧
    eventLoop.round interval sync s .notifyChan
      = some ({ debouncer := s.debouncer.debounced interval sync
                debouncedSyncCalls := s.debouncedSyncCalls + 1 }, none) ∧
    (∀ tick, eventLoop.round interval sync s (.tickerC tick)
      = some ({ debouncer := s.debouncer.debounced interval sync
                debouncedSyncCalls := s.debouncedSyncCalls + 1 }, none)) ∧
    (∀ c s' e, eventLoop.round interval sync s c = some (s', some e) →
      c = .syncErrChan ∧ ∃ errChan, s.debouncer.errChan.recv = some (some e, errChan)) ∧
    (∀ events s' e, eventLoop.steady interval sync s events = (s', some e) →
      ∃ before after s1 errChan, events = before ++ .select .syncErrChan :: after ∧
        eventLoop.steady interval sync s before = (s1, none) ∧
        s1.debouncer.errChan.recv = some (some e, errChan)) :=
  ⟨fun err errChan h => eventLoop.round_syncErrChan interval sync s err errChan h,
   rfl, fun _ => rfl,
   fun c s' e h => eventLoop.round_returns interval sync s s' c e h,
   fun events s' e h => eventLoop.steady_returns interval sync events s s' e h⟩

theorem event_loop_steady_state_witness :
    eventLoop.round 2 sampleFunc
        ⟨{ debounceNoArgsFunc 0 with
            errChan := ⟨[some (GoError.lib ⟨"", "DebouncerTestError"⟩), none], []⟩ }, 4⟩
        .syncErrChan
      = some (⟨{ debounceNoArgsFunc 0 with errChan := ⟨[none], []⟩ }, 4⟩,
          some (GoError.lib ⟨"", "DebouncerTestError"⟩)) :=
  (event_loop_steady_state 2 sampleFunc
    ⟨{ debounceNoArgsFunc 0 with
        errChan := ⟨[some (GoError.lib ⟨"", "DebouncerTestError"⟩), none], []⟩ }, 4⟩).1
    _ _ rfl

/-! ## A failing cycle in the steady state -/

/-- C23 (as stated, refuted): the loop of the sample merger, with a debounce interval of
two ticks and cycles of one tick, in a store with a malformed source.  The signal leads
to a cycle that fails with the parse error; when the loop receives it from the result
channel it returns it, so that the next signal is not served and no second cycle is
run, although that cycle, on the fixed store, would succeed.  The same happens with two
sources in conflict. -/
theorem steady_state_failure_counterexample :
    eventLoop.steady 2 (sampleCycles sampleWorldBad) ⟨debounceNoArgsFunc 0, 0⟩
        [.select .notifyChan, .pass 4, .select .syncErrChan,
         .select .notifyChan, .pass 4, .select .syncErrChan]
      = (⟨{ now := 4, timer := some ⟨2, false⟩, errChan := ⟨[], []⟩, running := [],
            executions := [⟨2, 3, some (GoError.invalidMappingList
              ⟨roleMappingType, "team-bad", ⟨"", "yaml: unmarshal errors"⟩⟩)⟩] }, 1⟩,
          some (GoError.invalidMappingList
            ⟨roleMappingType, "team-bad", ⟨"", "yaml: unmarshal errors"⟩⟩)) ∧
    eventLoop.steady 2 (sampleCycles sampleWorldConflict) ⟨debounceNoArgsFunc 0, 0⟩
        [.select .notifyChan, .pass 4, .select .syncErrChan,
         .select (.tickerC 9), .pass 4, .select .syncErrChan]
      = (⟨{ now := 4, timer := some ⟨2, false⟩, errChan := ⟨[], []⟩, running := [],
            executions := [⟨2, 3, some (GoError.mappingConflict ⟨roleMappingType, "asdf"⟩)⟩] },
            1⟩,
          some (GoError.mappingConflict ⟨roleMappingType, "asdf"⟩)) ∧
    (sampleCycles sampleWorldBad 1 6).2 = none := by
  refine ⟨?_, ?_, ?_⟩ <;> rfl

/-- C23 (amended): in the steady state, the debounce interval being positive, with no
execution under way, no timer of an earlier call waiting and nothing waiting in the
result channel, a notifier signal or ticker tick leads to a cycle one interval later;
when that cycle fails, with a parse error, a conflict or any other error, and
the loop then receives its result, the loop returns exactly that error: it terminates,
the later events are not served and no further cycle is run by it. -/
theorem steady_state_failure_is_fatal (interval : Nat)
    (sync : Nat → Nat → Nat × Option GoError) (s : EventLoop) (c : SelectCase)
    (e : GoError) (ticks : Nat) (rest : List LoopEvent) (hpos : 0 < interval)
    (hidle : s.debouncer.running = []) (hpend : s.debouncer.pending = [])
    (hchan : s.debouncer.errChan = ⟨[], []⟩) (hc : c ≠ .syncErrChan)
    (hfail : (sync s.debouncer.executions.length (s.debouncer.now + interval)).2 = some e)
    (hticks : interval + (sync s.debouncer.executions.length
      (s.debouncer.now + interval)).1 ≤ ticks) :
    eventLoop.steady interval sync s
        (.select c :: .pass ticks :: .select .syncErrChan :: rest)
      = (⟨{ now := s.debouncer.now + ticks
            timer := some ⟨s.debouncer.now + interval, false⟩
            errChan := ⟨[], []⟩
            running := []
            executions := s.debouncer.executions ++
              [⟨s.debouncer.now + interval,
                s.debouncer.now + interval +
                  (sync s.debouncer.executions.length (s.debouncer.now + interval)).1,
                some e⟩] }, s.debouncedSyncCalls + 1⟩, some e) := by
  have hround : eventLoop.round interval sync s c
      = some ({ debouncer := s.debouncer.debounced interval sync
                debouncedSyncCalls := s.debouncedSyncCalls + 1 }, none) := by
    cases c with
    | notifyChan => rfl
    | tickerC tick => rfl
    | syncErrChan => exact absurd rfl hc
  have hwait : (s.debouncer.debounced interval sync).wait sync ticks
      = { now := s.debouncer.now + ticks
          timer := some ⟨s.debouncer.now + interval, false⟩
          errChan := ⟨[some e], []⟩
          running := []
          executions := s.debouncer.executions ++
            [⟨s.debouncer.now + interval,
              s.debouncer.now + interval +
                (sync s.debouncer.executions.length (s.debouncer.now + interval)).1,
              some e⟩] } := by
    rw [Debouncer.debounced_idle interval sync s.debouncer hpos hidle hpend,
      Debouncer.wait_quiet]
    unfold Debouncer.quiet
    have h1 : s.debouncer.now + interval +
        (sync s.debouncer.executions.length (s.debouncer.now + interval)).1
          ≤ s.debouncer.now + ticks := by omega
    have h2 : ¬ (s.debouncer.now + ticks < s.debouncer.now + interval) := by omega
    have h3 : ¬ (s.debouncer.now + interval ≤ s.debouncer.now + ticks ∧
        s.debouncer.now + ticks < s.debouncer.now + interval +
          (sync s.debouncer.executions.length (s.debouncer.now + interval)).1) := by omega
    simp only [h1, h2, h3, if_true, if_false, decide_False, hfail, hchan]
    rfl
  simp only [eventLoop.steady, hround, hwait]
  rfl

theorem steady_state_failure_is_fatal_witness :
    syncAwsAuthConfigMaps sampleLib sampleMerger 2 0 sampleWorldBad
      = some ({ store := [sampleSourceA, sampleSourceBad, sampleMainConfigMap],
                calls := [ApiCall.list "aws-auth-merger" "" ""] },
              some (GoError.invalidMappingList
                ⟨roleMappingType, "team-bad", ⟨"", "yaml: unmarshal errors"⟩⟩)) ∧
    eventLoop.steady 2 (sampleCycles sampleWorldBad) ⟨debounceNoArgsFunc 0, 0⟩
        (.select .notifyChan :: .pass 3 :: .select .syncErrChan ::
          [.select .notifyChan, .pass 3, .select .syncErrChan])
      = (⟨{ now := (debounceNoArgsFunc 0).now + 3
            timer := some ⟨(debounceNoArgsFunc 0).now + 2, false⟩
            errChan := ⟨[], []⟩
            running := []
            executions := (debounceNoArgsFunc 0).executions ++
              [⟨(debounceNoArgsFunc 0).now + 2,
                (debounceNoArgsFunc 0).now + 2 +
                  (sampleCycles sampleWorldBad (debounceNoArgsFunc 0).executions.length
                    ((debounceNoArgsFunc 0).now + 2)).1,
                some (GoError.invalidMappingList
                  ⟨roleMappingType, "team-bad", ⟨"", "yaml: unmarshal errors"⟩⟩)⟩] },
            0 + 1⟩,
          some (GoError.invalidMappingList
            ⟨roleMappingType, "team-bad", ⟨"", "yaml: unmarshal errors"⟩⟩)) :=
  ⟨rfl, steady_state_failure_is_fatal 2 (sampleCycles sampleWorldBad)
    ⟨debounceNoArgsFunc 0, 0⟩ .notifyChan _ 3
    [.select .notifyChan, .pass 3, .select .syncErrChan] (by decide) rfl rfl rfl
    (by decide) rfl (by decide)⟩

end EksAwsAuthMerger
